import Mathlib

/-!
# Feature extraction of `src/lio/featureExtract.cpp`

A shallow embedding of the per-scan pipeline of class `FeatureExtract`
(`projectPointCloud`, `cloudExtraction`, `calculateSmoothness`,
`markOccludedPoints`, `extractFeatures`) and theorems about it.

Conventions of the embedding.

* `float` values are exact rationals (`ℚ`); the literals `0.3` and `0.02` are
  `3/10` and `2/100`; `int` values are unbounded integers (`Int`).
* Every C++ array (`std::vector`, `new T[]`, `pcl::PointCloud::points`) is a
  `Buf`: a size and the memory contents.  Every read and write is bounds
  checked; an access outside `[0, size)` is the fault `none`.  The contents of
  a buffer that the code never initialised are arbitrary.
* Loops are `forLoop` / `forLoopBreak` over the list of the loop variable's
  values.
* Library code that is not part of the file is a field of `Collaborators`.
-/

namespace Lidar

/-! ## Data model -/

/-- The sensor kinds of `enum class SensorType`. -/
inductive SensorType where
  | VELODYNE
  | OUSTER
  | ROBOSENSE
  | LIVOX
deriving DecidableEq

/-- The sort key `struct smoothness_t`; `ind` is a `size_t`. -/
structure smoothness_t where
  value : ℚ
  ind : Nat
deriving DecidableEq

/-- The comparator `struct by_value`. -/
def by_value (left right : smoothness_t) : Bool :=
  decide (left.value < right.value)

/-- The canonical point `PointType`, with the seven fields the file uses:
`normal_x` is the relative time, `normal_y` the ring, `normal_z` the feature tag. -/
structure PointType where
  x : ℚ
  y : ℚ
  z : ℚ
  intensity : ℚ
  normal_x : ℚ
  normal_y : ℚ
  normal_z : ℚ
deriving DecidableEq

/-- A C++ array: its number of elements and the contents of its memory. -/
structure Buf (α : Type) where
  size : Int
  data : Int → α

/-- Bounds-checked read `b[i]`. -/
def Buf.get {α : Type} (b : Buf α) (i : Int) : Option α :=
  if 0 ≤ i ∧ i < b.size then some (b.data i) else none

/-- Bounds-checked write `b[i] = v`. -/
def Buf.set {α : Type} (b : Buf α) (i : Int) (v : α) : Option (Buf α) :=
  if 0 ≤ i ∧ i < b.size then some { b with data := Function.update b.data i v } else none

/-- The call `push_back(v)` of a vector. -/
def Buf.push {α : Type} (b : Buf α) (v : α) : Buf α :=
  { size := b.size + 1, data := Function.update b.data b.size v }

/-- The call `clear()` of a vector: the size becomes 0, the memory is kept. -/
def Buf.clear {α : Type} (b : Buf α) : Buf α :=
  { b with size := 0 }

/-- A `cv::Mat` of `float`. -/
structure Mat where
  rows : Int
  cols : Int
  data : Int → Int → ℚ

/-- Bounds-checked read `m.at<float>(r, c)`. -/
def Mat.at (m : Mat) (r c : Int) : Option ℚ :=
  if 0 ≤ r ∧ r < m.rows ∧ 0 ≤ c ∧ c < m.cols then some (m.data r c) else none

/-- Bounds-checked write `m.at<float>(r, c) = v`. -/
def Mat.set (m : Mat) (r c : Int) (v : ℚ) : Option Mat :=
  if 0 ≤ r ∧ r < m.rows ∧ 0 ≤ c ∧ c < m.cols then
    some { m with data := Function.update m.data r (Function.update (m.data r) c v) }
  else none

/-- The sentinel `FLT_MAX` of an empty range-image cell. -/
def FLT_MAX : ℚ := 340282346638528859811704183484516925440

/-- The message `LIO_Localization::cloud_info`, the four arrays the file fills. -/
structure cloud_info where
  startRingIndex : Buf Int
  endRingIndex : Buf Int
  pointColInd : Buf Int
  pointRange : Buf ℚ

/-- Code outside the file that the pipeline calls. -/
structure Collaborators where
  /-- The helper `pointDistance` of `my_utility.h`, for a point whose coordinates are
  numbers. -/
  pointDistance : PointType → ℚ
  /-- The value `-round((horizonAngle - 90.0) / ang_res_x) + Horizon_SCAN / 2` of a point,
  floating-point trigonometry. -/
  azimuthColumn : PointType → Int
  /-- The rearrangement `std::sort(first, last, by_value())` makes of a range of records. -/
  sort : List smoothness_t → List smoothness_t
  /-- The filter `pcl::VoxelGrid`. -/
  downSizeFilter : List PointType → List PointType

/-- The members of class `FeatureExtract` that the pipeline uses.  `surfaceCloudScan` is the
local variable of `extractFeatures`; `cornerInd` and `surfaceInd` are ghost fields: the
extracted-sequence index of every point pushed to `cornerCloud`, resp. to `surfaceCloudScan`. -/
structure FeatureExtract where
  sensor : SensorType
  N_SCAN : Int
  Horizon_SCAN : Int
  downsampleRate : Int
  lidarMinRange : ℚ
  lidarMaxRange : ℚ
  edgeThreshold : ℚ
  surfThreshold : ℚ
  inputCloud : List PointType
  fullCloud : Buf PointType
  extractedCloud : Buf PointType
  cornerCloud : List PointType
  surfaceCloud : List PointType
  surfaceCloudScan : List PointType
  cloudInfo : cloud_info
  rangeMat : Mat
  cloudSmoothness : Buf smoothness_t
  cloudCurvature : Buf ℚ
  cloudNeighborPicked : Buf Int
  cloudLabel : Buf Int
  columnIdnCountVec : Buf Int
  cornerInd : List Int
  surfaceInd : List Int

/-! ## Control flow -/

/-- The values `lo, lo+1, ..., hi-1` of the loop `for (int i = lo; i < hi; ++i)`. -/
def intRange (lo hi : Int) : List Int :=
  (List.range (hi - lo).toNat).map (fun (k : Nat) => lo + (k : Int))

/-- A loop without `break`: the body runs on each value in turn, a fault ends the run. -/
def forLoop {σ ι : Type} (body : σ → ι → Option σ) : List ι → σ → Option σ
  | [], s => some s
  | i :: rest, s =>
    match body s i with
    | none => none
    | some s' => forLoop body rest s'

/-- A loop with `break`: the body returns the new state and whether it executed `break`. -/
def forLoopBreak {σ ι : Type} (body : σ → ι → Option (σ × Bool)) : List ι → σ → Option σ
  | [], s => some s
  | i :: rest, s =>
    match body s i with
    | none => none
    | some (s', true) => some s'
    | some (s', false) => forLoopBreak body rest s'

/-- Conversion of a `float` to `int`: truncation toward zero. -/
def floatToInt (q : ℚ) : Int :=
  Int.tdiv q.num q.den

/-! ## `projectPointCloud` -/

/-- The local `thisPoint` built from an input point. -/
def thisPointOf (p : PointType) : PointType :=
  { x := p.x, y := p.y, z := p.z, intensity := p.intensity,
    normal_x := p.normal_x, normal_y := p.normal_y, normal_z := p.normal_z }

/-- The column of a point and the state after computing it: the running per-ring counter for
`LIVOX`, the azimuth column wrapped once for every other sensor. -/
def columnIdnOf (env : Collaborators) (fe : FeatureExtract) (thisPoint : PointType)
    (rowIdn : Int) : Option (Int × FeatureExtract) :=
  if fe.sensor = SensorType.LIVOX then
    match fe.columnIdnCountVec.get rowIdn with
    | none => none
    | some c =>
      match fe.columnIdnCountVec.set rowIdn (c + 1) with
      | none => none
      | some cnt => some (c, { fe with columnIdnCountVec := cnt })
  else
    let c := env.azimuthColumn thisPoint
    some (if c ≥ fe.Horizon_SCAN then c - fe.Horizon_SCAN else c, fe)

/-- The body of the loop of `projectPointCloud` for one input point whose range is a
number; `projectPointNaN` below is the same body for a range that can be a NaN. -/
def projectPoint (env : Collaborators) (fe : FeatureExtract) (p : PointType) :
    Option FeatureExtract :=
  let thisPoint := thisPointOf p
  let range := env.pointDistance thisPoint
  if range < fe.lidarMinRange ∨ range > fe.lidarMaxRange then some fe
  else
    let rowIdn := floatToInt p.normal_y
    if rowIdn < 0 ∨ rowIdn ≥ fe.N_SCAN then some fe
    else if fe.downsampleRate = 0 then none
    else if Int.tmod rowIdn fe.downsampleRate ≠ 0 then some fe
    else
      match columnIdnOf env fe thisPoint rowIdn with
      | none => none
      | some (columnIdn, fe1) =>
        if columnIdn < 0 ∨ columnIdn ≥ fe1.Horizon_SCAN then some fe1
        else
          match fe1.rangeMat.at rowIdn columnIdn with
          | none => none
          | some cur =>
            if cur ≠ FLT_MAX then some fe1
            else
              match fe1.rangeMat.set rowIdn columnIdn range with
              | none => none
              | some rm =>
                match fe1.fullCloud.set (columnIdn + rowIdn * fe1.Horizon_SCAN) thisPoint with
                | none => none
                | some fc => some { fe1 with rangeMat := rm, fullCloud := fc }

/-- The method `projectPointCloud`. -/
def projectPointCloud (env : Collaborators) (fe : FeatureExtract) : Option FeatureExtract :=
  forLoop (projectPoint env) fe.inputCloud fe

/-! ## `cloudExtraction` -/

/-- The body of the inner loop of `cloudExtraction` at cell `(i, j)`; the state is the
local `count` and the object. -/
def extractCell (i : Int) (s : Int × FeatureExtract) (j : Int) : Option (Int × FeatureExtract) :=
  let count := s.1
  let fe := s.2
  match fe.rangeMat.at i j with
  | none => none
  | some v =>
    if v ≠ FLT_MAX then
      match fe.cloudInfo.pointColInd.set count j with
      | none => none
      | some pci =>
        match fe.cloudInfo.pointRange.set count v with
        | none => none
        | some pr =>
          match fe.fullCloud.get (j + i * fe.Horizon_SCAN) with
          | none => none
          | some pt =>
            some (count + 1,
              { fe with
                cloudInfo := { fe.cloudInfo with pointColInd := pci, pointRange := pr },
                extractedCloud := fe.extractedCloud.push pt })
    else some (count, fe)

/-- The body of the outer loop of `cloudExtraction` for ring `i`. -/
def extractRing (s : Int × FeatureExtract) (i : Int) : Option (Int × FeatureExtract) :=
  let count := s.1
  let fe := s.2
  match fe.cloudInfo.startRingIndex.set i (count - 1 + 5) with
  | none => none
  | some sri =>
    let fe1 := { fe with cloudInfo := { fe.cloudInfo with startRingIndex := sri } }
    match forLoop (extractCell i) (intRange 0 fe1.Horizon_SCAN) (count, fe1) with
    | none => none
    | some (count2, fe2) =>
      match fe2.cloudInfo.endRingIndex.set i (count2 - 1 - 5) with
      | none => none
      | some eri =>
        some (count2, { fe2 with cloudInfo := { fe2.cloudInfo with endRingIndex := eri } })

/-- The method `cloudExtraction`, with the final value of `count`. -/
def cloudExtractionCount (fe : FeatureExtract) : Option (Int × FeatureExtract) :=
  forLoop extractRing (intRange 0 fe.N_SCAN) (0, fe)

/-- The method `cloudExtraction`. -/
def cloudExtraction (fe : FeatureExtract) : Option FeatureExtract :=
  (cloudExtractionCount fe).map Prod.snd

/-! ## `calculateSmoothness` -/

/-- The body of the loop of `calculateSmoothness` at index `i`. -/
def smoothnessAt (fe : FeatureExtract) (i : Int) : Option FeatureExtract :=
  let pr := fe.cloudInfo.pointRange
  match pr.get (i - 5), pr.get (i - 4), pr.get (i - 3), pr.get (i - 2), pr.get (i - 1),
    pr.get i, pr.get (i + 1), pr.get (i + 2), pr.get (i + 3), pr.get (i + 4), pr.get (i + 5) with
  | some a5, some a4, some a3, some a2, some a1, some r0,
    some b1, some b2, some b3, some b4, some b5 =>
    let diffRange := a5 + a4 + a3 + a2 + a1 - r0 * 10 + b1 + b2 + b3 + b4 + b5
    match fe.cloudCurvature.set i (diffRange * diffRange) with
    | none => none
    | some cc =>
      match fe.cloudNeighborPicked.set i 0 with
      | none => none
      | some np =>
        match fe.cloudLabel.set i 0 with
        | none => none
        | some lb =>
          match cc.get i with
          | none => none
          | some v =>
            match fe.cloudSmoothness.get i with
            | none => none
            | some rec1 =>
              match fe.cloudSmoothness.set i { rec1 with value := v } with
              | none => none
              | some cs1 =>
                match cs1.get i with
                | none => none
                | some rec2 =>
                  match cs1.set i { rec2 with ind := i.toNat } with
                  | none => none
                  | some cs2 =>
                    some { fe with
                      cloudCurvature := cc, cloudNeighborPicked := np,
                      cloudLabel := lb, cloudSmoothness := cs2 }
  | _, _, _, _, _, _, _, _, _, _, _ => none

/-- The method `calculateSmoothness`. -/
def calculateSmoothness (fe : FeatureExtract) : Option FeatureExtract :=
  let cloudSize := fe.extractedCloud.size
  forLoop smoothnessAt (intRange 5 (cloudSize - 5)) fe

/-! ## Floating-point rounding -/

/-- The power `2 ^ e` for an integer exponent. -/
def pow2 (e : Int) : ℚ :=
  if 0 ≤ e then ((2 ^ e.toNat : Nat) : ℚ) else 1 / ((2 ^ (-e).toNat : Nat) : ℚ)

/-- The integer nearest to `y`, a tie going to the even one. -/
def roundHalfEven (y : ℚ) : Int :=
  let f : Int := y.num / (y.den : Int)
  let r : ℚ := y - (f : ℚ)
  if r < 1 / 2 then f
  else if r > 1 / 2 then f + 1
  else if f % 2 = 0 then f else f + 1

/-- The number of halvings that take `n` below 2, at most `fuel` of them. -/
def log2Fuel : Nat → Nat → Nat
  | 0, _ => 0
  | fuel + 1, n => if n < 2 then 0 else log2Fuel fuel (n / 2) + 1

/-- The exponent `e` with `2 ^ e ≤ x < 2 ^ (e + 1)` of a positive rational. -/
def floorLog2 (x : ℚ) : Int :=
  let e0 : Int := (log2Fuel x.num.natAbs x.num.natAbs : Int) - (log2Fuel x.den x.den : Int)
  if x < pow2 e0 then e0 - 1 else e0

/-- The value nearest to `x ≥ 0` among the binary floating-point numbers with `p` significant
bits and least normal exponent `emin` (the subnormal numbers among them), a tie going to
the even significand. -/
def roundMagnitude (p : Nat) (emin : Int) (x : ℚ) : ℚ :=
  if x = 0 then 0
  else
    let e : Int := max (floorLog2 x) emin
    let ulp : ℚ := pow2 (e - ((p : Int) - 1))
    (roundHalfEven (x / ulp) : ℚ) * ulp

/-- Rounding to nearest, ties to even, to `p` significant bits.  The largest exponent is not
modelled: a result beyond the largest finite number stands for the infinity of its sign. -/
def roundBinary (p : Nat) (emin : Int) (x : ℚ) : ℚ :=
  if x < 0 then -(roundMagnitude p emin (-x)) else roundMagnitude p emin x

/-- Rounding to `float` (binary32). -/
def float32 (x : ℚ) : ℚ := roundBinary 24 (-126) x

/-- Rounding to `double` (binary64). -/
def float64 (x : ℚ) : ℚ := roundBinary 53 (-1022) x

/-! ## `markOccludedPoints` -/

/-- The assignments `cloudNeighborPicked[i] = 1` for the indices `i` of a list, in order. -/
def markAll (np : Buf Int) : List Int → Option (Buf Int)
  | [] => some np
  | i :: rest =>
    match np.set i 1 with
    | none => none
    | some np1 => markAll np1 rest

/-- The body of the loop of `markOccludedPoints` at index `i`.  The differences of two
`float` ranges are rounded to `float`; the literals `0.3` and `0.02` are of type `double`,
so are the product `0.02 * pointRange[i]` and the four comparisons. -/
def occludedAt (fe : FeatureExtract) (i : Int) : Option FeatureExtract :=
  let pr := fe.cloudInfo.pointRange
  let pc := fe.cloudInfo.pointColInd
  match pr.get i, pr.get (i + 1), pc.get (i + 1), pc.get i with
  | some depth1, some depth2, some c1, some c0 =>
    let columnDiff : Int := |c1 - c0|
    let marked : Option (Buf Int) :=
      if columnDiff < 10 then
        if float32 (depth1 - depth2) > float64 (3 / 10) then
          markAll fe.cloudNeighborPicked [i - 5, i - 4, i - 3, i - 2, i - 1, i]
        else if float32 (depth2 - depth1) > float64 (3 / 10) then
          markAll fe.cloudNeighborPicked [i + 1, i + 2, i + 3, i + 4, i + 5, i + 6]
        else some fe.cloudNeighborPicked
      else some fe.cloudNeighborPicked
    match marked with
    | none => none
    | some np =>
      match pr.get (i - 1), pr.get i, pr.get (i + 1) with
      | some rm1, some r0, some rp1 =>
        let diff1 : ℚ := |float32 (rm1 - r0)|
        let diff2 : ℚ := |float32 (rp1 - r0)|
        if diff1 > float64 (float64 (2 / 100) * r0) ∧
            diff2 > float64 (float64 (2 / 100) * r0) then
          match np.set i 1 with
          | none => none
          | some np2 => some { fe with cloudNeighborPicked := np2 }
        else some { fe with cloudNeighborPicked := np }
      | _, _, _ => none
  | _, _, _, _ => none

/-- The method `markOccludedPoints`. -/
def markOccludedPoints (fe : FeatureExtract) : Option FeatureExtract :=
  let cloudSize := fe.extractedCloud.size
  forLoop occludedAt (intRange 5 (cloudSize - 6)) fe

/-! ## `extractFeatures` -/

/-- The body of a neighbour-suppression loop at offset `l`; `prev` is the offset of the
neighbour one step closer to `ind` (`l - 1` going up, `l + 1` going down). -/
def suppressAt (pc : Buf Int) (ind : Int) (prev : Int → Int) (np : Buf Int) (l : Int) :
    Option (Buf Int × Bool) :=
  match pc.get (ind + l), pc.get (ind + prev l) with
  | some a, some b =>
    let columnDiff : Int := |a - b|
    if columnDiff > 10 then some (np, true)
    else
      match np.set (ind + l) 1 with
      | none => none
      | some np1 => some (np1, false)
  | _, _ => none

/-- The loop `for (int l = 1; l <= 5; l++)` after a selection of `ind`. -/
def suppressForward (pc : Buf Int) (ind : Int) (np : Buf Int) : Option (Buf Int) :=
  forLoopBreak (suppressAt pc ind (fun l => l - 1)) [1, 2, 3, 4, 5] np

/-- The loop `for (int l = -1; l >= -5; l--)` after a selection of `ind`. -/
def suppressBackward (pc : Buf Int) (ind : Int) (np : Buf Int) : Option (Buf Int) :=
  forLoopBreak (suppressAt pc ind (fun l => l + 1)) [-1, -2, -3, -4, -5] np

/-- The two suppression loops that follow `cloudNeighborPicked[ind] = 1`. -/
def suppressNeighbors (fe : FeatureExtract) (ind : Int) : Option FeatureExtract :=
  match suppressForward fe.cloudInfo.pointColInd ind fe.cloudNeighborPicked with
  | none => none
  | some np1 =>
    match suppressBackward fe.cloudInfo.pointColInd ind np1 with
    | none => none
    | some np2 => some { fe with cloudNeighborPicked := np2 }

/-- The test `cloudNeighborPicked[ind] == 0 && cloudCurvature[ind] ? threshold`, with the
short-circuit of `&&`; `test` is the comparison of the curvature with the threshold. -/
def candidateTest (fe : FeatureExtract) (ind : Int) (test : ℚ → Bool) : Option Bool :=
  match fe.cloudNeighborPicked.get ind with
  | none => none
  | some picked =>
    if picked = 0 then
      match fe.cloudCurvature.get ind with
      | none => none
      | some c => some (test c)
    else some false

/-- The body of the corner scan at position `k`; the state is the object and the local
`largestPickedNum`. -/
def cornerAt (s : FeatureExtract × Int) (k : Int) : Option ((FeatureExtract × Int) × Bool) :=
  let fe := s.1
  let largestPickedNum := s.2
  match fe.cloudSmoothness.get k with
  | none => none
  | some rec =>
    let ind : Int := (rec.ind : Int)
    match candidateTest fe ind (fun c => decide (c > fe.edgeThreshold)) with
    | none => none
    | some false => some ((fe, largestPickedNum), false)
    | some true =>
      let largestPickedNum := largestPickedNum + 1
      if largestPickedNum ≤ 20 then
        match fe.cloudLabel.set ind 1 with
        | none => none
        | some lb =>
          match fe.extractedCloud.get ind with
          | none => none
          | some pt =>
            match fe.extractedCloud.set ind { pt with normal_z := 1 } with
            | none => none
            | some ec =>
              match ec.get ind with
              | none => none
              | some pushed =>
                match fe.cloudNeighborPicked.set ind 1 with
                | none => none
                | some np =>
                  let fe1 := { fe with
                    cloudLabel := lb, extractedCloud := ec,
                    cornerCloud := fe.cornerCloud ++ [pushed],
                    cornerInd := fe.cornerInd ++ [ind],
                    cloudNeighborPicked := np }
                  match suppressNeighbors fe1 ind with
                  | none => none
                  | some fe2 => some ((fe2, largestPickedNum), false)
      else some ((fe, largestPickedNum), true)

/-- The body of the surface scan at position `k`. -/
def surfaceAt (fe : FeatureExtract) (k : Int) : Option FeatureExtract :=
  match fe.cloudSmoothness.get k with
  | none => none
  | some rec =>
    let ind : Int := (rec.ind : Int)
    match candidateTest fe ind (fun c => decide (c < fe.surfThreshold)) with
    | none => none
    | some false => some fe
    | some true =>
      match fe.cloudLabel.set ind (-1) with
      | none => none
      | some lb =>
        match fe.cloudNeighborPicked.set ind 1 with
        | none => none
        | some np =>
          suppressNeighbors { fe with cloudLabel := lb, cloudNeighborPicked := np } ind

/-- The body of the last loop of a sector at position `k`: every point whose label is not
positive goes to `surfaceCloudScan`. -/
def pushSurfaceAt (fe : FeatureExtract) (k : Int) : Option FeatureExtract :=
  match fe.cloudLabel.get k with
  | none => none
  | some label =>
    if label ≤ 0 then
      match fe.extractedCloud.get k with
      | none => none
      | some pt =>
        match fe.extractedCloud.set k { pt with normal_z := 2 } with
        | none => none
        | some ec =>
          match ec.get k with
          | none => none
          | some pushed =>
            some { fe with
              extractedCloud := ec,
              surfaceCloudScan := fe.surfaceCloudScan ++ [pushed],
              surfaceInd := fe.surfaceInd ++ [k] }
    else some fe

/-- The call `std::sort(cloudSmoothness.begin() + sp, cloudSmoothness.begin() + ep, by_value())`:
the records at the positions `sp, ..., ep - 1` are rearranged, no other position changes. -/
def sortRange (env : Collaborators) (cs : Buf smoothness_t) (sp ep : Int) :
    Option (Buf smoothness_t) :=
  if 0 ≤ sp ∧ sp ≤ ep ∧ ep ≤ cs.size then
    let sorted := env.sort ((intRange sp ep).map cs.data)
    some { cs with
      data := fun p =>
        if sp ≤ p ∧ p < ep then (sorted.get? (p - sp).toNat).getD (cs.data p) else cs.data p }
  else none

/-- The start position `sp` of sector `j` of a ring span. -/
def sectorStart (startIdx endIdx j : Int) : Int :=
  Int.tdiv (startIdx * (6 - j) + endIdx * j) 6

/-- The end position `ep` of sector `j` of a ring span. -/
def sectorEnd (startIdx endIdx j : Int) : Int :=
  Int.tdiv (startIdx * (5 - j) + endIdx * (j + 1)) 6 - 1

/-- The statements of a sector after the test `sp >= ep`: the sort and the three scans. -/
def processSector (env : Collaborators) (fe : FeatureExtract) (sp ep : Int) :
    Option FeatureExtract :=
  match sortRange env fe.cloudSmoothness sp ep with
  | none => none
  | some cs =>
    match forLoopBreak cornerAt (intRange sp (ep + 1)).reverse
        ({ fe with cloudSmoothness := cs }, 0) with
    | none => none
    | some (fe1, _) =>
      match forLoop surfaceAt (intRange sp (ep + 1)) fe1 with
      | none => none
      | some fe2 => forLoop pushSurfaceAt (intRange sp (ep + 1)) fe2

/-- The body of the loop over the six sectors of ring `i`. -/
def sectorAt (env : Collaborators) (i : Int) (fe : FeatureExtract) (j : Int) :
    Option FeatureExtract :=
  match fe.cloudInfo.startRingIndex.get i, fe.cloudInfo.endRingIndex.get i with
  | some startIdx, some endIdx =>
    let sp := sectorStart startIdx endIdx j
    let ep := sectorEnd startIdx endIdx j
    if sp ≥ ep then some fe else processSector env fe sp ep
  | _, _ => none

/-- The body of the loop of `extractFeatures` for ring `i`. -/
def featuresOfRing (env : Collaborators) (fe : FeatureExtract) (i : Int) :
    Option FeatureExtract :=
  match forLoop (sectorAt env i) (intRange 0 6) { fe with surfaceCloudScan := [] } with
  | none => none
  | some fe1 =>
    some { fe1 with surfaceCloud := fe1.surfaceCloud ++ env.downSizeFilter fe1.surfaceCloudScan }

/-- The method `extractFeatures`. -/
def extractFeatures (env : Collaborators) (fe : FeatureExtract) : Option FeatureExtract :=
  forLoop (featuresOfRing env) (intRange 0 fe.N_SCAN)
    { fe with cornerCloud := [], surfaceCloud := [], surfaceCloudScan := [],
              cornerInd := [], surfaceInd := [] }

/-! ## Vocabulary of the statements -/

/-- The columns `j < hi` of the non-empty cells of ring `i` of a range image, ascending. -/
def rowCols (m : Mat) (i hi : Int) : List Int :=
  (intRange 0 hi).filter (fun j => decide (m.data i j ≠ FLT_MAX))

/-- The non-empty cells `(ring, column)` of the rings below `n` of a range image with `H`
columns, in row-major order: ring ascending, column ascending. -/
def cellsBelow (m : Mat) (H n : Int) : List (Int × Int) :=
  (intRange 0 n).flatMap (fun i => (rowCols m i H).map (fun j => (i, j)))

/-- The state `fe` is `fe0` after `cloudExtraction` has appended the cells of `L`, in order:
only `cloudInfo` and `extractedCloud` differ, position `k` of the three per-point arrays holds
the column, the range and the point of the `k`-th cell, and no other position has changed. -/
structure CellsAppended (fe0 : FeatureExtract) (L : List (Int × Int)) (fe : FeatureExtract) :
    Prop where
  frame : fe = { fe0 with cloudInfo := fe.cloudInfo, extractedCloud := fe.extractedCloud }
  colSize : fe.cloudInfo.pointColInd.size = fe0.cloudInfo.pointColInd.size
  rangeSize : fe.cloudInfo.pointRange.size = fe0.cloudInfo.pointRange.size
  cloudSize : fe.extractedCloud.size = fe0.extractedCloud.size + L.length
  cell : ∀ (k : Nat) (i j : Int), L[k]? = some (i, j) →
    fe.cloudInfo.pointColInd.data k = j ∧
    fe.cloudInfo.pointRange.data k = fe0.rangeMat.data i j ∧
    fe.extractedCloud.data (fe0.extractedCloud.size + k) =
      fe0.fullCloud.data (j + i * fe0.Horizon_SCAN)
  colRest : ∀ k : Int, k < 0 ∨ (L.length : Int) ≤ k →
    fe.cloudInfo.pointColInd.data k = fe0.cloudInfo.pointColInd.data k
  rangeRest : ∀ k : Int, k < 0 ∨ (L.length : Int) ≤ k →
    fe.cloudInfo.pointRange.data k = fe0.cloudInfo.pointRange.data k
  cloudRest : ∀ k : Int, k < fe0.extractedCloud.size ∨
    fe0.extractedCloud.size + (L.length : Int) ≤ k →
    fe.extractedCloud.data k = fe0.extractedCloud.data k

/-- The ring bounds after `cloudExtraction` has processed the rings below `n`: ring `r < n`
has `startRingIndex = (cells below r) - 1 + 5` and `endRingIndex = (cells below r + 1) - 1 - 5`,
the entries of the other rings are those of `fe0`. -/
structure RingsIndexed (fe0 : FeatureExtract) (n : Int) (fe : FeatureExtract) : Prop where
  startSize : fe.cloudInfo.startRingIndex.size = fe0.cloudInfo.startRingIndex.size
  endSize : fe.cloudInfo.endRingIndex.size = fe0.cloudInfo.endRingIndex.size
  startDone : ∀ r : Int, 0 ≤ r → r < n → fe.cloudInfo.startRingIndex.data r =
    ((cellsBelow fe0.rangeMat fe0.Horizon_SCAN r).length : Int) - 1 + 5
  endDone : ∀ r : Int, 0 ≤ r → r < n → fe.cloudInfo.endRingIndex.data r =
    ((cellsBelow fe0.rangeMat fe0.Horizon_SCAN (r + 1)).length : Int) - 1 - 5
  startRest : ∀ r : Int, r < 0 ∨ n ≤ r →
    fe.cloudInfo.startRingIndex.data r = fe0.cloudInfo.startRingIndex.data r
  endRest : ∀ r : Int, r < 0 ∨ n ≤ r →
    fe.cloudInfo.endRingIndex.data r = fe0.cloudInfo.endRingIndex.data r

/-- The sizes `allocateMemory` gives the buffers of `cloudExtraction`, as lower bounds. -/
structure ExtractionAllocated (fe : FeatureExtract) : Prop where
  nScan : 0 ≤ fe.N_SCAN
  horizon : 0 ≤ fe.Horizon_SCAN
  rows : fe.N_SCAN ≤ fe.rangeMat.rows
  cols : fe.Horizon_SCAN ≤ fe.rangeMat.cols
  full : fe.N_SCAN * fe.Horizon_SCAN ≤ fe.fullCloud.size
  colInd : fe.N_SCAN * fe.Horizon_SCAN ≤ fe.cloudInfo.pointColInd.size
  range : fe.N_SCAN * fe.Horizon_SCAN ≤ fe.cloudInfo.pointRange.size
  startRing : fe.N_SCAN ≤ fe.cloudInfo.startRingIndex.size
  endRing : fe.N_SCAN ≤ fe.cloudInfo.endRingIndex.size

/-- The state after the assignments `extractCell` makes for a non-empty cell. -/
def withCell (fe : FeatureExtract) (count j : Int) (v : ℚ) (pt : PointType) : FeatureExtract :=
  { fe with
    cloudInfo := { fe.cloudInfo with
      pointColInd := { fe.cloudInfo.pointColInd with
        data := Function.update fe.cloudInfo.pointColInd.data count j },
      pointRange := { fe.cloudInfo.pointRange with
        data := Function.update fe.cloudInfo.pointRange.data count v } },
    extractedCloud := fe.extractedCloud.push pt }

/-! ## Construction and reset -/

/-- The configuration parameters read by the constructor. -/
structure Config where
  sensor : SensorType
  N_SCAN : Int
  Horizon_SCAN : Int
  downsampleRate : Int
  lidarMinRange : ℚ
  lidarMaxRange : ℚ
  edgeThreshold : ℚ
  surfThreshold : ℚ

/-- The method `resetParameters`: the input and extracted clouds are cleared, the range image
is filled with `FLT_MAX`, the per-ring column counters are set to 0. -/
def resetParameters (fe : FeatureExtract) : FeatureExtract :=
  { fe with
    extractedCloud := fe.extractedCloud.clear,
    inputCloud := [],
    rangeMat := { rows := fe.N_SCAN, cols := fe.Horizon_SCAN, data := fun _ _ => FLT_MAX },
    columnIdnCountVec := { size := fe.N_SCAN, data := fun _ => 0 } }

/-- The default-constructed point. -/
def PointType.zero : PointType :=
  { x := 0, y := 0, z := 0, intensity := 0, normal_x := 0, normal_y := 0, normal_z := 0 }

/-- The method `allocateMemory` on a configured object.  The arrays made by `new` are not
initialised: `curvature0`, `picked0` and `label0` are the contents of their memory. -/
def allocateMemory (cfg : Config) (curvature0 : Int → ℚ) (picked0 label0 : Int → Int) :
    FeatureExtract :=
  resetParameters
    { sensor := cfg.sensor, N_SCAN := cfg.N_SCAN, Horizon_SCAN := cfg.Horizon_SCAN,
      downsampleRate := cfg.downsampleRate, lidarMinRange := cfg.lidarMinRange,
      lidarMaxRange := cfg.lidarMaxRange, edgeThreshold := cfg.edgeThreshold,
      surfThreshold := cfg.surfThreshold,
      inputCloud := [],
      fullCloud := { size := cfg.N_SCAN * cfg.Horizon_SCAN, data := fun _ => PointType.zero },
      extractedCloud := { size := 0, data := fun _ => PointType.zero },
      cornerCloud := [], surfaceCloud := [], surfaceCloudScan := [],
      cloudInfo :=
        { startRingIndex := { size := cfg.N_SCAN, data := fun _ => 0 },
          endRingIndex := { size := cfg.N_SCAN, data := fun _ => 0 },
          pointColInd := { size := cfg.N_SCAN * cfg.Horizon_SCAN, data := fun _ => 0 },
          pointRange := { size := cfg.N_SCAN * cfg.Horizon_SCAN, data := fun _ => 0 } },
      rangeMat := { rows := cfg.N_SCAN, cols := cfg.Horizon_SCAN, data := fun _ _ => FLT_MAX },
      cloudSmoothness :=
        { size := cfg.N_SCAN * cfg.Horizon_SCAN, data := fun _ => { value := 0, ind := 0 } },
      cloudCurvature := { size := cfg.N_SCAN * cfg.Horizon_SCAN, data := curvature0 },
      cloudNeighborPicked := { size := cfg.N_SCAN * cfg.Horizon_SCAN, data := picked0 },
      cloudLabel := { size := cfg.N_SCAN * cfg.Horizon_SCAN, data := label0 },
      columnIdnCountVec := { size := cfg.N_SCAN, data := fun _ => 0 },
      cornerInd := [], surfaceInd := [] }

/-- The five stages `cloudHandler` runs between `cachePointCloud` and `publishFeatureCloud`. -/
def runStages (env : Collaborators) (fe : FeatureExtract) : Option FeatureExtract :=
  match projectPointCloud env fe with
  | none => none
  | some fe1 =>
    match cloudExtraction fe1 with
    | none => none
    | some fe2 =>
      match calculateSmoothness fe2 with
      | none => none
      | some fe3 =>
        match markOccludedPoints fe3 with
        | none => none
        | some fe4 => extractFeatures env fe4

/-! ## Concrete inputs -/

/-- An instance of the collaborators for points on the positive x axis, where it is exact:
the distance of `(x, 0, 0)` is `|x|`, the azimuth `atan2(x, 0)` is 90 degrees, so the column
is `Horizon_SCAN / 2`.  The sort is insertion sort with `by_value` (`a` stays before `b`
unless `b < a`).  The voxel filter is left out: `downSizeFilter` is the identity, so the
surface clouds of the runs below are the surface candidates before downsampling. -/
def axisEnv (Horizon_SCAN : Int) : Collaborators :=
  { pointDistance := fun p => |p.x|,
    azimuthColumn := fun _ => Int.tdiv Horizon_SCAN 2,
    sort := List.insertionSort (fun a b => by_value b a = false),
    downSizeFilter := fun l => l }

/-- The point `(x, 0, 0)` of ring `ring`. -/
def axisPoint (x : ℚ) (ring : Int) : PointType :=
  { x := x, y := 0, z := 0, intensity := 0, normal_x := 0, normal_y := ring, normal_z := 0 }

/-- A configuration with one ring of `H` columns and the default thresholds. -/
def oneRing (sensor : SensorType) (H : Int) : Config :=
  { sensor := sensor, N_SCAN := 1, Horizon_SCAN := H, downsampleRate := 1,
    lidarMinRange := 1, lidarMaxRange := 1000, edgeThreshold := 1 / 10, surfThreshold := 1 / 10 }

/-- A freshly allocated `LIVOX` object with one ring of 12 columns (uninitialised memory
zero) whose input cloud is 12 points of ring 0 at range 2. -/
def twelvePoints : FeatureExtract :=
  { allocateMemory (oneRing SensorType.LIVOX 12) (fun _ => 0) (fun _ => 0) (fun _ => 0) with
    inputCloud := List.replicate 12 (axisPoint 2 0) }

/-- A configuration with two rings of 40 columns, sequential column policy. -/
def twoRingCfg : Config :=
  { sensor := SensorType.LIVOX, N_SCAN := 2, Horizon_SCAN := 40, downsampleRate := 1,
    lidarMinRange := 1, lidarMaxRange := 1000, edgeThreshold := 1 / 10, surfThreshold := 1 / 10 }

/-- A freshly allocated object (uninitialised memory zero) whose input cloud is one point
of ring 0 at range 2, then 40 points of ring 1: 20 at range 2 and a ramp of 20 rising by
1/5 per point, which makes a kink at extracted index 20. -/
def kinkScan : FeatureExtract :=
  { allocateMemory twoRingCfg (fun _ => 0) (fun _ => 0) (fun _ => 0) with
    inputCloud := axisPoint 2 0 :: ((List.replicate 20 (axisPoint 2 1)) ++
      (List.range 20).map (fun (k : Nat) => axisPoint (2 + ((k : ℚ) + 1) / 5) 1)) }

/-- A reset object with two rings of 40 columns whose range image has three non-empty
cells, `(0, 7)`, `(1, 3)` and `(1, 5)`, as a projection leaves it. -/
def threeCells : FeatureExtract :=
  { allocateMemory twoRingCfg (fun _ => 0) (fun _ => 0) (fun _ => 0) with
    rangeMat :=
      { rows := 2
        cols := 40
        data := fun i j =>
          if (i = 0 ∧ j = 7) ∨ (i = 1 ∧ (j = 3 ∨ j = 5)) then 2 + (j : ℚ) else FLT_MAX },
    fullCloud := { size := 80, data := fun k => axisPoint (k : ℚ) 0 } }

/-- The curvature of index `i` as the specification words it: the ranges of the five points
before and the five points after, minus ten times the range of the point, squared. -/
def curvatureOf (range : Int → ℚ) (i : Int) : ℚ :=
  (range (i - 5) + range (i - 4) + range (i - 3) + range (i - 2) + range (i - 1) +
    range (i + 1) + range (i + 2) + range (i + 3) + range (i + 4) + range (i + 5) -
    10 * range i) ^ 2

/-- The state `fe` is `fe0` after the iterations `5, ..., hi - 1` of `calculateSmoothness`:
at these indices the curvature is assigned, the flag and the label are 0 and the record is
`(curvature, i)`; nothing else has changed. -/
structure Smoothed (fe0 : FeatureExtract) (hi : Int) (fe : FeatureExtract) : Prop where
  frame : fe = { fe0 with
    cloudCurvature := fe.cloudCurvature, cloudNeighborPicked := fe.cloudNeighborPicked,
    cloudLabel := fe.cloudLabel, cloudSmoothness := fe.cloudSmoothness }
  curvatureSize : fe.cloudCurvature.size = fe0.cloudCurvature.size
  pickedSize : fe.cloudNeighborPicked.size = fe0.cloudNeighborPicked.size
  labelSize : fe.cloudLabel.size = fe0.cloudLabel.size
  smoothnessSize : fe.cloudSmoothness.size = fe0.cloudSmoothness.size
  band : ∀ i : Int, 5 ≤ i → i < hi →
    fe.cloudCurvature.data i = curvatureOf fe0.cloudInfo.pointRange.data i ∧
    fe.cloudNeighborPicked.data i = 0 ∧
    fe.cloudLabel.data i = 0 ∧
    fe.cloudSmoothness.data i =
      { value := curvatureOf fe0.cloudInfo.pointRange.data i, ind := i.toNat }
  rest : ∀ i : Int, i < 5 ∨ hi ≤ i →
    fe.cloudCurvature.data i = fe0.cloudCurvature.data i ∧
    fe.cloudNeighborPicked.data i = fe0.cloudNeighborPicked.data i ∧
    fe.cloudLabel.data i = fe0.cloudLabel.data i ∧
    fe.cloudSmoothness.data i = fe0.cloudSmoothness.data i

/-- The per-point buffers hold at least as many elements as the extracted cloud. -/
structure PointsAllocated (fe : FeatureExtract) : Prop where
  range : fe.extractedCloud.size ≤ fe.cloudInfo.pointRange.size
  colInd : fe.extractedCloud.size ≤ fe.cloudInfo.pointColInd.size
  curvature : fe.extractedCloud.size ≤ fe.cloudCurvature.size
  picked : fe.extractedCloud.size ≤ fe.cloudNeighborPicked.size
  label : fe.extractedCloud.size ≤ fe.cloudLabel.size
  smoothness : fe.extractedCloud.size ≤ fe.cloudSmoothness.size

/-- A fresh object with one ring of 12 columns holding an extracted sequence of 12 points
whose column is the index `k` and whose range is `k * k`. -/
def squareRanges : FeatureExtract :=
  let fe := allocateMemory (oneRing SensorType.VELODYNE 12) (fun _ => 7) (fun _ => 7) (fun _ => 7)
  { fe with
    extractedCloud := { size := 12, data := fun _ => PointType.zero },
    cloudInfo := { fe.cloudInfo with
      pointColInd := { size := 12, data := fun k => k },
      pointRange := { size := 12, data := fun k => (k : ℚ) * (k : ℚ) } } }

/-- Iteration `i` of `markOccludedPoints` marks index `m`: (a) the column gap to `i + 1` is
below 10, the difference `range[i] - range[i+1]`, rounded to `float`, is above the `double`
0.3, and `m` is one of `i-5..i`; or (b) the gap is below 10, the rounded difference
`range[i+1] - range[i]` is above 0.3 and `m` is one of `i+1..i+6`; or (c) `m = i` and the
rounded differences of both neighbours of `i` from it are, in absolute value, above the
`double` product of 0.02 and its range. -/
def occludes (range : Int → ℚ) (col : Int → Int) (i m : Int) : Prop :=
  (|col (i + 1) - col i| < 10 ∧ float32 (range i - range (i + 1)) > float64 (3 / 10) ∧
    i - 5 ≤ m ∧ m ≤ i) ∨
  (|col (i + 1) - col i| < 10 ∧ float32 (range (i + 1) - range i) > float64 (3 / 10) ∧
    i + 1 ≤ m ∧ m ≤ i + 6) ∨
  (m = i ∧ |float32 (range (i - 1) - range i)| > float64 (float64 (2 / 100) * range i) ∧
    |float32 (range (i + 1) - range i)| > float64 (float64 (2 / 100) * range i))

/-- The state `fe` is `fe0` after the iterations `5, ..., hi - 1` of `markOccludedPoints`:
only the flags differ, an index marked by one of the iterations holds 1, every other index
holds what it held. -/
structure Occluded (fe0 : FeatureExtract) (hi : Int) (fe : FeatureExtract) : Prop where
  frame : fe = { fe0 with cloudNeighborPicked := fe.cloudNeighborPicked }
  size : fe.cloudNeighborPicked.size = fe0.cloudNeighborPicked.size
  marked : ∀ m : Int,
    (∃ i : Int, 5 ≤ i ∧ i < hi ∧
      occludes fe0.cloudInfo.pointRange.data fe0.cloudInfo.pointColInd.data i m) →
    fe.cloudNeighborPicked.data m = 1
  kept : ∀ m : Int,
    (¬ ∃ i : Int, 5 ≤ i ∧ i < hi ∧
      occludes fe0.cloudInfo.pointRange.data fe0.cloudInfo.pointColInd.data i m) →
    fe.cloudNeighborPicked.data m = fe0.cloudNeighborPicked.data m

/-- A fresh object (uninitialised memory zero) with one ring of 14 columns holding an
extracted sequence of 14 points at consecutive columns whose range is 2 up to index 6 and 3
from index 7 on. -/
def stepRanges : FeatureExtract :=
  let fe := allocateMemory (oneRing SensorType.VELODYNE 14) (fun _ => 0) (fun _ => 0) (fun _ => 0)
  { fe with
    extractedCloud := { size := 14, data := fun _ => PointType.zero },
    cloudInfo := { fe.cloudInfo with
      pointColInd := { size := 14, data := fun k => k },
      pointRange := { size := 14, data := fun k => if k < 7 then 2 else 3 } } }

/-- The object `stepRanges` with minimum range 1/10 and the ranges 0x1.000002p-3 up to
index 6 and 0x1.b33334p-2 from index 7 on: two `float` values whose exact difference is
below 0.3 and whose `float` difference is above it. -/
def nearThreshold : FeatureExtract :=
  { stepRanges with
    lidarMinRange := 1 / 10,
    cloudInfo := { stepRanges.cloudInfo with
      pointRange :=
        { size := 14,
          data := fun k => if k < 7 then 16777218 / 134217728 else 28521268 / 67108864 } } }

/-- The cell a point maps to when `projectPoint` processes it in state `fe`: its ring and its
column, if the point passes the range, ring and decimation filters and the column lies in
the grid.  The column is the current counter of the ring for `LIVOX` and the azimuth column,
wrapped once, for every other sensor. -/
def targetCell (env : Collaborators) (fe : FeatureExtract) (p : PointType) :
    Option (Int × Int) :=
  let range := env.pointDistance (thisPointOf p)
  let rowIdn := floatToInt p.normal_y
  if fe.lidarMinRange ≤ range ∧ range ≤ fe.lidarMaxRange ∧ 0 ≤ rowIdn ∧ rowIdn < fe.N_SCAN ∧
      Int.tmod rowIdn fe.downsampleRate = 0 then
    let columnIdn :=
      if fe.sensor = SensorType.LIVOX then fe.columnIdnCountVec.data rowIdn
      else if env.azimuthColumn (thisPointOf p) ≥ fe.Horizon_SCAN then
        env.azimuthColumn (thisPointOf p) - fe.Horizon_SCAN
      else env.azimuthColumn (thisPointOf p)
    if 0 ≤ columnIdn ∧ columnIdn < fe.Horizon_SCAN then some (rowIdn, columnIdn) else none
  else none

/-- The sizes `allocateMemory` and `resetParameters` give the buffers of
`projectPointCloud`, as lower bounds, and a decimation factor that is not 0. -/
structure ProjectionAllocated (fe : FeatureExtract) : Prop where
  rows : fe.N_SCAN ≤ fe.rangeMat.rows
  cols : fe.Horizon_SCAN ≤ fe.rangeMat.cols
  full : fe.N_SCAN * fe.Horizon_SCAN ≤ fe.fullCloud.size
  counters : fe.N_SCAN ≤ fe.columnIdnCountVec.size
  rate : fe.downsampleRate ≠ 0

/-- The state `fe'` differs from `fe` at most in the range image, the full-grid buffer and
the column counters, whose sizes are the same. -/
structure SameGrid (fe fe' : FeatureExtract) : Prop where
  frame : fe' = { fe with
    rangeMat := fe'.rangeMat, fullCloud := fe'.fullCloud,
    columnIdnCountVec := fe'.columnIdnCountVec }
  rows : fe'.rangeMat.rows = fe.rangeMat.rows
  cols : fe'.rangeMat.cols = fe.rangeMat.cols
  full : fe'.fullCloud.size = fe.fullCloud.size
  counters : fe'.columnIdnCountVec.size = fe.columnIdnCountVec.size

/-- A freshly allocated `VELODYNE` object with two rings of 40 columns whose input cloud is
three points on the positive x axis, all of azimuth column 20: two of ring 0 at ranges 2 and
3, then one of ring 1 at range 4. -/
def collidingScan : FeatureExtract :=
  { allocateMemory { twoRingCfg with sensor := SensorType.VELODYNE }
      (fun _ => 0) (fun _ => 0) (fun _ => 0) with
    inputCloud := [axisPoint 2 0, axisPoint 3 0, axisPoint 4 1] }

/-- A fresh object (uninitialised memory zero) with one ring of 40 columns holding an
extracted sequence of 14 points at range 2 whose columns are consecutive up to index 8 and
jump by 21 between the indices 8 and 9. -/
def gapColumns : FeatureExtract :=
  let fe := allocateMemory (oneRing SensorType.VELODYNE 40) (fun _ => 0) (fun _ => 0) (fun _ => 0)
  { fe with
    extractedCloud := { size := 14, data := fun _ => PointType.zero },
    cloudInfo := { fe.cloudInfo with
      pointColInd := { size := 40, data := fun k => if k < 9 then k else k + 20 },
      pointRange := { size := 40, data := fun _ => 2 } } }

/-- The four stages `cloudHandler` runs before `extractFeatures`. -/
def prepareScan (env : Collaborators) (fe : FeatureExtract) : Option FeatureExtract :=
  match projectPointCloud env fe with
  | none => none
  | some fe1 =>
    match cloudExtraction fe1 with
    | none => none
    | some fe2 =>
      match calculateSmoothness fe2 with
      | none => none
      | some fe3 => markOccludedPoints fe3

/-- Invariant of `extractFeatures` between two sectors, for an extracted sequence of length
`n` when every sector still to process lies at positions `≥ B`: the records at the
positions from `B` on that `calculateSmoothness` wrote still carry their own index; every
index output as corner has label 1 and is flagged; every index output as surface candidate
lies in `[4, B)`; and no index is output as both. -/
structure FeaturesInv (n B : Int) (fe : FeatureExtract) : Prop where
  records : ∀ p : Int, B ≤ p → 5 ≤ p → p < n - 5 →
    ((fe.cloudSmoothness.data p).ind : Int) = p
  corners : ∀ c ∈ fe.cornerInd, fe.cloudLabel.data c = 1 ∧ fe.cloudNeighborPicked.data c ≠ 0
  surfaces : ∀ s ∈ fe.surfaceInd, 4 ≤ s ∧ s < B
  disjoint : ∀ c ∈ fe.cornerInd, c ∉ fe.surfaceInd

/-- The state of an object that `allocateMemory` built and `resetParameters` reset, as far
as the stages use it: the grid dimensions are not negative, the decimation factor is not 0,
every buffer has at least its allocated size and the extracted cloud is empty. -/
structure ScanAllocated (fe : FeatureExtract) : Prop where
  nScan : 0 ≤ fe.N_SCAN
  horizon : 0 ≤ fe.Horizon_SCAN
  rate : fe.downsampleRate ≠ 0
  rows : fe.N_SCAN ≤ fe.rangeMat.rows
  cols : fe.Horizon_SCAN ≤ fe.rangeMat.cols
  full : fe.N_SCAN * fe.Horizon_SCAN ≤ fe.fullCloud.size
  counters : fe.N_SCAN ≤ fe.columnIdnCountVec.size
  startRing : fe.N_SCAN ≤ fe.cloudInfo.startRingIndex.size
  endRing : fe.N_SCAN ≤ fe.cloudInfo.endRingIndex.size
  colInd : fe.N_SCAN * fe.Horizon_SCAN ≤ fe.cloudInfo.pointColInd.size
  range : fe.N_SCAN * fe.Horizon_SCAN ≤ fe.cloudInfo.pointRange.size
  curvature : fe.N_SCAN * fe.Horizon_SCAN ≤ fe.cloudCurvature.size
  picked : fe.N_SCAN * fe.Horizon_SCAN ≤ fe.cloudNeighborPicked.size
  label : fe.N_SCAN * fe.Horizon_SCAN ≤ fe.cloudLabel.size
  smoothness : fe.N_SCAN * fe.Horizon_SCAN ≤ fe.cloudSmoothness.size
  extracted : fe.extractedCloud.size = 0

/-- A freshly allocated `LIVOX` object with one ring of 40 columns (uninitialised memory
zero) whose input cloud is 40 points of ring 0 at range 2. -/
def fortyPoints : FeatureExtract :=
  { allocateMemory (oneRing SensorType.LIVOX 40) (fun _ => 0) (fun _ => 0) (fun _ => 0) with
    inputCloud := List.replicate 40 (axisPoint 2 0) }

/-- A freshly allocated `LIVOX` object with one ring of 40 columns whose uninitialised flag
memory holds 1 everywhere (curvature and label memory zero), with an input cloud of 40
points of ring 0 at range 2. -/
def fortyFlagged : FeatureExtract :=
  { allocateMemory (oneRing SensorType.LIVOX 40) (fun _ => 0) (fun _ => 1) (fun _ => 0) with
    inputCloud := List.replicate 40 (axisPoint 2 0) }

/-- A freshly allocated object (uninitialised memory zero) with two rings of 40 columns
whose input cloud is one point of ring 0 at range 2, then 40 points of ring 1 at range 3:
every ring holds one range, at consecutive columns. -/
def twoPlanes : FeatureExtract :=
  { allocateMemory twoRingCfg (fun _ => 0) (fun _ => 0) (fun _ => 0) with
    inputCloud := axisPoint 2 0 :: List.replicate 40 (axisPoint 3 1) }

/-- The object `stepRanges` with the step reversed: the range is 3 up to index 6 and 2
from index 7 on. -/
def fallRanges : FeatureExtract :=
  { stepRanges with
    cloudInfo := { stepRanges.cloudInfo with
      pointRange := { size := 14, data := fun k => if k < 7 then 3 else 2 } } }

/-! ## The callback: `cachePointCloud`, `publishFeatureCloud`, `cloudHandler` -/

/-- A point of a raw frame after the conversion `pcl::fromROSMsg` to the point type of the
sensor.  `time` is the field `time` (Velodyne, Livox), `t` (Ouster) or `timestamp`
(RoboSense); `finite` is the value of
`pcl_isfinite(x) && pcl_isfinite(y) && pcl_isfinite(z)`. -/
structure RawPoint where
  x : ℚ
  y : ℚ
  z : ℚ
  intensity : ℚ
  ring : Nat
  time : ℚ
  finite : Bool

/-- The message `sensor_msgs::PointCloud2` as `cachePointCloud` reads it: the stamp of its
header, the names of its fields, and its conversion to a point cloud. -/
structure PointCloud2 where
  stamp : ℚ
  fields : List String
  is_dense : Bool
  points : Buf RawPoint

/-- The ways a run of the callback leaves the model: an access outside its array, or a
floating-point division by zero, whose result is an infinity or a NaN and no rational. -/
inductive Fault where
  | outOfBounds
  | divisionByZero
deriving DecidableEq

/-- What one call of `publishFeatureCloud` hands to its four publishers: the corner and the
surface cloud, which `publishCloud` also returns into `cloudInfo.cloud_corner` and
`cloudInfo.cloud_surface`, with the stamp of the header; the extracted cloud with the stamp
`timeScanEnd`; and the four arrays of the message `cloudInfo`. -/
structure Published where
  cloud_corner : List PointType
  cloud_surface : List PointType
  stamp : ℚ
  fullPoints : Buf PointType
  fullStamp : ℚ
  info : cloud_info

/-- The object of class `FeatureExtract` with the members the callback uses besides those
of the pipeline: `inputCloud->is_dense`, the stamp of `cloudHeader`, `timeScanCur`,
`timeScanEnd`, the static local `ringFlag` of `cachePointCloud`, and two ghost fields:
whether `ros::shutdown()` has been called, and what has been handed to the publishers. -/
structure Node where
  fe : FeatureExtract
  inputDense : Bool
  cloudHeaderStamp : ℚ
  timeScanCur : ℚ
  timeScanEnd : ℚ
  ringFlag : Int
  shutdownRequested : Bool
  published : List Published

/-- A loop whose body can fault. -/
def forLoopE {σ ι : Type} (body : σ → ι → Except Fault σ) : List ι → σ → Except Fault σ
  | [], s => Except.ok s
  | i :: rest, s =>
    match body s i with
    | Except.error e => Except.error e
    | Except.ok s1 => forLoopE body rest s1

/-- The floating-point division `a / b`.  A division by zero gives an infinity or a NaN,
with which the program goes on; a point of the model holds numbers only, so the model
stops there with the outcome `divisionByZero`. -/
def floatDiv (a b : ℚ) : Except Fault ℚ :=
  if b = 0 then Except.error Fault.divisionByZero else Except.ok (a / b)

/-- The read `points[i]` of the raw cloud. -/
def readPoint (pts : Buf RawPoint) (i : Int) : Except Fault RawPoint :=
  match pts.get i with
  | none => Except.error Fault.outOfBounds
  | some p => Except.ok p

/-- The canonical point `dst` made of the raw point `src`: coordinates and intensity are
copied, `normal_x` is the relative time, `normal_y` the ring, `normal_z` is 0. -/
def canonicalPoint (src : RawPoint) (relTime : ℚ) : PointType :=
  { x := src.x, y := src.y, z := src.z, intensity := src.intensity,
    normal_x := relTime, normal_y := (src.ring : ℚ), normal_z := 0 }

/-- The body of the conversion loop of the `VELODYNE`, `LIVOX` and `OUSTER` branches (with
`TEST_LIO_SAM_6AXIS_DATA` defined, as it is): `dst.normal_x = src.time / timespan`; the
state is the list of the points of `inputCloud` assigned so far. -/
def normalizeAt (pts : Buf RawPoint) (timespan : ℚ) (acc : List PointType) (i : Int) :
    Except Fault (List PointType) :=
  match readPoint pts i with
  | Except.error e => Except.error e
  | Except.ok src =>
    match floatDiv src.time timespan with
    | Except.error e => Except.error e
    | Except.ok rel => Except.ok (acc ++ [canonicalPoint src rel])

/-- The body of the conversion loop of the `ROBOSENSE` branch: a point with a non-finite
coordinate is skipped, `dst.normal_x = (src.timestamp - points[0].timestamp) / timespan`
and `dst` is pushed to `inputCloud`. -/
def normalizeRobosenseAt (pts : Buf RawPoint) (timespan : ℚ) (acc : List PointType)
    (i : Int) : Except Fault (List PointType) :=
  match readPoint pts i with
  | Except.error e => Except.error e
  | Except.ok src =>
    if src.finite = false then Except.ok acc
    else
      match readPoint pts 0 with
      | Except.error e => Except.error e
      | Except.ok first =>
        match floatDiv (src.time - first.time) timespan with
        | Except.error e => Except.error e
        | Except.ok rel => Except.ok (acc ++ [canonicalPoint src rel])
/-- The sensor branch of `cachePointCloud`: the points of `inputCloud`, the flag
`inputCloud->is_dense` and the value of `timespan` after the branch.  `VELODYNE` and `LIVOX`
take the time of `points.back()` as duration, `OUSTER` that of `points[size() - 2]` and
scales it by `1e-9f` afterwards, `ROBOSENSE` the difference of the last and the first
timestamp: it prints `points[1]` and `points[100]`, appends to `inputCloud`, leaves its
`is_dense` as it is and sets `timespan` to 0 afterwards.  The last `else` of the source is
for a value outside the enumeration `SensorType`. -/
def convertFrame (node : Node) (msg : PointCloud2) :
    Except Fault (List PointType × Bool × ℚ) :=
  let pts := msg.points
  match node.fe.sensor with
  | SensorType.VELODYNE =>
    match readPoint pts (pts.size - 1) with
    | Except.error e => Except.error e
    | Except.ok last =>
      match forLoopE (normalizeAt pts last.time) (intRange 0 pts.size) [] with
      | Except.error e => Except.error e
      | Except.ok cloud => Except.ok (cloud, msg.is_dense, last.time)
  | SensorType.LIVOX =>
    match readPoint pts (pts.size - 1) with
    | Except.error e => Except.error e
    | Except.ok last =>
      match forLoopE (normalizeAt pts last.time) (intRange 0 pts.size) [] with
      | Except.error e => Except.error e
      | Except.ok cloud => Except.ok (cloud, msg.is_dense, last.time)
  | SensorType.OUSTER =>
    match readPoint pts (pts.size - 2) with
    | Except.error e => Except.error e
    | Except.ok last =>
      match forLoopE (normalizeAt pts last.time) (intRange 0 pts.size) [] with
      | Except.error e => Except.error e
      | Except.ok cloud => Except.ok (cloud, msg.is_dense, last.time * (1 / 1000000000))
  | SensorType.ROBOSENSE =>
    match readPoint pts (pts.size - 1), readPoint pts 0, readPoint pts 1,
        readPoint pts 100 with
    | Except.ok last, Except.ok first, Except.ok _, Except.ok _ =>
      match forLoopE (normalizeRobosenseAt pts (last.time - first.time))
          (intRange 0 pts.size) node.fe.inputCloud with
      | Except.error e => Except.error e
      | Except.ok cloud => Except.ok (cloud, node.inputDense, 0)
    | _, _, _, _ => Except.error Fault.outOfBounds

/-- The method `cachePointCloud`: the sensor branch, the time stamps, the dense check and
the ring check, each of which calls `ros::shutdown()` and goes on; the last statement is
`return true`. -/
def cachePointCloud (node : Node) (msg : PointCloud2) : Except Fault (Bool × Node) :=
  match convertFrame node msg with
  | Except.error e => Except.error e
  | Except.ok (cloud, dense, timespan) =>
    let n1 : Node := { node with
      fe := { node.fe with inputCloud := cloud },
      inputDense := dense,
      cloudHeaderStamp := msg.stamp,
      timeScanCur := msg.stamp,
      timeScanEnd := msg.stamp + timespan }
    let n2 : Node := if n1.inputDense = false then { n1 with shutdownRequested := true } else n1
    let n3 : Node :=
      if n2.ringFlag = 0 then
        if "ring" ∈ msg.fields then { n2 with ringFlag := 1 }
        else { n2 with ringFlag := -1, shutdownRequested := true }
      else n2
    Except.ok (true, n3)

/-- The method `freeCloudInfoMemory`: the four arrays of `cloudInfo` are cleared. -/
def freeCloudInfoMemory (fe : FeatureExtract) : FeatureExtract :=
  { fe with
    cloudInfo :=
      { startRingIndex := fe.cloudInfo.startRingIndex.clear,
        endRingIndex := fe.cloudInfo.endRingIndex.clear,
        pointColInd := fe.cloudInfo.pointColInd.clear,
        pointRange := fe.cloudInfo.pointRange.clear } }

/-- The method `publishFeatureCloud`: `freeCloudInfoMemory()` first, then the corner and the
surface cloud are published and stored in `cloudInfo`, the stamp of the header becomes
`timeScanEnd`, the extracted cloud is published, and `cloudInfo` is published. -/
def publishFeatureCloud (node : Node) : Node :=
  let fe := freeCloudInfoMemory node.fe
  { node with
    fe := fe,
    cloudHeaderStamp := node.timeScanEnd,
    published := node.published ++
      [{ cloud_corner := fe.cornerCloud,
         cloud_surface := fe.surfaceCloud,
         stamp := node.cloudHeaderStamp,
         fullPoints := fe.extractedCloud,
         fullStamp := node.timeScanEnd,
         info := fe.cloudInfo }] }

/-- The callback `cloudHandler`: it returns at once if `cachePointCloud` returns false,
else it runs the five stages, `publishFeatureCloud` and `resetParameters`. -/
def cloudHandler (env : Collaborators) (node : Node) (msg : PointCloud2) :
    Except Fault Node :=
  match cachePointCloud node msg with
  | Except.error e => Except.error e
  | Except.ok (false, n1) => Except.ok n1
  | Except.ok (true, n1) =>
    match runStages env n1.fe with
    | none => Except.error Fault.outOfBounds
    | some fe5 =>
      let n2 := publishFeatureCloud { n1 with fe := fe5 }
      Except.ok { n2 with fe := resetParameters n2.fe }

/-- The object after its constructor: the pipeline members as `allocateMemory` leaves them,
`ringFlag` 0, no shutdown requested, nothing published. -/
def Node.fresh (fe : FeatureExtract) : Node :=
  { fe := fe, inputDense := true, cloudHeaderStamp := 0, timeScanCur := 0, timeScanEnd := 0,
    ringFlag := 0, shutdownRequested := false, published := [] }

/-- The fault of a run, if it has one. -/
def faultOf {α : Type} (r : Except Fault α) : Option Fault :=
  match r with
  | Except.error e => some e
  | Except.ok _ => none

/-- The point `(x, 0, 0)` of ring `ring` with time `time` in a raw frame. -/
def rawAxisPoint (x : ℚ) (ring : Nat) (time : ℚ) : RawPoint :=
  { x := x, y := 0, z := 0, intensity := 0, ring := ring, time := time, finite := true }

/-- A dense frame with a `ring` field whose 41 points are those of `kinkScan`: one point of
ring 0 at range 2, then 40 points of ring 1, 20 at range 2 and a ramp of 20 rising by 1/5
per point; the time of point `k` is `(k + 1) / 41`. -/
def kinkFrame : PointCloud2 :=
  { stamp := 100,
    fields := ["x", "y", "z", "intensity", "ring", "time"],
    is_dense := true,
    points :=
      { size := 41,
        data := fun k =>
          rawAxisPoint (if k ≤ 20 then 2 else 2 + ((k : ℚ) - 20) / 5) (if k ≤ 0 then 0 else 1)
            (((k : ℚ) + 1) / 41) } }
/-- The fresh object (uninitialised memory zero) with two rings of 40 columns. -/
def twoRingNode : Node :=
  Node.fresh (allocateMemory twoRingCfg (fun _ => 0) (fun _ => 0) (fun _ => 0))

/-- The frame `kinkFrame` flagged as not dense. -/
def nonDenseFrame : PointCloud2 :=
  { kinkFrame with is_dense := false }

/-- The frame `kinkFrame` without a field named `ring`. -/
def ringlessFrame : PointCloud2 :=
  { kinkFrame with fields := ["x", "y", "z", "intensity", "time"] }

/-- A dense frame of 40 points of ring 0 at range 2; the time of point `k` is
`(k + 1) / 40`. -/
def fortyFrame : PointCloud2 :=
  { stamp := 100,
    fields := ["x", "y", "z", "intensity", "ring", "time"],
    is_dense := true,
    points := { size := 40, data := fun k => rawAxisPoint 2 0 (((k : ℚ) + 1) / 40) } }

/-- A fresh `LIVOX` object with one ring of 40 columns whose uninitialised flag memory
holds 1 everywhere, its curvature and label memory 0. -/
def flaggedNode : Node :=
  Node.fresh (allocateMemory (oneRing SensorType.LIVOX 40) (fun _ => 0) (fun _ => 1)
    (fun _ => 0))

/-- The object `flaggedNode` with one difference: its label memory holds 1 at index 4. -/
def labelledNode : Node :=
  Node.fresh (allocateMemory (oneRing SensorType.LIVOX 40) (fun _ => 0) (fun _ => 1)
    (fun k => if k = 4 then 1 else 0))

/-- A fresh object with one ring of 40 columns for the sensor `sensor`. -/
def oneRingNode (sensor : SensorType) : Node :=
  Node.fresh (allocateMemory (oneRing sensor 40) (fun _ => 0) (fun _ => 0) (fun _ => 0))

/-- A dense frame with a `ring` field and one point, at `(2, 0, 0)` on ring 0, time 1. -/
def onePointFrame : PointCloud2 :=
  { stamp := 100,
    fields := ["x", "y", "z", "intensity", "ring", "time"],
    is_dense := true,
    points := { size := 1, data := fun _ => rawAxisPoint 2 0 1 } }

/-- Invariant of `extractFeatures` relative to the state `fe0` at its start: the curvature
array and the edge threshold are those of `fe0`, an index flagged in `fe0` is still flagged,
and every index output as corner was not flagged in `fe0` and has a curvature above the
edge threshold. -/
structure MarksKept (fe0 fe : FeatureExtract) : Prop where
  curvature : fe.cloudCurvature = fe0.cloudCurvature
  threshold : fe.edgeThreshold = fe0.edgeThreshold
  flags : ∀ m : Int, fe0.cloudNeighborPicked.data m ≠ 0 → fe.cloudNeighborPicked.data m ≠ 0
  corners : ∀ c ∈ fe.cornerInd,
    fe0.cloudNeighborPicked.data c = 0 ∧ fe0.cloudCurvature.data c > fe0.edgeThreshold

/-- The input point passes the range, the ring and the decimation filter of
`projectPointCloud`. -/
def passesFilters (env : Collaborators) (fe : FeatureExtract) (p : PointType) : Bool :=
  decide (fe.lidarMinRange ≤ env.pointDistance (thisPointOf p) ∧
    env.pointDistance (thisPointOf p) ≤ fe.lidarMaxRange ∧
    0 ≤ floatToInt p.normal_y ∧ floatToInt p.normal_y < fe.N_SCAN ∧
    Int.tmod (floatToInt p.normal_y) fe.downsampleRate = 0)

/-- The number of the points of `pts` that are of ring `r` and pass the filters. -/
def ringCount (env : Collaborators) (fe : FeatureExtract) (r : Int) (pts : List PointType) :
    Int :=
  ((pts.filter
    (fun p => passesFilters env fe p && decide (floatToInt p.normal_y = r))).length : Int)

/-- The state `s` is the reset `LIVOX` object `fe0` after the loop of `projectPointCloud`
over the points `pre`: the counter of every ring is the number of its points that passed the
filters; the non-empty cells of ring `r` are the columns below that number and below
`Horizon_SCAN`; and a point that passed the filters as the `k`-th of its ring, counted from
0, with `k < Horizon_SCAN`, is stored at column `k` of its ring. -/
structure Sequential (env : Collaborators) (fe0 : FeatureExtract) (pre : List PointType)
    (s : FeatureExtract) : Prop where
  counters : ∀ r : Int, 0 ≤ r → r < fe0.N_SCAN →
    s.columnIdnCountVec.data r = ringCount env fe0 r pre
  cells : ∀ r c : Int, s.rangeMat.data r c ≠ FLT_MAX ↔
    ((0 ≤ r ∧ r < fe0.N_SCAN) ∧ 0 ≤ c ∧ c < ringCount env fe0 r pre ∧ c < fe0.Horizon_SCAN)
  stored : ∀ pre1 p pre2, pre = pre1 ++ p :: pre2 → passesFilters env fe0 p = true →
    ringCount env fe0 (floatToInt p.normal_y) pre1 < fe0.Horizon_SCAN →
    s.rangeMat.data (floatToInt p.normal_y) (ringCount env fe0 (floatToInt p.normal_y) pre1) =
        env.pointDistance p ∧
      s.fullCloud.data (ringCount env fe0 (floatToInt p.normal_y) pre1 +
        floatToInt p.normal_y * fe0.Horizon_SCAN) = p

/-- A freshly allocated `LIVOX` object (uninitialised memory zero) with one ring of 12
columns whose input cloud is 14 points of ring 0, point `k` at range `2 + k`. -/
def overfullRing : FeatureExtract :=
  { allocateMemory (oneRing SensorType.LIVOX 12) (fun _ => 0) (fun _ => 0) (fun _ => 0) with
    inputCloud := (List.range 14).map (fun (k : Nat) => axisPoint (2 + (k : ℚ)) 0) }

/-! ## `projectPointCloud` with a range that is no number -/

/-- A value of type `float` in the range image: a NaN or a number. -/
inductive RangeValue where
  | nan
  | num (q : ℚ)
deriving DecidableEq

/-- The comparison `v < b` of a `float` with a number: false for a NaN. -/
def RangeValue.lt (v : RangeValue) (b : ℚ) : Bool :=
  match v with
  | RangeValue.nan => false
  | RangeValue.num q => decide (q < b)

/-- The comparison `v > b` of a `float` with a number: false for a NaN. -/
def RangeValue.gt (v : RangeValue) (b : ℚ) : Bool :=
  match v with
  | RangeValue.nan => false
  | RangeValue.num q => decide (q > b)

/-- The comparison `v != b` of a `float` with a number: true for a NaN. -/
def RangeValue.ne (v : RangeValue) (b : ℚ) : Bool :=
  match v with
  | RangeValue.nan => true
  | RangeValue.num q => decide (q ≠ b)

/-- A `cv::Mat` of `float` whose cells can hold a NaN. -/
structure FloatMat where
  rows : Int
  cols : Int
  data : Int → Int → RangeValue

/-- Bounds-checked read `m.at<float>(r, c)`. -/
def FloatMat.at (m : FloatMat) (r c : Int) : Option RangeValue :=
  if 0 ≤ r ∧ r < m.rows ∧ 0 ≤ c ∧ c < m.cols then some (m.data r c) else none

/-- Bounds-checked write `m.at<float>(r, c) = v`. -/
def FloatMat.set (m : FloatMat) (r c : Int) (v : RangeValue) : Option FloatMat :=
  if 0 ≤ r ∧ r < m.rows ∧ 0 ≤ c ∧ c < m.cols then
    some { m with data := Function.update m.data r (Function.update (m.data r) c v) }
  else none

/-- The range image `m` as an image that can hold a NaN. -/
def FloatMat.ofMat (m : Mat) : FloatMat :=
  { rows := m.rows, cols := m.cols, data := fun r c => RangeValue.num (m.data r c) }

/-- The body of the loop of `projectPointCloud` for an input point whose range
`pointDistance(thisPoint)` is `range`, a number or a NaN (a point with a NaN coordinate,
which `PointType` does not hold).  The state is the object and its range image, the second
component; the member `rangeMat` of the first is not used.  A NaN fails both comparisons
of the range filter and differs from `FLT_MAX`. -/
def projectPointNaN (env : Collaborators) (range : RangeValue) (s : FeatureExtract × FloatMat)
    (p : PointType) : Option (FeatureExtract × FloatMat) :=
  let fe := s.1
  let thisPoint := thisPointOf p
  if range.lt fe.lidarMinRange = true ∨ range.gt fe.lidarMaxRange = true then some s
  else
    let rowIdn := floatToInt p.normal_y
    if rowIdn < 0 ∨ rowIdn ≥ fe.N_SCAN then some s
    else if fe.downsampleRate = 0 then none
    else if Int.tmod rowIdn fe.downsampleRate ≠ 0 then some s
    else
      match columnIdnOf env fe thisPoint rowIdn with
      | none => none
      | some (columnIdn, fe1) =>
        if columnIdn < 0 ∨ columnIdn ≥ fe1.Horizon_SCAN then some (fe1, s.2)
        else
          match s.2.at rowIdn columnIdn with
          | none => none
          | some cur =>
            if cur.ne FLT_MAX = true then some (fe1, s.2)
            else
              match s.2.set rowIdn columnIdn range with
              | none => none
              | some rm =>
                match fe1.fullCloud.set (columnIdn + rowIdn * fe1.Horizon_SCAN) thisPoint with
                | none => none
                | some fc => some ({ fe1 with fullCloud := fc }, rm)

/-- The loop of `projectPointCloud` over input points given with their ranges. -/
def projectPointCloudNaN (env : Collaborators) (pts : List (PointType × RangeValue))
    (s : FeatureExtract × FloatMat) : Option (FeatureExtract × FloatMat) :=
  forLoop (fun t pr => projectPointNaN env pr.2 t pr.1) pts s

/-- The object `collidingScan`, a fresh `VELODYNE` object with two rings of 40 columns, with
its reset range image. -/
def nanScan : FeatureExtract × FloatMat :=
  (collidingScan, FloatMat.ofMat collidingScan.rangeMat)

/-! # Lemmas and theorems -/

theorem mem_intRange {lo hi i : Int} : i ∈ intRange lo hi ↔ lo ≤ i ∧ i < hi := by
  unfold intRange
  simp only [List.mem_map, List.mem_range]
  constructor
  · rintro ⟨k, hk, rfl⟩
    omega
  · rintro ⟨h1, h2⟩
    exact ⟨(i - lo).toNat, by omega, by omega⟩

theorem intRange_empty {lo hi : Int} (h : hi ≤ lo) : intRange lo hi = [] := by
  unfold intRange
  have : (hi - lo).toNat = 0 := by omega
  simp [this]

theorem intRange_snoc {lo hi : Int} (h : lo ≤ hi) :
    intRange lo (hi + 1) = intRange lo hi ++ [hi] := by
  unfold intRange
  have : (hi + 1 - lo).toNat = (hi - lo).toNat + 1 := by omega
  rw [this, List.range_succ, List.map_append]
  simp
  omega

theorem forLoop_append {σ ι : Type} (body : σ → ι → Option σ) (l1 l2 : List ι) (s : σ) :
    forLoop body (l1 ++ l2) s = (forLoop body l1 s).bind (forLoop body l2) := by
  induction l1 generalizing s with
  | nil => simp [forLoop]
  | cons a l ih =>
    simp only [List.cons_append, forLoop]
    cases h : body s a with
    | none => simp
    | some s1 => simpa using ih s1

/-- Invariant rule, total form. -/
theorem forLoop_intRange_total {σ : Type} (body : σ → Int → Option σ) (P : Int → σ → Prop)
    (lo hi : Int) (hle : lo ≤ hi) (s0 : σ) (h0 : P lo s0)
    (hstep : ∀ i s, lo ≤ i → i < hi → P i s → ∃ s', body s i = some s' ∧ P (i + 1) s') :
    ∃ s', forLoop body (intRange lo hi) s0 = some s' ∧ P hi s' := by
  obtain ⟨n, rfl⟩ : ∃ n : Nat, hi = lo + n := ⟨(hi - lo).toNat, by omega⟩
  clear hle
  induction n with
  | zero => exact ⟨s0, by simp [intRange_empty, forLoop], by simpa using h0⟩
  | succ n ih =>
    obtain ⟨s1, h1, hP⟩ := ih (fun i s a b c => hstep i s a (by push_cast; omega) c)
    obtain ⟨s2, h2, hP2⟩ := hstep (lo + n) s1 (by omega) (by push_cast; omega) hP
    refine ⟨s2, ?_, ?_⟩
    · have : lo + ((n + 1 : Nat) : Int) = (lo + n) + 1 := by push_cast; ring
      rw [this, intRange_snoc (by omega), forLoop_append, h1]
      simp [forLoop, h2]
    · have : lo + ((n + 1 : Nat) : Int) = (lo + n) + 1 := by push_cast; ring
      rw [this]; exact hP2

/-- Invariant rule, partial form. -/
theorem forLoop_intRange_partial {σ : Type} (body : σ → Int → Option σ) (P : Int → σ → Prop)
    (lo hi : Int) (hle : lo ≤ hi) (s0 sN : σ) (h0 : P lo s0)
    (hstep : ∀ i s s', lo ≤ i → i < hi → P i s → body s i = some s' → P (i + 1) s')
    (hrun : forLoop body (intRange lo hi) s0 = some sN) : P hi sN := by
  obtain ⟨n, rfl⟩ : ∃ n : Nat, hi = lo + n := ⟨(hi - lo).toNat, by omega⟩
  clear hle
  induction n generalizing sN with
  | zero =>
    simp [intRange_empty, forLoop] at hrun
    subst hrun; simpa using h0
  | succ n ih =>
    have e : lo + ((n + 1 : Nat) : Int) = (lo + n) + 1 := by push_cast; ring
    rw [e, intRange_snoc (by omega), forLoop_append] at hrun
    cases h1 : forLoop body (intRange lo (lo + n)) s0 with
    | none => simp [h1] at hrun
    | some s1 =>
      simp only [h1, Option.some_bind, forLoop] at hrun
      cases h2 : body s1 (lo + n) with
      | none => simp [h2] at hrun
      | some s2 =>
        simp only [h2, Option.some.injEq] at hrun
        subst hrun
        rw [e]
        exact hstep _ _ _ (by omega) (by push_cast; omega)
          (ih s1 (fun i s s' a b c d => hstep i s s' a (by push_cast; omega) c d) h1) h2

theorem Buf.get_of_lt {α : Type} (b : Buf α) (i : Int) (h0 : 0 ≤ i) (h1 : i < b.size) :
    b.get i = some (b.data i) := by
  simp [Buf.get, h0, h1]

theorem Buf.set_of_lt {α : Type} (b : Buf α) (i : Int) (v : α) (h0 : 0 ≤ i) (h1 : i < b.size) :
    b.set i v = some { b with data := Function.update b.data i v } := by
  simp [Buf.set, h0, h1]

theorem Buf.get_eq_some {α : Type} {b : Buf α} {i : Int} {v : α} (h : b.get i = some v) :
    0 ≤ i ∧ i < b.size ∧ b.data i = v := by
  unfold Buf.get at h
  split at h
  · rename_i hb
    simp only [Option.some.injEq] at h
    exact ⟨hb.1, hb.2, h⟩
  · exact absurd h (by simp)

theorem Buf.set_eq_some {α : Type} {b b' : Buf α} {i : Int} {v : α} (h : b.set i v = some b') :
    0 ≤ i ∧ i < b.size ∧ b' = { b with data := Function.update b.data i v } := by
  unfold Buf.set at h
  split at h
  · rename_i hb
    simp only [Option.some.injEq] at h
    exact ⟨hb.1, hb.2, h.symm⟩
  · exact absurd h (by simp)

theorem Mat.at_of_lt (m : Mat) (r c : Int) (h0 : 0 ≤ r) (h1 : r < m.rows) (h2 : 0 ≤ c)
    (h3 : c < m.cols) : m.at r c = some (m.data r c) := by
  simp [Mat.at, h0, h1, h2, h3]

theorem rowCols_succ (m : Mat) (i j : Int) (hj : 0 ≤ j) :
    rowCols m i (j + 1) =
      rowCols m i j ++ (if m.data i j ≠ FLT_MAX then [j] else []) := by
  unfold rowCols
  rw [intRange_snoc hj, List.filter_append]
  by_cases h : m.data i j = FLT_MAX <;> simp [h]

theorem rowCols_zero (m : Mat) (i : Int) : rowCols m i 0 = [] := by
  simp [rowCols, intRange_empty]

theorem cellsBelow_zero (m : Mat) (H : Int) : cellsBelow m H 0 = [] := by
  simp [cellsBelow, intRange_empty]

theorem cellsBelow_succ (m : Mat) (H n : Int) (hn : 0 ≤ n) :
    cellsBelow m H (n + 1) = cellsBelow m H n ++ (rowCols m n H).map (fun j => (n, j)) := by
  unfold cellsBelow
  rw [intRange_snoc hn, List.flatMap_append]
  simp

theorem rowCols_length_le (m : Mat) (i j : Int) (hj : 0 ≤ j) :
    ((rowCols m i j).length : Int) ≤ j := by
  unfold rowCols
  have h1 := List.length_filter_le (fun j => decide (m.data i j ≠ FLT_MAX)) (intRange 0 j)
  have h2 : (intRange 0 j).length = j.toNat := by simp [intRange]
  omega

theorem mem_rowCols {m : Mat} {i hi j : Int} :
    j ∈ rowCols m i hi ↔ (0 ≤ j ∧ j < hi) ∧ m.data i j ≠ FLT_MAX := by
  simp [rowCols, mem_intRange]

theorem cellsBelow_length_le (m : Mat) (H : Int) (hH : 0 ≤ H) (n : Nat) :
    ((cellsBelow m H n).length : Int) ≤ n * H := by
  induction n with
  | zero => simp [cellsBelow_zero]
  | succ n ih =>
    have e : ((n + 1 : Nat) : Int) = (n : Int) + 1 := by push_cast; ring
    rw [e, cellsBelow_succ m H n (by omega), List.length_append, List.length_map]
    have := rowCols_length_le m n H hH
    push_cast
    nlinarith

theorem CellsAppended.nil_self (fe0 : FeatureExtract) : CellsAppended fe0 [] fe0 where
  frame := rfl
  colSize := rfl
  rangeSize := rfl
  cloudSize := by simp
  cell := by intro k i j h; simp at h
  colRest := by intros; rfl
  rangeRest := by intros; rfl
  cloudRest := by intros; rfl

theorem CellsAppended.push {fe0 fe : FeatureExtract} {L : List (Int × Int)}
    (h : CellsAppended fe0 L fe) (i j : Int) :
    CellsAppended fe0 (L ++ [(i, j)])
      (withCell fe L.length j (fe0.rangeMat.data i j)
        (fe0.fullCloud.data (j + i * fe0.Horizon_SCAN))) := by
  unfold withCell
  constructor
  case frame =>
    have := h.frame
    rw [this]
  case colSize => exact h.colSize
  case rangeSize => exact h.rangeSize
  case cloudSize =>
    simp only [Buf.push, h.cloudSize, List.length_append, List.length_singleton]
    push_cast; ring
  case cell =>
    intro k i' j' hk
    have hsz := h.cloudSize
    rcases Nat.lt_or_ge k L.length with hlt | hge
    · rw [List.getElem?_append_left hlt] at hk
      obtain ⟨h1, h2, h3⟩ := h.cell k i' j' hk
      have hne : (k : Int) ≠ (L.length : Int) := by omega
      refine ⟨?_, ?_, ?_⟩
      · simpa [Function.update_noteq hne] using h1
      · simpa [Function.update_noteq hne] using h2
      · have : fe0.extractedCloud.size + (k : Int) ≠ fe.extractedCloud.size := by omega
        simpa [Buf.push, Function.update_noteq this] using h3
    · rw [List.getElem?_append_right hge] at hk
      have hk0 : k - L.length = 0 := by
        by_contra hne
        have : ([(i, j)] : List (Int × Int))[k - L.length]? = none := by
          apply List.getElem?_eq_none
          simp; omega
        rw [this] at hk; simp at hk
      rw [hk0] at hk
      simp only [List.getElem?_cons_zero, Option.some.injEq, Prod.mk.injEq] at hk
      obtain ⟨rfl, rfl⟩ := hk
      have hkL : k = L.length := by omega
      subst hkL
      refine ⟨by simp, by simp, ?_⟩
      simp [Buf.push, hsz]
  case colRest =>
    intro k hk
    have hne : k ≠ (L.length : Int) := by
      rcases hk with hk | hk
      · omega
      · simp only [List.length_append, List.length_singleton] at hk; push_cast at hk; omega
    simp only [Function.update_noteq hne]
    apply h.colRest
    rcases hk with hk | hk
    · exact Or.inl hk
    · simp only [List.length_append, List.length_singleton] at hk; push_cast at hk
      exact Or.inr (by omega)
  case rangeRest =>
    intro k hk
    have hne : k ≠ (L.length : Int) := by
      rcases hk with hk | hk
      · omega
      · simp only [List.length_append, List.length_singleton] at hk; push_cast at hk; omega
    simp only [Function.update_noteq hne]
    apply h.rangeRest
    rcases hk with hk | hk
    · exact Or.inl hk
    · simp only [List.length_append, List.length_singleton] at hk; push_cast at hk
      exact Or.inr (by omega)
  case cloudRest =>
    intro k hk
    have hsz := h.cloudSize
    have hne : k ≠ fe.extractedCloud.size := by
      rcases hk with hk | hk
      · omega
      · simp only [List.length_append, List.length_singleton] at hk; push_cast at hk; omega
    simp only [Buf.push, Function.update_noteq hne]
    apply h.cloudRest
    rcases hk with hk | hk
    · exact Or.inl hk
    · simp only [List.length_append, List.length_singleton] at hk; push_cast at hk
      exact Or.inr (by omega)

theorem cell_index_bound {N H i j : Int} (hi0 : 0 ≤ i) (hi : i < N) (hj0 : 0 ≤ j) (hj : j < H) :
    0 ≤ j + i * H ∧ j + i * H < N * H := by
  have h1 : 0 ≤ i * H := mul_nonneg hi0 (by omega)
  have h2 : (i + 1) * H ≤ N * H := mul_le_mul_of_nonneg_right (by omega) (by omega)
  constructor
  · omega
  · nlinarith

/-- One step of the inner loop of `cloudExtraction`. -/
theorem extractCell_step {fe0 fe : FeatureExtract} (ha : ExtractionAllocated fe0)
    {i j : Int} (hi0 : 0 ≤ i) (hi : i < fe0.N_SCAN) (hj0 : 0 ≤ j) (hj : j < fe0.Horizon_SCAN)
    (h : CellsAppended fe0
      (cellsBelow fe0.rangeMat fe0.Horizon_SCAN i ++
        (rowCols fe0.rangeMat i j).map (fun c => (i, c))) fe) :
    ∃ fe', extractCell i
        (((cellsBelow fe0.rangeMat fe0.Horizon_SCAN i).length : Int) +
          ((rowCols fe0.rangeMat i j).length : Int), fe) j =
        some (((cellsBelow fe0.rangeMat fe0.Horizon_SCAN i).length : Int) +
          ((rowCols fe0.rangeMat i (j + 1)).length : Int), fe') ∧
      CellsAppended fe0
        (cellsBelow fe0.rangeMat fe0.Horizon_SCAN i ++
          (rowCols fe0.rangeMat i (j + 1)).map (fun c => (i, c))) fe' ∧
      fe'.cloudInfo.startRingIndex = fe.cloudInfo.startRingIndex ∧
      fe'.cloudInfo.endRingIndex = fe.cloudInfo.endRingIndex := by
  have hm : fe.rangeMat = fe0.rangeMat := by
    have e := congrArg FeatureExtract.rangeMat h.frame; exact e
  have hf : fe.fullCloud = fe0.fullCloud := by
    have e := congrArg FeatureExtract.fullCloud h.frame; exact e
  have hH : fe.Horizon_SCAN = fe0.Horizon_SCAN := by
    have e := congrArg FeatureExtract.Horizon_SCAN h.frame; exact e
  have hat : fe.rangeMat.at i j = some (fe0.rangeMat.data i j) := by
    rw [hm]
    exact Mat.at_of_lt _ _ _ hi0 (by have := ha.rows; omega) hj0 (by have := ha.cols; omega)
  rw [rowCols_succ _ _ _ hj0]
  by_cases hv : fe0.rangeMat.data i j = FLT_MAX
  · refine ⟨fe, ?_, ?_, rfl, rfl⟩
    · simp [extractCell, hat, hv]
    · simpa [hv] using h
  · have hidx := cell_index_bound hi0 hi hj0 hj
    obtain ⟨n, hn⟩ : ∃ n : Nat, i = n := ⟨i.toNat, by omega⟩
    have hlen1 := cellsBelow_length_le fe0.rangeMat fe0.Horizon_SCAN ha.horizon n
    rw [← hn] at hlen1
    have hlen2 := rowCols_length_le fe0.rangeMat i j hj0
    have hcnt : ((cellsBelow fe0.rangeMat fe0.Horizon_SCAN i).length : Int) +
        ((rowCols fe0.rangeMat i j).length : Int) < fe0.N_SCAN * fe0.Horizon_SCAN := by
      have := (cell_index_bound hi0 hi hj0 hj).2
      omega
    have hL : ((cellsBelow fe0.rangeMat fe0.Horizon_SCAN i ++
        (rowCols fe0.rangeMat i j).map (fun c => (i, c))).length : Int) =
        ((cellsBelow fe0.rangeMat fe0.Horizon_SCAN i).length : Int) +
        ((rowCols fe0.rangeMat i j).length : Int) := by
      simp
    have hp := h.push i j
    rw [hL] at hp
    refine ⟨withCell fe (((cellsBelow fe0.rangeMat fe0.Horizon_SCAN i).length : Int) +
        ((rowCols fe0.rangeMat i j).length : Int)) j (fe0.rangeMat.data i j)
        (fe0.fullCloud.data (j + i * fe0.Horizon_SCAN)), ?_,
      by simpa [hv, ← List.append_assoc] using hp, rfl, rfl⟩
    · have c1 := ha.colInd
      have c2 := ha.range
      have c3 := ha.full
      have s1 := h.colSize
      have s2 := h.rangeSize
      simp only [extractCell, withCell, hat, ne_eq, hv, not_false_eq_true, ↓reduceIte]
      rw [Buf.set_of_lt _ _ _ (by omega) (by omega), Buf.set_of_lt _ _ _ (by omega) (by omega)]
      rw [hH, hf, Buf.get_of_lt _ _ hidx.1 (by omega)]
      simp
      omega

theorem CellsAppended.startRing {fe0 fe : FeatureExtract} {L : List (Int × Int)}
    (h : CellsAppended fe0 L fe) (sri : Buf Int) :
    CellsAppended fe0 L
      { fe with cloudInfo := { fe.cloudInfo with startRingIndex := sri } } := by
  constructor
  case frame =>
    have := h.frame
    rw [this]
  case colSize => exact h.colSize
  case rangeSize => exact h.rangeSize
  case cloudSize => exact h.cloudSize
  case cell => exact h.cell
  case colRest => exact h.colRest
  case rangeRest => exact h.rangeRest
  case cloudRest => exact h.cloudRest

theorem CellsAppended.endRing {fe0 fe : FeatureExtract} {L : List (Int × Int)}
    (h : CellsAppended fe0 L fe) (eri : Buf Int) :
    CellsAppended fe0 L
      { fe with cloudInfo := { fe.cloudInfo with endRingIndex := eri } } := by
  constructor
  case frame =>
    have := h.frame
    rw [this]
  case colSize => exact h.colSize
  case rangeSize => exact h.rangeSize
  case cloudSize => exact h.cloudSize
  case cell => exact h.cell
  case colRest => exact h.colRest
  case rangeRest => exact h.rangeRest
  case cloudRest => exact h.cloudRest

/-- The inner loop of `cloudExtraction` over the columns of ring `i`. -/
theorem extractCell_loop {fe0 fe : FeatureExtract} (ha : ExtractionAllocated fe0)
    {i : Int} (hi0 : 0 ≤ i) (hi : i < fe0.N_SCAN)
    (h : CellsAppended fe0 (cellsBelow fe0.rangeMat fe0.Horizon_SCAN i) fe) :
    ∃ fe', forLoop (extractCell i) (intRange 0 fe.Horizon_SCAN)
        (((cellsBelow fe0.rangeMat fe0.Horizon_SCAN i).length : Int), fe) =
        some (((cellsBelow fe0.rangeMat fe0.Horizon_SCAN (i + 1)).length : Int), fe') ∧
      CellsAppended fe0 (cellsBelow fe0.rangeMat fe0.Horizon_SCAN (i + 1)) fe' ∧
      fe'.cloudInfo.startRingIndex = fe.cloudInfo.startRingIndex ∧
      fe'.cloudInfo.endRingIndex = fe.cloudInfo.endRingIndex := by
  have hH : fe.Horizon_SCAN = fe0.Horizon_SCAN := by
    have e := congrArg FeatureExtract.Horizon_SCAN h.frame; exact e
  rw [hH]
  have key := forLoop_intRange_total (extractCell i)
    (fun j s =>
      s.1 = ((cellsBelow fe0.rangeMat fe0.Horizon_SCAN i).length : Int) +
        ((rowCols fe0.rangeMat i j).length : Int) ∧
      CellsAppended fe0 (cellsBelow fe0.rangeMat fe0.Horizon_SCAN i ++
        (rowCols fe0.rangeMat i j).map (fun c => (i, c))) s.2 ∧
      s.2.cloudInfo.startRingIndex = fe.cloudInfo.startRingIndex ∧
      s.2.cloudInfo.endRingIndex = fe.cloudInfo.endRingIndex)
    0 fe0.Horizon_SCAN ha.horizon
    (((cellsBelow fe0.rangeMat fe0.Horizon_SCAN i).length : Int), fe)
    (by simpa [rowCols_zero] using h)
    (by
      rintro j ⟨c, s⟩ hj0 hj ⟨hc, hs, h1, h2⟩
      simp only at hc hs h1 h2
      subst hc
      obtain ⟨fe', e1, e2, e3, e4⟩ := extractCell_step ha hi0 hi hj0 hj hs
      exact ⟨_, e1, rfl, e2, e3.trans h1, e4.trans h2⟩)
  obtain ⟨⟨c, fe'⟩, hrun, hc, hs, h1, h2⟩ := key
  simp only at hc hs h1 h2
  subst hc
  refine ⟨fe', ?_, ?_, h1, h2⟩
  · rw [hrun, cellsBelow_succ _ _ _ hi0]
    simp [rowCols]
  · rw [cellsBelow_succ _ _ _ hi0]
    exact hs

theorem RingsIndexed.zero_self (fe0 : FeatureExtract) : RingsIndexed fe0 0 fe0 where
  startSize := rfl
  endSize := rfl
  startDone := by intro r h0 h1; omega
  endDone := by intro r h0 h1; omega
  startRest := by intros; rfl
  endRest := by intros; rfl

/-- One iteration of the outer loop of `cloudExtraction`. -/
theorem extractRing_step {fe0 fe : FeatureExtract} (ha : ExtractionAllocated fe0)
    {i : Int} (hi0 : 0 ≤ i) (hi : i < fe0.N_SCAN)
    (h : CellsAppended fe0 (cellsBelow fe0.rangeMat fe0.Horizon_SCAN i) fe)
    (hr : RingsIndexed fe0 i fe) :
    ∃ fe', extractRing (((cellsBelow fe0.rangeMat fe0.Horizon_SCAN i).length : Int), fe) i =
        some (((cellsBelow fe0.rangeMat fe0.Horizon_SCAN (i + 1)).length : Int), fe') ∧
      CellsAppended fe0 (cellsBelow fe0.rangeMat fe0.Horizon_SCAN (i + 1)) fe' ∧
      RingsIndexed fe0 (i + 1) fe' := by
  have hH : fe.Horizon_SCAN = fe0.Horizon_SCAN := by
    have e := congrArg FeatureExtract.Horizon_SCAN h.frame; exact e
  have hs1 := hr.startSize
  have hs2 := hr.endSize
  have a1 := ha.startRing
  have a2 := ha.endRing
  have h1 := h.startRing
    { fe.cloudInfo.startRingIndex with
      data := Function.update fe.cloudInfo.startRingIndex.data i
        (((cellsBelow fe0.rangeMat fe0.Horizon_SCAN i).length : Int) - 1 + 5) }
  obtain ⟨fe2, hrun, hc2, e1, e2⟩ := extractCell_loop ha hi0 hi h1
  simp only at e1 e2
  have h3 := hc2.endRing
    { fe2.cloudInfo.endRingIndex with
      data := Function.update fe2.cloudInfo.endRingIndex.data i
        (((cellsBelow fe0.rangeMat fe0.Horizon_SCAN (i + 1)).length : Int) - 1 - 5) }
  refine ⟨_, ?_, h3, ?_⟩
  · unfold extractRing
    simp only []
    rw [Buf.set_of_lt _ _ _ hi0 (by omega)]
    simp only []
    rw [hrun]
    simp only []
    rw [Buf.set_of_lt _ _ _ hi0 (by rw [e2]; omega)]
  · constructor
    case startSize => simp only [e1]; exact hs1
    case endSize => simp only [e2]; exact hs2
    case startDone =>
      intro r hr0 hr1
      simp only [e1]
      by_cases hri : r = i
      · subst hri; simp
      · rw [Function.update_noteq hri]
        exact hr.startDone r hr0 (by omega)
    case endDone =>
      intro r hr0 hr1
      simp only [e2]
      by_cases hri : r = i
      · subst hri; simp
      · rw [Function.update_noteq hri]
        exact hr.endDone r hr0 (by omega)
    case startRest =>
      intro r hr1
      simp only [e1]
      rw [Function.update_noteq (by omega)]
      exact hr.startRest r (by omega)
    case endRest =>
      intro r hr1
      simp only [e2]
      rw [Function.update_noteq (by omega)]
      exact hr.endRest r (by omega)

/-- The run of `cloudExtraction` on buffers of the allocated sizes: it returns, the final
`count` is the number of non-empty cells, and the result holds the row-major enumeration
of the non-empty cells and the ring bounds. -/
theorem cloudExtractionCount_spec (fe0 : FeatureExtract) (ha : ExtractionAllocated fe0) :
    ∃ fe', cloudExtractionCount fe0 =
        some (((cellsBelow fe0.rangeMat fe0.Horizon_SCAN fe0.N_SCAN).length : Int), fe') ∧
      CellsAppended fe0 (cellsBelow fe0.rangeMat fe0.Horizon_SCAN fe0.N_SCAN) fe' ∧
      RingsIndexed fe0 fe0.N_SCAN fe' := by
  have key := forLoop_intRange_total extractRing
    (fun i s =>
      s.1 = ((cellsBelow fe0.rangeMat fe0.Horizon_SCAN i).length : Int) ∧
      CellsAppended fe0 (cellsBelow fe0.rangeMat fe0.Horizon_SCAN i) s.2 ∧
      RingsIndexed fe0 i s.2)
    0 fe0.N_SCAN ha.nScan (0, fe0)
    (by
      refine ⟨by simp [cellsBelow_zero], ?_, RingsIndexed.zero_self fe0⟩
      simpa [cellsBelow_zero] using CellsAppended.nil_self fe0)
    (by
      rintro i ⟨c, s⟩ hi0 hi ⟨hc, hs, hr⟩
      simp only at hc hs hr
      subst hc
      obtain ⟨fe', e1, e2, e3⟩ := extractRing_step ha hi0 hi hs hr
      exact ⟨_, e1, rfl, e2, e3⟩)
  obtain ⟨⟨c, fe'⟩, hrun, hc, hs, hr⟩ := key
  simp only at hc hs hr
  subst hc
  exact ⟨fe', hrun, hs, hr⟩

theorem mem_cellsBelow {m : Mat} {H n i j : Int} :
    (i, j) ∈ cellsBelow m H n ↔
      (0 ≤ i ∧ i < n) ∧ (0 ≤ j ∧ j < H) ∧ m.data i j ≠ FLT_MAX := by
  simp only [cellsBelow, List.mem_flatMap, List.mem_map, mem_intRange, Prod.mk.injEq,
    mem_rowCols]
  constructor
  · rintro ⟨a, ha, b, hb, rfl, rfl⟩
    exact ⟨ha, hb.1, hb.2⟩
  · rintro ⟨hi, hj, hv⟩
    exact ⟨i, hi, j, ⟨hj, hv⟩, rfl, rfl⟩

theorem intRange_pairwise (lo hi : Int) : (intRange lo hi).Pairwise (fun a b => a < b) := by
  unfold intRange
  rw [List.pairwise_map]
  exact (List.pairwise_lt_range _).imp (fun h => by omega)

theorem cellsBelow_pairwise (m : Mat) (H n : Int) :
    (cellsBelow m H n).Pairwise (fun a b => a.1 < b.1 ∨ (a.1 = b.1 ∧ a.2 < b.2)) := by
  unfold cellsBelow
  rw [List.pairwise_flatMap]
  constructor
  · intro i _
    rw [List.pairwise_map]
    exact ((intRange_pairwise 0 H).filter _).imp (fun h => Or.inr ⟨rfl, h⟩)
  · refine (intRange_pairwise 0 n).imp ?_
    intro a b hab x hx y hy
    simp only [List.mem_map] at hx hy
    obtain ⟨_, _, rfl⟩ := hx
    obtain ⟨_, _, rfl⟩ := hy
    exact Or.inl hab

/-- C1 (code bug): on a fresh object with one ring of 12 columns and 12 points of ring 0,
no point is extracted before ring 0, and `cloudExtraction` sets `startRingIndex[0]` to
`0 - 1 + 5 = 4`, not to `0 + 5`; it sets `endRingIndex[0]` to `12 - 1 - 5 = 6`. -/
theorem cloudExtraction_startRingIndex_twelvePoints :
    ((projectPointCloud (axisEnv 12) twelvePoints).map
        (fun fe => (cellsBelow fe.rangeMat 12 0).length)) = some 0 ∧
      ((projectPointCloud (axisEnv 12) twelvePoints).map
        (fun fe => (cellsBelow fe.rangeMat 12 1).length)) = some 12 ∧
      ((projectPointCloud (axisEnv 12) twelvePoints).bind cloudExtraction).bind
        (fun fe => fe.cloudInfo.startRingIndex.get 0) = some 4 ∧
      ((projectPointCloud (axisEnv 12) twelvePoints).bind cloudExtraction).bind
        (fun fe => fe.cloudInfo.endRingIndex.get 0) = some 6 := by
  refine ⟨by decide!, by decide!, by decide!, by decide!⟩

theorem cloudExtraction_eq_of_count {fe0 fe' : FeatureExtract} {c : Int}
    (h : cloudExtractionCount fe0 = some (c, fe')) : cloudExtraction fe0 = some fe' := by
  simp [cloudExtraction, h]

/-- C5: on buffers of the allocated sizes and an empty extracted cloud, `cloudExtraction`
returns, and with `cells` the non-empty cells of the range image in row-major order (a cell is
listed iff it is a non-empty cell of the grid, earlier rings first and columns ascending
within a ring): the extracted length is the number of cells, at most `N_SCAN * Horizon_SCAN`;
if the `k`-th cell is `(i, j)` then `extractedCloud[k] = fullCloud[j + i * Horizon_SCAN]`,
`pointColInd[k] = j` and `pointRange[k] = rangeMat(i, j)`; and `pointColInd` is strictly
increasing over the indices of one ring. -/
theorem cloudExtraction_row_major (fe0 : FeatureExtract) (ha : ExtractionAllocated fe0)
    (hreset : fe0.extractedCloud.size = 0) :
    ∃ fe', cloudExtraction fe0 = some fe' ∧
      (∀ i j, (i, j) ∈ cellsBelow fe0.rangeMat fe0.Horizon_SCAN fe0.N_SCAN ↔
        (0 ≤ i ∧ i < fe0.N_SCAN) ∧ (0 ≤ j ∧ j < fe0.Horizon_SCAN) ∧
          fe0.rangeMat.data i j ≠ FLT_MAX) ∧
      (cellsBelow fe0.rangeMat fe0.Horizon_SCAN fe0.N_SCAN).Pairwise
        (fun a b => a.1 < b.1 ∨ (a.1 = b.1 ∧ a.2 < b.2)) ∧
      fe'.extractedCloud.size = (cellsBelow fe0.rangeMat fe0.Horizon_SCAN fe0.N_SCAN).length ∧
      ((cellsBelow fe0.rangeMat fe0.Horizon_SCAN fe0.N_SCAN).length : Int) ≤
        fe0.N_SCAN * fe0.Horizon_SCAN ∧
      (∀ (k : Nat) (i j : Int),
        (cellsBelow fe0.rangeMat fe0.Horizon_SCAN fe0.N_SCAN)[k]? = some (i, j) →
        (∃ pt, fe0.fullCloud.get (j + i * fe0.Horizon_SCAN) = some pt ∧
          fe'.extractedCloud.get k = some pt) ∧
        fe'.cloudInfo.pointColInd.get k = some j ∧
        fe'.cloudInfo.pointRange.get k = some (fe0.rangeMat.data i j)) ∧
      (∀ (k1 k2 : Nat) (i j1 j2 : Int), k1 < k2 →
        (cellsBelow fe0.rangeMat fe0.Horizon_SCAN fe0.N_SCAN)[k1]? = some (i, j1) →
        (cellsBelow fe0.rangeMat fe0.Horizon_SCAN fe0.N_SCAN)[k2]? = some (i, j2) →
        ∃ c1 c2, fe'.cloudInfo.pointColInd.get k1 = some c1 ∧
          fe'.cloudInfo.pointColInd.get k2 = some c2 ∧ c1 < c2) := by
  obtain ⟨fe', hrun, hc, _⟩ := cloudExtractionCount_spec fe0 ha
  obtain ⟨n, hn⟩ : ∃ n : Nat, fe0.N_SCAN = n := ⟨fe0.N_SCAN.toNat, by have := ha.nScan; omega⟩
  have hlen : ((cellsBelow fe0.rangeMat fe0.Horizon_SCAN fe0.N_SCAN).length : Int) ≤
      fe0.N_SCAN * fe0.Horizon_SCAN := by
    have := cellsBelow_length_le fe0.rangeMat fe0.Horizon_SCAN ha.horizon n
    rw [hn]; exact this
  have hpw := cellsBelow_pairwise fe0.rangeMat fe0.Horizon_SCAN fe0.N_SCAN
  have hcell : ∀ (k : Nat) (i j : Int),
      (cellsBelow fe0.rangeMat fe0.Horizon_SCAN fe0.N_SCAN)[k]? = some (i, j) →
      (∃ pt, fe0.fullCloud.get (j + i * fe0.Horizon_SCAN) = some pt ∧
        fe'.extractedCloud.get k = some pt) ∧
      fe'.cloudInfo.pointColInd.get k = some j ∧
      fe'.cloudInfo.pointRange.get k = some (fe0.rangeMat.data i j) := by
    intro k i j hk
    obtain ⟨h1, h2, h3⟩ := hc.cell k i j hk
    have hkl : k < (cellsBelow fe0.rangeMat fe0.Horizon_SCAN fe0.N_SCAN).length := by
      by_contra hge
      rw [List.getElem?_eq_none (by omega)] at hk
      exact absurd hk (by simp)
    have hmem : (i, j) ∈ cellsBelow fe0.rangeMat fe0.Horizon_SCAN fe0.N_SCAN :=
      List.getElem?_mem hk
    obtain ⟨hi, hj, _⟩ := mem_cellsBelow.mp hmem
    have hidx := cell_index_bound hi.1 hi.2 hj.1 hj.2
    have s1 := hc.colSize
    have s2 := hc.rangeSize
    have s3 := hc.cloudSize
    have c1 := ha.colInd
    have c2 := ha.range
    have c3 := ha.full
    refine ⟨⟨fe0.fullCloud.data (j + i * fe0.Horizon_SCAN), ?_, ?_⟩, ?_, ?_⟩
    · exact Buf.get_of_lt _ _ hidx.1 (by omega)
    · rw [Buf.get_of_lt _ _ (by omega) (by omega), ← h3, hreset, zero_add]
    · rw [Buf.get_of_lt _ _ (by omega) (by omega), h1]
    · rw [Buf.get_of_lt _ _ (by omega) (by omega), h2]
  refine ⟨fe', cloudExtraction_eq_of_count hrun, fun i j => mem_cellsBelow, hpw, ?_, hlen,
    hcell, ?_⟩
  · rw [hc.cloudSize, hreset, zero_add]
  · intro k1 k2 i j1 j2 hlt h1 h2
    refine ⟨j1, j2, (hcell k1 i j1 h1).2.1, (hcell k2 i j2 h2).2.1, ?_⟩
    have hk2 : k2 < (cellsBelow fe0.rangeMat fe0.Horizon_SCAN fe0.N_SCAN).length := by
      by_contra hge
      rw [List.getElem?_eq_none (by omega)] at h2
      exact absurd h2 (by simp)
    have hk1 : k1 < (cellsBelow fe0.rangeMat fe0.Horizon_SCAN fe0.N_SCAN).length := by omega
    have := List.pairwise_iff_getElem.mp hpw k1 k2 hk1 hk2 hlt
    rw [List.getElem?_eq_getElem hk1] at h1
    rw [List.getElem?_eq_getElem hk2] at h2
    simp only [Option.some.injEq] at h1 h2
    rw [h1, h2] at this
    simpa using this

theorem threeCells_allocated : ExtractionAllocated threeCells := by
  constructor <;> decide

/-- Witness of C5: the range image with the three cells `(0, 7)`, `(1, 3)`, `(1, 5)`. -/
theorem cloudExtraction_row_major_witness :
    ExtractionAllocated threeCells ∧ threeCells.extractedCloud.size = 0 ∧
      cellsBelow threeCells.rangeMat threeCells.Horizon_SCAN threeCells.N_SCAN =
        [(0, 7), (1, 3), (1, 5)] ∧
      ∃ fe', cloudExtraction threeCells = some fe' ∧ fe'.extractedCloud.size = 3 ∧
        fe'.cloudInfo.pointColInd.get 1 = some 3 ∧
        fe'.cloudInfo.pointRange.get 2 = some 7 ∧
        fe'.extractedCloud.get 0 = some (axisPoint 7 0) := by
  have hcells : cellsBelow threeCells.rangeMat threeCells.Horizon_SCAN threeCells.N_SCAN =
      [(0, 7), (1, 3), (1, 5)] := by decide!
  refine ⟨threeCells_allocated, rfl, hcells, ?_⟩
  obtain ⟨fe', hrun, _, _, hsize, _, hcell, _⟩ :=
    cloudExtraction_row_major threeCells threeCells_allocated rfl
  rw [hcells] at hsize hcell
  refine ⟨fe', hrun, by simpa using hsize, ?_, ?_, ?_⟩
  · exact (hcell 1 1 3 (by simp)).2.1
  · have := (hcell 2 1 5 (by simp)).2.2
    simp only [Nat.cast_ofNat] at this
    rw [this]
    decide!
  · obtain ⟨pt, h1, h2⟩ := (hcell 0 0 7 (by simp)).1
    simp only [Nat.cast_zero] at h2
    rw [h2, ← h1]
    decide!

/-- Invariant rule, total form, for a loop whose range may be empty. -/
theorem forLoop_intRange_total_max {σ : Type} (body : σ → Int → Option σ) (P : Int → σ → Prop)
    (lo hi : Int) (s0 : σ) (h0 : P lo s0)
    (hstep : ∀ i s, lo ≤ i → i < hi → P i s → ∃ s', body s i = some s' ∧ P (i + 1) s') :
    ∃ s', forLoop body (intRange lo hi) s0 = some s' ∧ P (max lo hi) s' := by
  rcases le_or_lt lo hi with hle | hlt
  · rw [max_eq_right hle]
    exact forLoop_intRange_total body P lo hi hle s0 h0 hstep
  · rw [max_eq_left (le_of_lt hlt), intRange_empty (le_of_lt hlt)]
    exact ⟨s0, rfl, h0⟩

theorem Smoothed.init_band (fe0 : FeatureExtract) : Smoothed fe0 5 fe0 where
  frame := rfl
  curvatureSize := rfl
  pickedSize := rfl
  labelSize := rfl
  smoothnessSize := rfl
  band := by intro i h1 h2; omega
  rest := by intro i _; exact ⟨rfl, rfl, rfl, rfl⟩

/-- One iteration of the loop of `calculateSmoothness`. -/
theorem smoothnessAt_step {fe0 fe : FeatureExtract} (ha : PointsAllocated fe0) {i : Int}
    (hi5 : 5 ≤ i) (hi : i < fe0.extractedCloud.size - 5) (h : Smoothed fe0 i fe) :
    ∃ fe', smoothnessAt fe i = some fe' ∧ Smoothed fe0 (i + 1) fe' := by
  have hci : fe.cloudInfo = fe0.cloudInfo := by
    have e := congrArg FeatureExtract.cloudInfo h.frame; exact e
  have a1 := ha.range
  have a2 := ha.curvature
  have a3 := ha.picked
  have a4 := ha.label
  have a5 := ha.smoothness
  have s2 := h.curvatureSize
  have s3 := h.pickedSize
  have s4 := h.labelSize
  have s5 := h.smoothnessSize
  have hv : (fe0.cloudInfo.pointRange.data (i - 5) + fe0.cloudInfo.pointRange.data (i - 4) +
        fe0.cloudInfo.pointRange.data (i - 3) + fe0.cloudInfo.pointRange.data (i - 2) +
        fe0.cloudInfo.pointRange.data (i - 1) - fe0.cloudInfo.pointRange.data i * 10 +
        fe0.cloudInfo.pointRange.data (i + 1) + fe0.cloudInfo.pointRange.data (i + 2) +
        fe0.cloudInfo.pointRange.data (i + 3) + fe0.cloudInfo.pointRange.data (i + 4) +
        fe0.cloudInfo.pointRange.data (i + 5)) *
      (fe0.cloudInfo.pointRange.data (i - 5) + fe0.cloudInfo.pointRange.data (i - 4) +
        fe0.cloudInfo.pointRange.data (i - 3) + fe0.cloudInfo.pointRange.data (i - 2) +
        fe0.cloudInfo.pointRange.data (i - 1) - fe0.cloudInfo.pointRange.data i * 10 +
        fe0.cloudInfo.pointRange.data (i + 1) + fe0.cloudInfo.pointRange.data (i + 2) +
        fe0.cloudInfo.pointRange.data (i + 3) + fe0.cloudInfo.pointRange.data (i + 4) +
        fe0.cloudInfo.pointRange.data (i + 5)) =
      curvatureOf fe0.cloudInfo.pointRange.data i := by
    unfold curvatureOf; ring
  refine ⟨{ fe with
      cloudCurvature := { fe.cloudCurvature with
        data := Function.update fe.cloudCurvature.data i
          (curvatureOf fe0.cloudInfo.pointRange.data i) },
      cloudNeighborPicked := { fe.cloudNeighborPicked with
        data := Function.update fe.cloudNeighborPicked.data i 0 },
      cloudLabel := { fe.cloudLabel with data := Function.update fe.cloudLabel.data i 0 },
      cloudSmoothness := { fe.cloudSmoothness with
        data := Function.update fe.cloudSmoothness.data i
          { value := curvatureOf fe0.cloudInfo.pointRange.data i, ind := i.toNat } } }, ?_, ?_⟩
  · unfold smoothnessAt
    simp only [hci]
    rw [Buf.get_of_lt _ (i - 5) (by omega) (by omega), Buf.get_of_lt _ (i - 4) (by omega) (by omega),
      Buf.get_of_lt _ (i - 3) (by omega) (by omega), Buf.get_of_lt _ (i - 2) (by omega) (by omega),
      Buf.get_of_lt _ (i - 1) (by omega) (by omega), Buf.get_of_lt _ i (by omega) (by omega),
      Buf.get_of_lt _ (i + 1) (by omega) (by omega), Buf.get_of_lt _ (i + 2) (by omega) (by omega),
      Buf.get_of_lt _ (i + 3) (by omega) (by omega), Buf.get_of_lt _ (i + 4) (by omega) (by omega),
      Buf.get_of_lt _ (i + 5) (by omega) (by omega)]
    simp only [hv]
    rw [Buf.set_of_lt _ i _ (by omega) (by omega), Buf.set_of_lt _ i _ (by omega) (by omega),
      Buf.set_of_lt _ i _ (by omega) (by omega)]
    simp only []
    rw [Buf.get_of_lt _ i (by omega) (by simp only []; omega),
      Buf.get_of_lt _ i (by omega) (by omega)]
    simp only []
    rw [Buf.set_of_lt _ i _ (by omega) (by omega)]
    simp only []
    rw [Buf.get_of_lt _ i (by omega) (by simp only []; omega)]
    simp only []
    rw [Buf.set_of_lt _ i _ (by omega) (by simp only []; omega)]
    simp
  · constructor
    case frame =>
      have := h.frame
      rw [this]
    case curvatureSize => exact s2
    case pickedSize => exact s3
    case labelSize => exact s4
    case smoothnessSize => exact s5
    case band =>
      intro k hk5 hk
      by_cases hki : k = i
      · subst hki
        simp
      · simp only [Function.update_noteq hki]
        exact h.band k hk5 (by omega)
    case rest =>
      intro k hk
      have hki : k ≠ i := by omega
      simp only [Function.update_noteq hki]
      exact h.rest k (by omega)

/-- The run of `calculateSmoothness` on buffers that hold the extracted cloud. -/
theorem calculateSmoothness_spec (fe0 : FeatureExtract) (ha : PointsAllocated fe0) :
    ∃ fe', calculateSmoothness fe0 = some fe' ∧
      Smoothed fe0 (max 5 (fe0.extractedCloud.size - 5)) fe' := by
  unfold calculateSmoothness
  exact forLoop_intRange_total_max smoothnessAt (fun i s => Smoothed fe0 i s) 5
    (fe0.extractedCloud.size - 5) fe0 (Smoothed.init_band fe0)
    (fun i s h5 hi hs => smoothnessAt_step ha h5 hi hs)

/-- C2: on buffers that hold the extracted sequence of length `n`, `calculateSmoothness`
returns and writes a record exactly for the indices `5 ≤ i < n - 5`: the record at such an
`i` has `ind = i` and `value` the square of the sum of the ranges at `i-5..i-1` and
`i+1..i+5` minus ten times the range at `i`; the record at every other index is the one that
was there before, and the record array keeps its size. -/
theorem calculateSmoothness_records (fe : FeatureExtract) (ha : PointsAllocated fe) :
    ∃ fe', calculateSmoothness fe = some fe' ∧
      fe'.cloudSmoothness.size = fe.cloudSmoothness.size ∧
      (∀ i : Int, 5 ≤ i → i < fe.extractedCloud.size - 5 →
        ∃ rec, fe'.cloudSmoothness.get i = some rec ∧ (rec.ind : Int) = i ∧
          rec.value =
            (fe.cloudInfo.pointRange.data (i - 5) + fe.cloudInfo.pointRange.data (i - 4) +
              fe.cloudInfo.pointRange.data (i - 3) + fe.cloudInfo.pointRange.data (i - 2) +
              fe.cloudInfo.pointRange.data (i - 1) +
              fe.cloudInfo.pointRange.data (i + 1) + fe.cloudInfo.pointRange.data (i + 2) +
              fe.cloudInfo.pointRange.data (i + 3) + fe.cloudInfo.pointRange.data (i + 4) +
              fe.cloudInfo.pointRange.data (i + 5) -
              10 * fe.cloudInfo.pointRange.data i) ^ 2) ∧
      (∀ i : Int, i < 5 ∨ fe.extractedCloud.size - 5 ≤ i →
        fe'.cloudSmoothness.data i = fe.cloudSmoothness.data i) := by
  obtain ⟨fe', hrun, hs⟩ := calculateSmoothness_spec fe ha
  refine ⟨fe', hrun, hs.smoothnessSize, ?_, ?_⟩
  · intro i h5 hi
    have hb := (hs.band i h5 (by rw [lt_max_iff]; exact Or.inr hi)).2.2.2
    have a5 := ha.smoothness
    have s5 := hs.smoothnessSize
    refine ⟨_, Buf.get_of_lt _ i (by omega) (by omega), ?_, ?_⟩
    · rw [hb]; simp only []; omega
    · rw [hb]; rfl
  · intro i hi
    refine (hs.rest i ?_).2.2.2
    rcases hi with hi | hi
    · exact Or.inl hi
    · by_cases h5 : i < 5
      · exact Or.inl h5
      · exact Or.inr (by rw [max_le_iff]; omega)

theorem squareRanges_allocated : PointsAllocated squareRanges := by
  constructor <;> decide

/-- Witness of C2: 12 points with range `k * k`; the records 5 and 6 are written with
value `110 ^ 2`, the record 4 and the record 7 are not. -/
theorem calculateSmoothness_records_witness :
    PointsAllocated squareRanges ∧
      ∃ fe', calculateSmoothness squareRanges = some fe' ∧
        fe'.cloudSmoothness.get 5 = some { value := 12100, ind := 5 } ∧
        fe'.cloudSmoothness.get 6 = some { value := 12100, ind := 6 } ∧
        fe'.cloudSmoothness.get 4 = some { value := 0, ind := 0 } ∧
        fe'.cloudSmoothness.get 7 = some { value := 0, ind := 0 } := by
  refine ⟨squareRanges_allocated, ?_⟩
  obtain ⟨fe', hrun, hsize, hband, hrest⟩ :=
    calculateSmoothness_records squareRanges squareRanges_allocated
  have hsz : fe'.cloudSmoothness.size = 12 := by rw [hsize]; decide
  refine ⟨fe', hrun, ?_, ?_, ?_, ?_⟩
  · obtain ⟨rec, h1, h2, h3⟩ := hband 5 (by decide) (by decide)
    rw [h1]
    have h4 : rec.value = 12100 := by rw [h3]; decide!
    have h5 : rec.ind = 5 := by omega
    cases rec
    simp only at h4 h5
    rw [h4, h5]
  · obtain ⟨rec, h1, h2, h3⟩ := hband 6 (by decide) (by decide)
    rw [h1]
    have h4 : rec.value = 12100 := by rw [h3]; decide!
    have h5 : rec.ind = 6 := by omega
    cases rec
    simp only at h4 h5
    rw [h4, h5]
  · rw [Buf.get_of_lt _ 4 (by decide) (by omega), hrest 4 (Or.inl (by decide))]
    rfl
  · rw [Buf.get_of_lt _ 7 (by decide) (by omega), hrest 7 (Or.inr (by decide))]
    rfl

theorem pow2_pos (e : Int) : 0 < pow2 e := by
  unfold pow2
  split
  · positivity
  · positivity

theorem roundHalfEven_nonneg {y : ℚ} (h : 0 ≤ y) : 0 ≤ roundHalfEven y := by
  have hf : (0 : Int) ≤ y.num / (y.den : Int) :=
    Int.ediv_nonneg (Rat.num_nonneg.mpr h) (by exact_mod_cast Nat.zero_le _)
  unfold roundHalfEven
  simp only []
  split
  · exact hf
  · split
    · omega
    · split
      · exact hf
      · omega

theorem roundMagnitude_nonneg (p : Nat) (emin : Int) {x : ℚ} (h : 0 ≤ x) :
    0 ≤ roundMagnitude p emin x := by
  unfold roundMagnitude
  split
  · exact le_refl 0
  · simp only []
    apply mul_nonneg
    · exact_mod_cast roundHalfEven_nonneg (div_nonneg h (le_of_lt (pow2_pos _)))
    · exact le_of_lt (pow2_pos _)

theorem roundBinary_nonneg (p : Nat) (emin : Int) {x : ℚ} (h : 0 ≤ x) :
    0 ≤ roundBinary p emin x := by
  unfold roundBinary
  rw [if_neg (not_lt.mpr h)]
  exact roundMagnitude_nonneg p emin h

theorem roundBinary_nonpos (p : Nat) (emin : Int) {x : ℚ} (h : x ≤ 0) :
    roundBinary p emin x ≤ 0 := by
  unfold roundBinary
  by_cases hx : x < 0
  · rw [if_pos hx]
    have := roundMagnitude_nonneg p emin (by linarith : (0 : ℚ) ≤ -x)
    linarith
  · rw [if_neg hx]
    have h0 : x = 0 := le_antisymm h (not_lt.mp hx)
    rw [h0]
    unfold roundMagnitude
    rw [if_pos rfl]

theorem float64_three_tenths_pos : 0 < float64 (3 / 10) := by decide!

/-- A difference above the threshold and the opposite difference above it exclude each
other: rounding keeps the sign. -/
theorem float32_not_both {x y : ℚ} (h : float32 (x - y) > float64 (3 / 10)) :
    ¬ float32 (y - x) > float64 (3 / 10) := by
  intro h2
  have hp := float64_three_tenths_pos
  by_cases hxy : x ≤ y
  · have := roundBinary_nonpos 24 (-126) (by linarith : x - y ≤ 0)
    unfold float32 at h
    linarith
  · have := roundBinary_nonpos 24 (-126) (by linarith : y - x ≤ 0)
    unfold float32 at h2
    linarith

theorem float32_zero : float32 0 = 0 := by decide!

theorem float32_one : float32 1 = 1 := by decide!

theorem float32_neg_one : float32 (-1) = -1 := by decide!

/-- The `double` product of 0.02 and a range that is not negative is not negative. -/
theorem float64_scaled_nonneg {r : ℚ} (h : 0 ≤ r) : 0 ≤ float64 (float64 (2 / 100) * r) := by
  unfold float64
  apply roundBinary_nonneg
  apply mul_nonneg _ h
  exact roundBinary_nonneg 53 (-1022) (by norm_num)

theorem markAll_spec (np : Buf Int) (l : List Int) (hl : ∀ i ∈ l, 0 ≤ i ∧ i < np.size) :
    ∃ np', markAll np l = some np' ∧ np'.size = np.size ∧
      ∀ m, np'.data m = if m ∈ l then 1 else np.data m := by
  induction l generalizing np with
  | nil => exact ⟨np, rfl, rfl, by simp⟩
  | cons a l ih =>
    have ha := hl a (by simp)
    obtain ⟨np', h1, h2, h3⟩ := ih { np with data := Function.update np.data a 1 }
      (fun i hi => hl i (by simp [hi]))
    refine ⟨np', ?_, h2, ?_⟩
    · simp only [markAll]
      rw [Buf.set_of_lt _ _ _ ha.1 ha.2]
      exact h1
    · intro m
      rw [h3 m]
      by_cases hma : m = a
      · subst hma; simp
      · simp [hma, Function.update_noteq hma]

theorem Occluded.init_flags (fe0 : FeatureExtract) : Occluded fe0 5 fe0 where
  frame := rfl
  size := rfl
  marked := by
    rintro m ⟨i, h1, h2, _⟩
    omega
  kept := by intros; rfl

/-- One iteration of the loop of `markOccludedPoints`: it returns, only the flags change, and
the flag of `m` becomes 1 if the iteration marks `m` and is kept otherwise. -/
theorem occludedAt_spec (fe : FeatureExtract) (i : Int) (h5 : 5 ≤ i)
    (hr : i + 6 < fe.cloudInfo.pointRange.size) (hc : i + 6 < fe.cloudInfo.pointColInd.size)
    (hp : i + 6 < fe.cloudNeighborPicked.size) :
    ∃ np, occludedAt fe i = some { fe with cloudNeighborPicked := np } ∧
      np.size = fe.cloudNeighborPicked.size ∧
      (∀ m, occludes fe.cloudInfo.pointRange.data fe.cloudInfo.pointColInd.data i m →
        np.data m = 1) ∧
      (∀ m, ¬ occludes fe.cloudInfo.pointRange.data fe.cloudInfo.pointColInd.data i m →
        np.data m = fe.cloudNeighborPicked.data m) := by
  have hmark : ∃ np1,
      (if |fe.cloudInfo.pointColInd.data (i + 1) - fe.cloudInfo.pointColInd.data i| < 10 then
        if float32 (fe.cloudInfo.pointRange.data i - fe.cloudInfo.pointRange.data (i + 1)) > float64 (3 / 10) then
          markAll fe.cloudNeighborPicked [i - 5, i - 4, i - 3, i - 2, i - 1, i]
        else if float32 (fe.cloudInfo.pointRange.data (i + 1) - fe.cloudInfo.pointRange.data i) > float64 (3 / 10)
        then markAll fe.cloudNeighborPicked [i + 1, i + 2, i + 3, i + 4, i + 5, i + 6]
        else some fe.cloudNeighborPicked
      else some fe.cloudNeighborPicked) = some np1 ∧
      np1.size = fe.cloudNeighborPicked.size ∧
      ∀ m, np1.data m =
        if (|fe.cloudInfo.pointColInd.data (i + 1) - fe.cloudInfo.pointColInd.data i| < 10 ∧
            float32 (fe.cloudInfo.pointRange.data i - fe.cloudInfo.pointRange.data (i + 1)) > float64 (3 / 10) ∧
            i - 5 ≤ m ∧ m ≤ i) ∨
          (|fe.cloudInfo.pointColInd.data (i + 1) - fe.cloudInfo.pointColInd.data i| < 10 ∧
            float32 (fe.cloudInfo.pointRange.data (i + 1) - fe.cloudInfo.pointRange.data i) > float64 (3 / 10) ∧
            i + 1 ≤ m ∧ m ≤ i + 6)
        then 1 else fe.cloudNeighborPicked.data m := by
    by_cases hgap :
        |fe.cloudInfo.pointColInd.data (i + 1) - fe.cloudInfo.pointColInd.data i| < 10
    · by_cases hfall :
          float32 (fe.cloudInfo.pointRange.data i - fe.cloudInfo.pointRange.data (i + 1)) > float64 (3 / 10)
      · obtain ⟨np1, e1, e2, e3⟩ := markAll_spec fe.cloudNeighborPicked
          [i - 5, i - 4, i - 3, i - 2, i - 1, i] (by
            intro k hk
            simp only [List.mem_cons, List.mem_singleton, List.not_mem_nil, or_false] at hk
            omega)
        refine ⟨np1, by simp only [hgap, hfall, if_true]; exact e1, e2, ?_⟩
        intro m
        rw [e3 m]
        have hnr : ¬ float32 (fe.cloudInfo.pointRange.data (i + 1) - fe.cloudInfo.pointRange.data i) >
            float64 (3 / 10) := float32_not_both hfall
        have hiff : m ∈ [i - 5, i - 4, i - 3, i - 2, i - 1, i] ↔ (i - 5 ≤ m ∧ m ≤ i) := by
          simp only [List.mem_cons, List.mem_singleton, List.not_mem_nil, or_false]
          omega
        by_cases hm : i - 5 ≤ m ∧ m ≤ i
        · simp [hiff.mpr hm, hgap, hfall, hm.1, hm.2]
        · rw [if_neg (fun h => hm (hiff.mp h)), if_neg]
          rintro (⟨_, _, h1, h2⟩ | ⟨_, h, _, _⟩)
          · exact hm ⟨h1, h2⟩
          · exact hnr h
      · by_cases hrise :
            float32 (fe.cloudInfo.pointRange.data (i + 1) - fe.cloudInfo.pointRange.data i) > float64 (3 / 10)
        · obtain ⟨np1, e1, e2, e3⟩ := markAll_spec fe.cloudNeighborPicked
            [i + 1, i + 2, i + 3, i + 4, i + 5, i + 6] (by
              intro k hk
              simp only [List.mem_cons, List.mem_singleton, List.not_mem_nil, or_false] at hk
              omega)
          refine ⟨np1, by simp only [hgap, hfall, hrise, if_true, if_false]; exact e1, e2, ?_⟩
          intro m
          rw [e3 m]
          have hiff : m ∈ [i + 1, i + 2, i + 3, i + 4, i + 5, i + 6] ↔
              (i + 1 ≤ m ∧ m ≤ i + 6) := by
            simp only [List.mem_cons, List.mem_singleton, List.not_mem_nil, or_false]
            omega
          by_cases hm : i + 1 ≤ m ∧ m ≤ i + 6
          · simp [hiff.mpr hm, hgap, hrise, hm.1, hm.2]
          · rw [if_neg (fun h => hm (hiff.mp h)), if_neg]
            rintro (⟨_, h, _, _⟩ | ⟨_, _, h1, h2⟩)
            · exact hfall h
            · exact hm ⟨h1, h2⟩
        · refine ⟨fe.cloudNeighborPicked, by simp only [hgap, hfall, hrise, if_true, if_false],
            rfl, ?_⟩
          intro m
          rw [if_neg]
          rintro (⟨_, h, _, _⟩ | ⟨_, h, _, _⟩)
          · exact hfall h
          · exact hrise h
    · refine ⟨fe.cloudNeighborPicked, by simp only [hgap, if_false], rfl, ?_⟩
      intro m
      rw [if_neg]
      rintro (⟨h, _⟩ | ⟨h, _⟩) <;> exact hgap h
  obtain ⟨np1, e1, e2, e3⟩ := hmark
  unfold occludedAt
  simp only []
  rw [Buf.get_of_lt _ i (by omega) (by omega), Buf.get_of_lt _ (i + 1) (by omega) (by omega),
    Buf.get_of_lt _ (i + 1) (by omega) (by omega), Buf.get_of_lt _ i (by omega) (by omega),
    Buf.get_of_lt _ (i - 1) (by omega) (by omega)]
  simp only []
  rw [e1]
  simp only []
  by_cases hpar :
      |float32 (fe.cloudInfo.pointRange.data (i - 1) - fe.cloudInfo.pointRange.data i)| >
          float64 (float64 (2 / 100) * fe.cloudInfo.pointRange.data i) ∧
        |float32 (fe.cloudInfo.pointRange.data (i + 1) - fe.cloudInfo.pointRange.data i)| >
          float64 (float64 (2 / 100) * fe.cloudInfo.pointRange.data i)
  · rw [if_pos hpar, Buf.set_of_lt _ i _ (by omega) (by omega)]
    refine ⟨_, rfl, e2, ?_, ?_⟩
    · intro m hm
      simp only []
      by_cases hmi : m = i
      · subst hmi; simp
      · rw [Function.update_noteq hmi, e3 m, if_pos]
        rcases hm with h | h | h
        · exact Or.inl h
        · exact Or.inr h
        · exact absurd h.1 hmi
    · intro m hm
      simp only []
      have hmi : m ≠ i := fun h => hm (Or.inr (Or.inr ⟨h, hpar⟩))
      rw [Function.update_noteq hmi, e3 m, if_neg]
      rintro (h | h)
      · exact hm (Or.inl h)
      · exact hm (Or.inr (Or.inl h))
  · rw [if_neg hpar]
    refine ⟨np1, rfl, e2, ?_, ?_⟩
    · intro m hm
      rw [e3 m, if_pos]
      rcases hm with h | h | h
      · exact Or.inl h
      · exact Or.inr h
      · exact absurd h.2 hpar
    · intro m hm
      rw [e3 m, if_neg]
      rintro (h | h)
      · exact hm (Or.inl h)
      · exact hm (Or.inr (Or.inl h))

/-- One iteration of the loop of `markOccludedPoints` keeps the invariant. -/
theorem occludedAt_step {fe0 fe : FeatureExtract} (ha : PointsAllocated fe0) {i : Int}
    (h5 : 5 ≤ i) (hi : i < fe0.extractedCloud.size - 6) (h : Occluded fe0 i fe) :
    ∃ fe', occludedAt fe i = some fe' ∧ Occluded fe0 (i + 1) fe' := by
  have hci : fe.cloudInfo = fe0.cloudInfo := by
    have e := congrArg FeatureExtract.cloudInfo h.frame; exact e
  have a1 := ha.range
  have a2 := ha.colInd
  have a3 := ha.picked
  have s1 := h.size
  obtain ⟨np, e1, e2, e3, e4⟩ := occludedAt_spec fe i h5 (by rw [hci]; omega)
    (by rw [hci]; omega) (by omega)
  rw [hci] at e3 e4
  refine ⟨_, e1, ?_⟩
  constructor
  case frame =>
    have := h.frame
    rw [this]
  case size => exact e2.trans s1
  case marked =>
    rintro m ⟨k, hk5, hk, hocc⟩
    by_cases hm : occludes fe0.cloudInfo.pointRange.data fe0.cloudInfo.pointColInd.data i m
    · exact e3 m hm
    · simp only []
      rw [e4 m hm]
      have hki : k ≠ i := by
        rintro rfl
        exact hm hocc
      exact h.marked m ⟨k, hk5, by omega, hocc⟩
  case kept =>
    intro m hm
    have h1 : ¬ occludes fe0.cloudInfo.pointRange.data fe0.cloudInfo.pointColInd.data i m :=
      fun hocc => hm ⟨i, h5, by omega, hocc⟩
    simp only []
    rw [e4 m h1]
    exact h.kept m (fun ⟨k, hk5, hk, hocc⟩ => hm ⟨k, hk5, by omega, hocc⟩)

/-- The run of `markOccludedPoints` on buffers that hold the extracted cloud. -/
theorem markOccludedPoints_spec (fe0 : FeatureExtract) (ha : PointsAllocated fe0) :
    ∃ fe', markOccludedPoints fe0 = some fe' ∧
      Occluded fe0 (max 5 (fe0.extractedCloud.size - 6)) fe' := by
  unfold markOccludedPoints
  exact forLoop_intRange_total_max occludedAt (fun i s => Occluded fe0 i s) 5
    (fe0.extractedCloud.size - 6) fe0 (Occluded.init_flags fe0)
    (fun i s h5 hi hs => occludedAt_step ha h5 hi hs)

/-- C3 (amended): on buffers that hold the extracted sequence of length `n`,
`markOccludedPoints` returns, and afterwards an index `m` is flagged (its flag is not 0) if
and only if it was flagged before the call or some `i` with `5 ≤ i < n - 6` has (a) column
gap below 10, the difference `range[i] - range[i+1]` rounded to `float` above the `double`
0.3, and `i - 5 ≤ m ≤ i`, or (b) column gap below 10, the rounded difference
`range[i+1] - range[i]` above 0.3 and `i + 1 ≤ m ≤ i + 6`, or (c) `m = i` and the rounded
differences of both neighbours from `range[i]` above, in absolute value, the `double`
product of 0.02 and `range[i]`. -/
theorem markOccludedPoints_flagged_iff (fe : FeatureExtract) (ha : PointsAllocated fe) :
    ∃ fe', markOccludedPoints fe = some fe' ∧
      ∀ m : Int, fe'.cloudNeighborPicked.data m ≠ 0 ↔
        (fe.cloudNeighborPicked.data m ≠ 0 ∨
          ∃ i : Int, 5 ≤ i ∧ i < fe.extractedCloud.size - 6 ∧
            ((|fe.cloudInfo.pointColInd.data (i + 1) - fe.cloudInfo.pointColInd.data i| < 10 ∧
                float32 (fe.cloudInfo.pointRange.data i - fe.cloudInfo.pointRange.data (i + 1)) > float64 (3 / 10) ∧
                i - 5 ≤ m ∧ m ≤ i) ∨
              (|fe.cloudInfo.pointColInd.data (i + 1) - fe.cloudInfo.pointColInd.data i| < 10 ∧
                float32 (fe.cloudInfo.pointRange.data (i + 1) - fe.cloudInfo.pointRange.data i) > float64 (3 / 10) ∧
                i + 1 ≤ m ∧ m ≤ i + 6) ∨
              (m = i ∧
                |float32 (fe.cloudInfo.pointRange.data (i - 1) - fe.cloudInfo.pointRange.data i)| >
                  float64 (float64 (2 / 100) * fe.cloudInfo.pointRange.data i) ∧
                |float32 (fe.cloudInfo.pointRange.data (i + 1) - fe.cloudInfo.pointRange.data i)| >
                  float64 (float64 (2 / 100) * fe.cloudInfo.pointRange.data i)))) := by
  obtain ⟨fe', hrun, hs⟩ := markOccludedPoints_spec fe ha
  refine ⟨fe', hrun, ?_⟩
  intro m
  by_cases hex : ∃ i : Int, 5 ≤ i ∧ i < max 5 (fe.extractedCloud.size - 6) ∧
      occludes fe.cloudInfo.pointRange.data fe.cloudInfo.pointColInd.data i m
  · have h1 := hs.marked m hex
    obtain ⟨i, h5, hi, hocc⟩ := hex
    constructor
    · intro _
      refine Or.inr ⟨i, h5, ?_, hocc⟩
      rcases lt_max_iff.mp hi with h | h
      · omega
      · exact h
    · intro _
      rw [h1]; decide
  · have h1 := hs.kept m hex
    rw [h1]
    constructor
    · intro h; exact Or.inl h
    · rintro (h | ⟨i, h5, hi, hocc⟩)
      · exact h
      · exact absurd ⟨i, h5, lt_max_iff.mpr (Or.inr hi), hocc⟩ hex

theorem stepRanges_allocated : PointsAllocated stepRanges := by
  constructor <;> decide

/-- Witness of C3 (amended): a rising step of 1 between the indices 6 and 7 of 14 points
flags index 7 and leaves index 6 unflagged. -/
theorem markOccludedPoints_flagged_iff_witness :
    PointsAllocated stepRanges ∧
      ∃ fe', markOccludedPoints stepRanges = some fe' ∧
        fe'.cloudNeighborPicked.data 7 ≠ 0 ∧ ¬ fe'.cloudNeighborPicked.data 6 ≠ 0 := by
  refine ⟨stepRanges_allocated, ?_⟩
  obtain ⟨fe', hrun, hiff⟩ := markOccludedPoints_flagged_iff stepRanges stepRanges_allocated
  refine ⟨fe', hrun, ?_, ?_⟩
  · rw [hiff 7]
    refine Or.inr ⟨6, by decide, by decide, Or.inr (Or.inl ?_)⟩
    refine ⟨by decide!, by decide!, by decide, by decide⟩
  · rw [hiff 6]
    rintro (h | ⟨i, h5, hi, hocc⟩)
    · exact h rfl
    · have hi8 : i < 8 := hi
      have hcases : i = 5 ∨ i = 6 ∨ i = 7 := by omega
      rcases hcases with rfl | rfl | rfl
      · rcases hocc with ⟨_, h, _, _⟩ | ⟨_, h, _, _⟩ | ⟨h, _, _⟩
        · exact absurd h (by decide!)
        · exact absurd h (by decide!)
        · exact absurd h (by decide)
      · rcases hocc with ⟨_, h, _, _⟩ | ⟨_, _, h, _⟩ | ⟨_, h, _⟩
        · exact absurd h (by decide!)
        · exact absurd h (by decide)
        · exact absurd h (by decide!)
      · rcases hocc with ⟨_, h, _, _⟩ | ⟨_, h, _, _⟩ | ⟨h, _, _⟩
        · exact absurd h (by decide!)
        · exact absurd h (by decide!)
        · exact absurd h (by decide)

/-- Counterexample to C3 as stated: in `nearThreshold` the range rises between the indices
6 and 7 from 0x1.000002p-3 to 0x1.b33334p-2, by less than 0.3; the `float` difference is a
tie that rounds up to 0x1.333334p-2, above 0.3, so `markOccludedPoints` flags index 7,
which was not flagged before and which none of the rules (a), (b), (c) of the claim, with
their exact differences, marks. -/
theorem markOccludedPoints_exact_threshold_counterexample :
    nearThreshold.cloudInfo.pointRange.data 7 - nearThreshold.cloudInfo.pointRange.data 6 < 3 / 10 ∧
      float32 (nearThreshold.cloudInfo.pointRange.data 7 - nearThreshold.cloudInfo.pointRange.data 6) > float64 (3 / 10) ∧
      ∃ fe', markOccludedPoints nearThreshold = some fe' ∧
        fe'.cloudNeighborPicked.data 7 ≠ 0 ∧
        ¬ (nearThreshold.cloudNeighborPicked.data 7 ≠ 0 ∨
          ∃ i : Int, 5 ≤ i ∧ i < nearThreshold.extractedCloud.size - 6 ∧
            ((|nearThreshold.cloudInfo.pointColInd.data (i + 1) - nearThreshold.cloudInfo.pointColInd.data i| < 10 ∧
                nearThreshold.cloudInfo.pointRange.data i - nearThreshold.cloudInfo.pointRange.data (i + 1) > 3 / 10 ∧ i - 5 ≤ 7 ∧ 7 ≤ i) ∨
              (|nearThreshold.cloudInfo.pointColInd.data (i + 1) - nearThreshold.cloudInfo.pointColInd.data i| < 10 ∧
                nearThreshold.cloudInfo.pointRange.data (i + 1) - nearThreshold.cloudInfo.pointRange.data i > 3 / 10 ∧ i + 1 ≤ 7 ∧ 7 ≤ i + 6) ∨
              (7 = i ∧
                |nearThreshold.cloudInfo.pointRange.data (i - 1) - nearThreshold.cloudInfo.pointRange.data i| > 2 / 100 * nearThreshold.cloudInfo.pointRange.data i ∧
                |nearThreshold.cloudInfo.pointRange.data (i + 1) - nearThreshold.cloudInfo.pointRange.data i| > 2 / 100 * nearThreshold.cloudInfo.pointRange.data i))) := by
  have hflag : (markOccludedPoints nearThreshold).map
      (fun fe => fe.cloudNeighborPicked.data 7) = some 1 := by decide!
  refine ⟨by decide!, by decide!, ?_⟩
  cases hrun : markOccludedPoints nearThreshold with
  | none => rw [hrun] at hflag; exact absurd hflag (by simp)
  | some fe' =>
    rw [hrun] at hflag
    simp only [Option.map_some', Option.some.injEq] at hflag
    refine ⟨fe', rfl, by rw [hflag]; decide, ?_⟩
    rintro (h | ⟨i, h5, hi, hocc⟩)
    · exact h rfl
    · have hi8 : i < 8 := hi
      have hcases : i = 5 ∨ i = 6 ∨ i = 7 := by omega
      rcases hcases with rfl | rfl | rfl
      · rcases hocc with ⟨_, h, _, _⟩ | ⟨_, h, _, _⟩ | ⟨h, _, _⟩
        · exact absurd h (by decide!)
        · exact absurd h (by decide!)
        · exact absurd h (by decide)
      · rcases hocc with ⟨_, h, _, _⟩ | ⟨_, h, _, _⟩ | ⟨h, _, _⟩
        · exact absurd h (by decide!)
        · exact absurd h (by decide!)
        · exact absurd h (by decide)
      · rcases hocc with ⟨_, h, _, _⟩ | ⟨_, h, _, _⟩ | ⟨_, _, h⟩
        · exact absurd h (by decide!)
        · exact absurd h (by decide!)
        · exact absurd h (by decide!)

theorem SameGrid.same (fe : FeatureExtract) : SameGrid fe fe where
  frame := rfl
  rows := rfl
  cols := rfl
  full := rfl
  counters := rfl

theorem SameGrid.then {fe1 fe2 fe3 : FeatureExtract} (h1 : SameGrid fe1 fe2)
    (h2 : SameGrid fe2 fe3) : SameGrid fe1 fe3 where
  frame := by
    have e2 := h2.frame
    have e1 := h1.frame
    rw [e2, e1]
  rows := h2.rows.trans h1.rows
  cols := h2.cols.trans h1.cols
  full := h2.full.trans h1.full
  counters := h2.counters.trans h1.counters

theorem ProjectionAllocated.of_sameGrid {fe fe' : FeatureExtract} (ha : ProjectionAllocated fe)
    (h : SameGrid fe fe') : ProjectionAllocated fe' := by
  have e := h.frame
  have eN : fe'.N_SCAN = fe.N_SCAN := by
    have e1 := congrArg FeatureExtract.N_SCAN e; exact e1
  have eH : fe'.Horizon_SCAN = fe.Horizon_SCAN := by
    have e1 := congrArg FeatureExtract.Horizon_SCAN e; exact e1
  have eD : fe'.downsampleRate = fe.downsampleRate := by
    have e1 := congrArg FeatureExtract.downsampleRate e; exact e1
  constructor
  · rw [eN, h.rows]; exact ha.rows
  · rw [eH, h.cols]; exact ha.cols
  · rw [eN, eH, h.full]; exact ha.full
  · rw [eN, h.counters]; exact ha.counters
  · rw [eD]; exact ha.rate

/-- A point that fails the range, ring or decimation filter leaves the whole state as it
is. -/
theorem projectPoint_filtered (env : Collaborators) (fe : FeatureExtract) (p : PointType)
    (hd : fe.downsampleRate ≠ 0)
    (h : env.pointDistance (thisPointOf p) < fe.lidarMinRange ∨
      env.pointDistance (thisPointOf p) > fe.lidarMaxRange ∨
      floatToInt p.normal_y < 0 ∨ floatToInt p.normal_y ≥ fe.N_SCAN ∨
      Int.tmod (floatToInt p.normal_y) fe.downsampleRate ≠ 0) :
    projectPoint env fe p = some fe := by
  unfold projectPoint
  simp only []
  by_cases h1 : env.pointDistance (thisPointOf p) < fe.lidarMinRange ∨
      env.pointDistance (thisPointOf p) > fe.lidarMaxRange
  · rw [if_pos h1]
  · rw [if_neg h1]
    by_cases h2 : floatToInt p.normal_y < 0 ∨ floatToInt p.normal_y ≥ fe.N_SCAN
    · rw [if_pos h2]
    · rw [if_neg h2, if_neg hd]
      have h3 : Int.tmod (floatToInt p.normal_y) fe.downsampleRate ≠ 0 := by
        rcases h with h | h | h | h | h
        · exact absurd (Or.inl h) h1
        · exact absurd (Or.inr h) h1
        · exact absurd (Or.inl h) h2
        · exact absurd (Or.inr h) h2
        · exact h
      rw [if_pos h3]

/-- One iteration of the loop of `projectPointCloud` on allocated buffers: it returns; the
range image and the full-grid buffer are unchanged unless the point maps to a cell that is
empty, and then that cell receives the range and the point. -/
theorem projectPoint_spec (env : Collaborators) (fe : FeatureExtract) (p : PointType)
    (ha : ProjectionAllocated fe) :
    ∃ fe', projectPoint env fe p = some fe' ∧ SameGrid fe fe' ∧
      (targetCell env fe p = none →
        fe'.rangeMat = fe.rangeMat ∧ fe'.fullCloud = fe.fullCloud) ∧
      (∀ r c, targetCell env fe p = some (r, c) →
        ((0 ≤ r ∧ r < fe.N_SCAN) ∧ (0 ≤ c ∧ c < fe.Horizon_SCAN) ∧
          Int.tmod r fe.downsampleRate = 0 ∧
          fe.lidarMinRange ≤ env.pointDistance (thisPointOf p) ∧
          env.pointDistance (thisPointOf p) ≤ fe.lidarMaxRange) ∧
        (fe.rangeMat.data r c ≠ FLT_MAX →
          fe'.rangeMat = fe.rangeMat ∧ fe'.fullCloud = fe.fullCloud) ∧
        (fe.rangeMat.data r c = FLT_MAX →
          fe'.rangeMat.data = Function.update fe.rangeMat.data r
            (Function.update (fe.rangeMat.data r) c (env.pointDistance (thisPointOf p))) ∧
          fe'.fullCloud.data = Function.update fe.fullCloud.data (c + r * fe.Horizon_SCAN)
            (thisPointOf p))) := by
  have a1 := ha.rows
  have a2 := ha.cols
  have a3 := ha.full
  have a4 := ha.counters
  by_cases hf : fe.lidarMinRange ≤ env.pointDistance (thisPointOf p) ∧
      env.pointDistance (thisPointOf p) ≤ fe.lidarMaxRange ∧ 0 ≤ floatToInt p.normal_y ∧
      floatToInt p.normal_y < fe.N_SCAN ∧ Int.tmod (floatToInt p.normal_y) fe.downsampleRate = 0
  swap
  · have hfail : env.pointDistance (thisPointOf p) < fe.lidarMinRange ∨
        env.pointDistance (thisPointOf p) > fe.lidarMaxRange ∨
        floatToInt p.normal_y < 0 ∨ floatToInt p.normal_y ≥ fe.N_SCAN ∨
        Int.tmod (floatToInt p.normal_y) fe.downsampleRate ≠ 0 := by
      by_contra hcon
      push_neg at hcon
      exact hf ⟨hcon.1, hcon.2.1, hcon.2.2.1, hcon.2.2.2.1, hcon.2.2.2.2⟩
    have ht : targetCell env fe p = none := by
      unfold targetCell
      simp only []
      rw [if_neg hf]
    refine ⟨fe, projectPoint_filtered env fe p ha.rate hfail, SameGrid.same fe,
      fun _ => ⟨rfl, rfl⟩, ?_⟩
    intro r c hrc
    rw [ht] at hrc
    exact absurd hrc (by simp)
  · obtain ⟨hmin, hmax, hr0, hrN, hmod⟩ := hf
    have hn1 : ¬ (env.pointDistance (thisPointOf p) < fe.lidarMinRange ∨
        env.pointDistance (thisPointOf p) > fe.lidarMaxRange) := by
      rintro (h | h)
      · exact absurd hmin (not_le.mpr h)
      · exact absurd hmax (not_le.mpr h)
    have hn2 : ¬ (floatToInt p.normal_y < 0 ∨ floatToInt p.normal_y ≥ fe.N_SCAN) := by
      rintro (h | h) <;> omega
    have hn3 : ¬ Int.tmod (floatToInt p.normal_y) fe.downsampleRate ≠ 0 := fun h => h hmod
    -- the column and the state after computing it
    obtain ⟨col, fe1, hcol, hsg, hrm, hfc, hH, hcoldef⟩ : ∃ col fe1,
        columnIdnOf env fe (thisPointOf p) (floatToInt p.normal_y) = some (col, fe1) ∧
        SameGrid fe fe1 ∧ fe1.rangeMat = fe.rangeMat ∧ fe1.fullCloud = fe.fullCloud ∧
        fe1.Horizon_SCAN = fe.Horizon_SCAN ∧
        col = (if fe.sensor = SensorType.LIVOX then
            fe.columnIdnCountVec.data (floatToInt p.normal_y)
          else if env.azimuthColumn (thisPointOf p) ≥ fe.Horizon_SCAN then
            env.azimuthColumn (thisPointOf p) - fe.Horizon_SCAN
          else env.azimuthColumn (thisPointOf p)) := by
      unfold columnIdnOf
      by_cases hs : fe.sensor = SensorType.LIVOX
      · rw [if_pos hs, Buf.get_of_lt _ _ hr0 (by omega)]
        simp only []
        rw [Buf.set_of_lt _ _ _ hr0 (by omega)]
        refine ⟨_, _, rfl, ⟨rfl, rfl, rfl, rfl, rfl⟩, rfl, rfl, rfl, ?_⟩
        rw [if_pos hs]
      · rw [if_neg hs]
        refine ⟨_, _, rfl, SameGrid.same fe, rfl, rfl, rfl, ?_⟩
        rw [if_neg hs]
    have htarget : targetCell env fe p =
        if 0 ≤ col ∧ col < fe.Horizon_SCAN then some (floatToInt p.normal_y, col) else none := by
      unfold targetCell
      simp only []
      rw [if_pos ⟨hmin, hmax, hr0, hrN, hmod⟩, ← hcoldef]
    have hunfold : projectPoint env fe p =
        if col < 0 ∨ col ≥ fe1.Horizon_SCAN then some fe1
        else
          match fe1.rangeMat.at (floatToInt p.normal_y) col with
          | none => none
          | some cur =>
            if cur ≠ FLT_MAX then some fe1
            else
              match fe1.rangeMat.set (floatToInt p.normal_y) col
                  (env.pointDistance (thisPointOf p)) with
              | none => none
              | some rm =>
                match fe1.fullCloud.set (col + floatToInt p.normal_y * fe1.Horizon_SCAN)
                    (thisPointOf p) with
                | none => none
                | some fc => some { fe1 with rangeMat := rm, fullCloud := fc } := by
      unfold projectPoint
      simp only []
      rw [if_neg hn1, if_neg hn2, if_neg ha.rate, if_neg hn3, hcol]
    by_cases hc : 0 ≤ col ∧ col < fe.Horizon_SCAN
    swap
    · have hc' : col < 0 ∨ col ≥ fe1.Horizon_SCAN := by rw [hH]; omega
      rw [if_neg hc] at htarget
      refine ⟨fe1, by rw [hunfold, if_pos hc'], hsg, fun _ => ⟨hrm, hfc⟩, ?_⟩
      intro r c hrc
      rw [htarget] at hrc
      exact absurd hrc (by simp)
    · have hc' : ¬ (col < 0 ∨ col ≥ fe1.Horizon_SCAN) := by rw [hH]; omega
      rw [if_pos hc] at htarget
      have hat : fe1.rangeMat.at (floatToInt p.normal_y) col =
          some (fe.rangeMat.data (floatToInt p.normal_y) col) := by
        rw [hrm]
        exact Mat.at_of_lt _ _ _ hr0 (by omega) hc.1 (by omega)
      by_cases hcur : fe.rangeMat.data (floatToInt p.normal_y) col = FLT_MAX
      swap
      · refine ⟨fe1, ?_, hsg, ?_, ?_⟩
        · rw [hunfold, if_neg hc', hat]
          simp only []
          rw [if_pos hcur]
        · intro h
          rw [htarget] at h
          exact absurd h (by simp)
        · intro r c hrc
          rw [htarget] at hrc
          simp only [Option.some.injEq, Prod.mk.injEq] at hrc
          obtain ⟨rfl, rfl⟩ := hrc
          exact ⟨⟨⟨hr0, hrN⟩, hc, hmod, hmin, hmax⟩, fun _ => ⟨hrm, hfc⟩,
            fun h => absurd h hcur⟩
      · have hidx := cell_index_bound hr0 hrN hc.1 hc.2
        have hset : fe1.rangeMat.set (floatToInt p.normal_y) col
            (env.pointDistance (thisPointOf p)) =
            some { fe1.rangeMat with
              data := Function.update fe1.rangeMat.data (floatToInt p.normal_y)
                (Function.update (fe1.rangeMat.data (floatToInt p.normal_y)) col
                  (env.pointDistance (thisPointOf p))) } := by
          unfold Mat.set
          rw [if_pos]
          rw [hrm]
          exact ⟨hr0, by omega, hc.1, by omega⟩
        have hfset := Buf.set_of_lt fe1.fullCloud
          (col + floatToInt p.normal_y * fe1.Horizon_SCAN) (thisPointOf p)
          (by rw [hH]; exact hidx.1) (by rw [hH, hfc]; omega)
        refine ⟨{ fe1 with
            rangeMat := { fe1.rangeMat with
              data := Function.update fe1.rangeMat.data (floatToInt p.normal_y)
                (Function.update (fe1.rangeMat.data (floatToInt p.normal_y)) col
                  (env.pointDistance (thisPointOf p))) },
            fullCloud := { fe1.fullCloud with
              data := Function.update fe1.fullCloud.data
                (col + floatToInt p.normal_y * fe1.Horizon_SCAN) (thisPointOf p) } },
          ?_, ?_, ?_, ?_⟩
        · rw [hunfold, if_neg hc', hat]
          simp only []
          rw [if_neg (by simpa using hcur), hset]
          simp only []
          rw [hfset]
        · refine hsg.then ⟨rfl, rfl, rfl, rfl, rfl⟩
        · intro h
          rw [htarget] at h
          exact absurd h (by simp)
        · intro r c hrc
          rw [htarget] at hrc
          simp only [Option.some.injEq, Prod.mk.injEq] at hrc
          obtain ⟨rfl, rfl⟩ := hrc
          refine ⟨⟨⟨hr0, hrN⟩, hc, hmod, hmin, hmax⟩, fun h => absurd hcur h, fun _ => ?_⟩
          simp [hrm, hfc, hH]

theorem SameGrid.config {fe fe' : FeatureExtract} (h : SameGrid fe fe') :
    fe'.N_SCAN = fe.N_SCAN ∧ fe'.Horizon_SCAN = fe.Horizon_SCAN ∧
      fe'.downsampleRate = fe.downsampleRate ∧ fe'.lidarMinRange = fe.lidarMinRange ∧
      fe'.lidarMaxRange = fe.lidarMaxRange ∧ fe'.sensor = fe.sensor ∧
      fe'.inputCloud = fe.inputCloud := by
  have e := h.frame
  refine ⟨?_, ?_, ?_, ?_, ?_, ?_, ?_⟩
  · have e1 := congrArg FeatureExtract.N_SCAN e; exact e1
  · have e1 := congrArg FeatureExtract.Horizon_SCAN e; exact e1
  · have e1 := congrArg FeatureExtract.downsampleRate e; exact e1
  · have e1 := congrArg FeatureExtract.lidarMinRange e; exact e1
  · have e1 := congrArg FeatureExtract.lidarMaxRange e; exact e1
  · have e1 := congrArg FeatureExtract.sensor e; exact e1
  · have e1 := congrArg FeatureExtract.inputCloud e; exact e1

/-- The loop of `projectPointCloud` on allocated buffers returns, and every cell of the range
image that it changes lies in the grid, on a ring kept by the decimation, and holds a range
within the limits. -/
theorem projectLoop_spec (env : Collaborators) (pts : List PointType) (fe : FeatureExtract)
    (ha : ProjectionAllocated fe) :
    ∃ fe', forLoop (projectPoint env) pts fe = some fe' ∧ SameGrid fe fe' ∧
      ∀ r c, fe'.rangeMat.data r c ≠ fe.rangeMat.data r c →
        (0 ≤ r ∧ r < fe.N_SCAN) ∧ (0 ≤ c ∧ c < fe.Horizon_SCAN) ∧
          Int.tmod r fe.downsampleRate = 0 ∧
          fe.lidarMinRange ≤ fe'.rangeMat.data r c ∧ fe'.rangeMat.data r c ≤ fe.lidarMaxRange := by
  induction pts generalizing fe with
  | nil => exact ⟨fe, rfl, SameGrid.same fe, fun r c h => absurd rfl h⟩
  | cons p rest ih =>
    obtain ⟨fe1, h1, hsg1, hnone, hsome⟩ := projectPoint_spec env fe p ha
    obtain ⟨fe2, h2, hsg2, hcells⟩ := ih fe1 (ha.of_sameGrid hsg1)
    obtain ⟨cN, cH, cD, cMin, cMax, _, _⟩ := hsg1.config
    refine ⟨fe2, by simp only [forLoop, h1]; exact h2, hsg1.then hsg2, ?_⟩
    intro r c hne
    by_cases h21 : fe2.rangeMat.data r c = fe1.rangeMat.data r c
    · -- the cell was written by the first point
      rw [h21] at hne ⊢
      cases ht : targetCell env fe p with
      | none =>
        rw [(hnone ht).1] at hne
        exact absurd rfl hne
      | some rc =>
        obtain ⟨r0, c0⟩ := rc
        obtain ⟨hb, hfull, hempty⟩ := hsome r0 c0 ht
        by_cases hcur : fe.rangeMat.data r0 c0 = FLT_MAX
        · have hd := (hempty hcur).1
          rw [hd] at hne ⊢
          by_cases hr : r = r0
          · subst hr
            by_cases hc : c = c0
            · subst hc
              simp only [Function.update_same]
              exact ⟨hb.1, hb.2.1, hb.2.2.1, hb.2.2.2.1, hb.2.2.2.2⟩
            · simp [Function.update_noteq hc] at hne
          · simp [Function.update_noteq hr] at hne
        · rw [(hfull hcur).1] at hne
          exact absurd rfl hne
    · have := hcells r c h21
      rw [cN, cH, cD, cMin, cMax] at this
      exact this

/-- For every input cloud whose ranges are numbers, on allocated buffers and with
`downsampleRate ≥ 1`, `projectPointCloud` from a reset range image returns, and each non-empty
cell `(r, c)` of the result has `0 ≤ r < N_SCAN`, `0 ≤ c < Horizon_SCAN`,
`r mod downsampleRate = 0` and `lidarMinRange ≤ rangeMat(r, c) ≤ lidarMaxRange`; and in any
state of such a configuration an input point whose range is outside the limits, whose ring is
outside `[0, N_SCAN)` or whose ring is not divisible by `downsampleRate` leaves the state, so
the range image and the full-grid buffer, unchanged. -/
theorem projectPointCloud_cells_valid (env : Collaborators) (fe : FeatureExtract)
    (ha : ProjectionAllocated fe) (hrate : 1 ≤ fe.downsampleRate)
    (hreset : ∀ r c, fe.rangeMat.data r c = FLT_MAX) :
    (∃ fe', projectPointCloud env fe = some fe' ∧
      ∀ r c, fe'.rangeMat.data r c ≠ FLT_MAX →
        (0 ≤ r ∧ r < fe.N_SCAN) ∧ (0 ≤ c ∧ c < fe.Horizon_SCAN) ∧
          r % fe.downsampleRate = 0 ∧
          fe.lidarMinRange ≤ fe'.rangeMat.data r c ∧
          fe'.rangeMat.data r c ≤ fe.lidarMaxRange) ∧
    (∀ (s : FeatureExtract) (p : PointType), 1 ≤ s.downsampleRate →
      (env.pointDistance p < s.lidarMinRange ∨ env.pointDistance p > s.lidarMaxRange ∨
        floatToInt p.normal_y < 0 ∨ floatToInt p.normal_y ≥ s.N_SCAN ∨
        floatToInt p.normal_y % s.downsampleRate ≠ 0) →
      ∃ s', projectPoint env s p = some s' ∧
        s'.rangeMat = s.rangeMat ∧ s'.fullCloud = s.fullCloud) := by
  constructor
  · obtain ⟨fe', hrun, _, hcells⟩ := projectLoop_spec env fe.inputCloud fe ha
    refine ⟨fe', hrun, ?_⟩
    intro r c hne
    obtain ⟨hr, hc, hmod, hmin, hmax⟩ := hcells r c (by rw [hreset]; exact hne)
    refine ⟨hr, hc, ?_, hmin, hmax⟩
    rw [← Int.tmod_eq_emod hr.1 (by omega)]
    exact hmod
  · intro s p hs hfail
    have hp : thisPointOf p = p := by cases p; rfl
    refine ⟨s, projectPoint_filtered env s p (by omega) ?_, rfl, rfl⟩
    rw [hp]
    rcases hfail with h | h | h | h | h
    · exact Or.inl h
    · exact Or.inr (Or.inl h)
    · exact Or.inr (Or.inr (Or.inl h))
    · exact Or.inr (Or.inr (Or.inr (Or.inl h)))
    · by_cases h0 : floatToInt p.normal_y < 0
      · exact Or.inr (Or.inr (Or.inl h0))
      · refine Or.inr (Or.inr (Or.inr (Or.inr ?_)))
        rw [Int.tmod_eq_emod (by omega) (by omega)]
        exact h

theorem thisPointOf_eq (p : PointType) : thisPointOf p = p := by
  cases p; rfl

theorem forLoop_snoc {σ ι : Type} (body : σ → ι → Option σ) (l : List ι) (a : ι) (s : σ) :
    forLoop body (l ++ [a]) s = (forLoop body l s).bind (fun t => body t a) := by
  rw [forLoop_append]
  congr 1
  funext t
  simp only [forLoop]
  cases body t a <;> rfl

theorem snoc_eq_append_cons {α : Type} {pre pre1 pre2 : List α} {p q : α}
    (h : pre ++ [p] = pre1 ++ q :: pre2) :
    (pre2 = [] ∧ pre1 = pre ∧ q = p) ∨ ∃ l, pre2 = l ++ [p] ∧ pre = pre1 ++ q :: l := by
  rcases List.eq_nil_or_concat pre2 with rfl | ⟨l, a, rfl⟩
  · left
    have h1 : pre ++ [p] = pre1 ++ [q] := h
    obtain ⟨e1, e2⟩ := List.append_inj' h1 rfl
    simp only [List.cons.injEq, and_true] at e2
    exact ⟨rfl, e1.symm, e2.symm⟩
  · right
    have h1 : pre ++ [p] = (pre1 ++ q :: l) ++ [a] := by
      rw [h]; simp
    obtain ⟨e1, e2⟩ := List.append_inj' h1 rfl
    simp only [List.cons.injEq, and_true] at e2
    exact ⟨l, by rw [e2]; simp, e1⟩

theorem cell_index_inj {H r c r0 c0 : Int} (hc : 0 ≤ c ∧ c < H) (hc0 : 0 ≤ c0 ∧ c0 < H)
    (h : c + r * H = c0 + r0 * H) : r = r0 ∧ c = c0 := by
  have hr : r = r0 := by
    by_contra hne
    rcases lt_or_gt_of_ne hne with hlt | hgt
    · have : (r + 1) * H ≤ r0 * H := mul_le_mul_of_nonneg_right (by omega) (by omega)
      nlinarith
    · have : (r0 + 1) * H ≤ r * H := mul_le_mul_of_nonneg_right (by omega) (by omega)
      nlinarith
  subst hr
  exact ⟨rfl, by omega⟩

/-- The first-writer invariant of the loop of `projectPointCloud` after the points `pre`:
a non-empty cell holds the range and the point of the first point of `pre` that mapped to it,
and a cell some point of `pre` mapped to is non-empty. -/
theorem projectLoop_first_writer (env : Collaborators) (fe0 : FeatureExtract)
    (ha : ProjectionAllocated fe0) (hreset : ∀ r c, fe0.rangeMat.data r c = FLT_MAX)
    (pre : List PointType) (hsent : ∀ p ∈ pre, env.pointDistance p ≠ FLT_MAX) :
    ∃ s, forLoop (projectPoint env) pre fe0 = some s ∧ SameGrid fe0 s ∧
      (∀ r c, s.rangeMat.data r c ≠ FLT_MAX →
        ∃ pre1 p pre2 s1, pre = pre1 ++ p :: pre2 ∧
          forLoop (projectPoint env) pre1 fe0 = some s1 ∧
          targetCell env s1 p = some (r, c) ∧
          (∀ l1 q l2 t, pre1 = l1 ++ q :: l2 → forLoop (projectPoint env) l1 fe0 = some t →
            targetCell env t q ≠ some (r, c)) ∧
          s.rangeMat.data r c = env.pointDistance p ∧
          s.fullCloud.data (c + r * fe0.Horizon_SCAN) = p) ∧
      (∀ pre1 q pre2 s1 r c, pre = pre1 ++ q :: pre2 →
        forLoop (projectPoint env) pre1 fe0 = some s1 →
        targetCell env s1 q = some (r, c) → s.rangeMat.data r c ≠ FLT_MAX) := by
  induction pre using List.reverseRecOn with
  | nil =>
    refine ⟨fe0, rfl, SameGrid.same fe0, fun r c h => absurd (hreset r c) h, ?_⟩
    intro pre1 q pre2 s1 r c h
    exact absurd h (by simp)
  | append_singleton pre p ih =>
    obtain ⟨s, hrun, hsg, J1, J2⟩ := ih (fun q hq => hsent q (by simp [hq]))
    have hp : env.pointDistance p ≠ FLT_MAX := hsent p (by simp)
    have has := ha.of_sameGrid hsg
    obtain ⟨_, cH, _⟩ := hsg.config
    obtain ⟨s', hstep, hsg', hnone, hsome⟩ := projectPoint_spec env s p has
    rw [thisPointOf_eq] at hsome
    have hrun' : forLoop (projectPoint env) (pre ++ [p]) fe0 = some s' := by
      rw [forLoop_snoc, hrun]; exact hstep
    refine ⟨s', hrun', hsg.then hsg', ?_, ?_⟩
    · -- a non-empty cell holds its first writer
      intro r c hne
      -- the case where the cell keeps the content it had before `p`
      have hold : s.rangeMat.data r c ≠ FLT_MAX →
          s'.rangeMat.data r c = s.rangeMat.data r c →
          (s.rangeMat.data r c ≠ FLT_MAX →
            s'.fullCloud.data (c + r * fe0.Horizon_SCAN) =
              s.fullCloud.data (c + r * fe0.Horizon_SCAN)) →
          ∃ pre1 p1 pre2 s1, pre ++ [p] = pre1 ++ p1 :: pre2 ∧
            forLoop (projectPoint env) pre1 fe0 = some s1 ∧
            targetCell env s1 p1 = some (r, c) ∧
            (∀ l1 q l2 t, pre1 = l1 ++ q :: l2 → forLoop (projectPoint env) l1 fe0 = some t →
              targetCell env t q ≠ some (r, c)) ∧
            s'.rangeMat.data r c = env.pointDistance p1 ∧
            s'.fullCloud.data (c + r * fe0.Horizon_SCAN) = p1 := by
        intro hs hrm hfc
        obtain ⟨pre1, p1, pre2, s1, e1, e2, e3, e4, e5, e6⟩ := J1 r c hs
        exact ⟨pre1, p1, pre2 ++ [p], s1, by rw [e1]; simp, e2, e3, e4, by rw [hrm, e5],
          by rw [hfc hs, e6]⟩
      cases ht : targetCell env s p with
      | none =>
        obtain ⟨hrm, hfc⟩ := hnone ht
        rw [hrm] at hne
        exact hold hne (by rw [hrm]) (fun _ => by rw [hfc])
      | some rc =>
        obtain ⟨r0, c0⟩ := rc
        obtain ⟨hb, hfull, hempty⟩ := hsome r0 c0 ht
        by_cases hcur : s.rangeMat.data r0 c0 = FLT_MAX
        · obtain ⟨hrm, hfc⟩ := hempty hcur
          by_cases hcell : r = r0 ∧ c = c0
          · obtain ⟨rfl, rfl⟩ := hcell
            refine ⟨pre, p, [], s, rfl, hrun, ht, ?_, ?_, ?_⟩
            · intro l1 q l2 t e1 e2 e3
              exact J2 l1 q l2 t r c e1 e2 e3 hcur
            · rw [hrm]; simp
            · rw [hfc, cH]; simp
          · have hrm' : s'.rangeMat.data r c = s.rangeMat.data r c := by
              rw [hrm]
              by_cases hr : r = r0
              · subst hr
                have hc : c ≠ c0 := fun h => hcell ⟨rfl, h⟩
                simp [Function.update_noteq hc]
              · simp [Function.update_noteq hr]
            rw [hrm'] at hne
            refine hold hne hrm' ?_
            intro hs
            obtain ⟨pre1, p1, pre2, s1, e1, e2, e3, _⟩ := J1 r c hs
            -- the cell of the earlier writer lies in the grid
            obtain ⟨sg1, hcells1⟩ : SameGrid fe0 s1 ∧ True := by
              obtain ⟨t, ht1, hsgt, _⟩ := projectLoop_spec env pre1 fe0 ha
              rw [e2] at ht1
              simp only [Option.some.injEq] at ht1
              subst ht1
              exact ⟨hsgt, trivial⟩
            obtain ⟨_, _, _, _, hsome1⟩ := projectPoint_spec env s1 p1 (ha.of_sameGrid sg1)
            obtain ⟨hb1, _, _⟩ := hsome1 r c e3
            obtain ⟨_, cH1, _⟩ := sg1.config
            rw [cH1] at hb1
            rw [cH] at hb
            have hidx : c + r * fe0.Horizon_SCAN ≠ c0 + r0 * fe0.Horizon_SCAN := by
              intro h
              exact hcell (cell_index_inj hb1.2.1 hb.2.1 h)
            rw [hfc, cH, Function.update_noteq hidx]
        · obtain ⟨hrm, hfc⟩ := hfull hcur
          rw [hrm] at hne
          exact hold hne (by rw [hrm]) (fun _ => by rw [hfc])
    · -- a cell that was mapped to is non-empty
      intro pre1 q pre2 s1 r c e1 e2 e3
      rcases snoc_eq_append_cons e1 with ⟨_, rfl, rfl⟩ | ⟨l, _, rfl⟩
      · rw [hrun] at e2
        simp only [Option.some.injEq] at e2
        subst e2
        obtain ⟨_, hfull, hempty⟩ := hsome r c e3
        by_cases hcur : s.rangeMat.data r c = FLT_MAX
        · rw [(hempty hcur).1]
          simpa using hp
        · rw [(hfull hcur).1]
          exact hcur
      · have hs := J2 pre1 q l s1 r c rfl e2 e3
        cases ht : targetCell env s p with
        | none => rw [(hnone ht).1]; exact hs
        | some rc =>
          obtain ⟨r0, c0⟩ := rc
          obtain ⟨_, hfull, hempty⟩ := hsome r0 c0 ht
          by_cases hcur : s.rangeMat.data r0 c0 = FLT_MAX
          · rw [(hempty hcur).1]
            by_cases hr : r = r0
            · subst hr
              by_cases hc : c = c0
              · subst hc
                exact absurd hcur hs
              · simpa [Function.update_noteq hc] using hs
            · simpa [Function.update_noteq hr] using hs
          · rw [(hfull hcur).1]; exact hs

/-- C4: first-writer-wins.  On allocated buffers and a reset range image, for an input cloud
none of whose ranges is the sentinel, `projectPointCloud` returns, and every non-empty cell
`(r, c)` of the result holds the range and the point of the first input point, in input order,
that passes the filters and maps to that cell (`targetCell` in the state the points before it
leave); every cell that an input point passing the filters maps to is non-empty in the
result, so it holds the first of the points that map to it; and a point that maps to a
cell an earlier point mapped to leaves the range image and the full-grid buffer unchanged. -/
theorem projectPointCloud_first_writer_wins (env : Collaborators) (fe : FeatureExtract)
    (ha : ProjectionAllocated fe) (hreset : ∀ r c, fe.rangeMat.data r c = FLT_MAX)
    (hsent : ∀ p ∈ fe.inputCloud, env.pointDistance p ≠ FLT_MAX) :
    ∃ fe', projectPointCloud env fe = some fe' ∧
      (∀ r c, fe'.rangeMat.data r c ≠ FLT_MAX →
        ∃ pre p post s, fe.inputCloud = pre ++ p :: post ∧
          forLoop (projectPoint env) pre fe = some s ∧
          targetCell env s p = some (r, c) ∧
          (∀ l1 q l2 t, pre = l1 ++ q :: l2 → forLoop (projectPoint env) l1 fe = some t →
            targetCell env t q ≠ some (r, c)) ∧
          fe'.rangeMat.data r c = env.pointDistance p ∧
          fe'.fullCloud.data (c + r * fe.Horizon_SCAN) = p) ∧
      (∀ pre q post s r c, fe.inputCloud = pre ++ q :: post →
        forLoop (projectPoint env) pre fe = some s → targetCell env s q = some (r, c) →
        fe'.rangeMat.data r c ≠ FLT_MAX) ∧
      (∀ pre1 q mid p post s1 s r c,
        fe.inputCloud = pre1 ++ q :: (mid ++ p :: post) →
        forLoop (projectPoint env) pre1 fe = some s1 → targetCell env s1 q = some (r, c) →
        forLoop (projectPoint env) (pre1 ++ q :: mid) fe = some s →
        targetCell env s p = some (r, c) →
        ∃ s', projectPoint env s p = some s' ∧
          s'.rangeMat = s.rangeMat ∧ s'.fullCloud = s.fullCloud) := by
  obtain ⟨fe', hrun, _, J1, J0⟩ := projectLoop_first_writer env fe ha hreset fe.inputCloud hsent
  refine ⟨fe', hrun, J1, fun pre q post s r c h1 h2 h3 => J0 pre q post s r c h1 h2 h3, ?_⟩
  intro pre1 q mid p post s1 s r c hin h1 ht1 h2 ht2
  obtain ⟨t, hrun2, hsg, _, J2⟩ := projectLoop_first_writer env fe ha hreset (pre1 ++ q :: mid)
    (fun x hx => hsent x (by
      rw [hin]
      simp only [List.mem_append, List.mem_cons] at hx ⊢
      tauto))
  rw [h2] at hrun2
  simp only [Option.some.injEq] at hrun2
  subst hrun2
  have hne := J2 pre1 q mid s1 r c rfl h1 ht1
  obtain ⟨s', hstep, _, _, hsome⟩ := projectPoint_spec env s p (ha.of_sameGrid hsg)
  exact ⟨s', hstep, (hsome r c ht2).2.1 hne⟩

theorem collidingScan_allocated : ProjectionAllocated collidingScan := by
  constructor <;> decide

/-- Witness of C4: two points of ring 0 in azimuth column 20, then one of ring 1. -/
theorem projectPointCloud_first_writer_wins_witness :
    ProjectionAllocated collidingScan ∧
      (∀ r c, collidingScan.rangeMat.data r c = FLT_MAX) ∧
      (∀ p ∈ collidingScan.inputCloud, (axisEnv 40).pointDistance p ≠ FLT_MAX) ∧
      (projectPointCloud (axisEnv 40) collidingScan).map
        (fun fe => (fe.rangeMat.data 0 20, fe.fullCloud.data 20, fe.rangeMat.data 1 20)) =
        some (2, axisPoint 2 0, 4) ∧
      ∃ fe', projectPointCloud (axisEnv 40) collidingScan = some fe' ∧
        (∀ r c, fe'.rangeMat.data r c ≠ FLT_MAX →
          ∃ pre p post s, collidingScan.inputCloud = pre ++ p :: post ∧
            forLoop (projectPoint (axisEnv 40)) pre collidingScan = some s ∧
            targetCell (axisEnv 40) s p = some (r, c) ∧
            (∀ l1 q l2 t, pre = l1 ++ q :: l2 →
              forLoop (projectPoint (axisEnv 40)) l1 collidingScan = some t →
              targetCell (axisEnv 40) t q ≠ some (r, c)) ∧
            fe'.rangeMat.data r c = (axisEnv 40).pointDistance p ∧
            fe'.fullCloud.data (c + r * collidingScan.Horizon_SCAN) = p) ∧
        (∀ pre q post s r c, collidingScan.inputCloud = pre ++ q :: post →
          forLoop (projectPoint (axisEnv 40)) pre collidingScan = some s →
          targetCell (axisEnv 40) s q = some (r, c) →
          fe'.rangeMat.data r c ≠ FLT_MAX) ∧
        (∀ pre1 q mid p post s1 s r c,
          collidingScan.inputCloud = pre1 ++ q :: (mid ++ p :: post) →
          forLoop (projectPoint (axisEnv 40)) pre1 collidingScan = some s1 →
          targetCell (axisEnv 40) s1 q = some (r, c) →
          forLoop (projectPoint (axisEnv 40)) (pre1 ++ q :: mid) collidingScan = some s →
          targetCell (axisEnv 40) s p = some (r, c) →
          ∃ s', projectPoint (axisEnv 40) s p = some s' ∧
            s'.rangeMat = s.rangeMat ∧ s'.fullCloud = s.fullCloud) := by
  have hsent : ∀ p ∈ collidingScan.inputCloud, (axisEnv 40).pointDistance p ≠ FLT_MAX := by
    decide!
  exact ⟨collidingScan_allocated, fun _ _ => rfl, hsent, by decide!,
    projectPointCloud_first_writer_wins (axisEnv 40) collidingScan collidingScan_allocated
      (fun _ _ => rfl) hsent⟩

theorem kinkScan_allocated : ProjectionAllocated kinkScan := by
  constructor <;> decide

/-- An instance of `projectPointCloud_cells_valid`: the two-ring scan `kinkScan`, and a
point at range 1/2, below the minimum range 1. -/
theorem projectPointCloud_cells_valid_witness :
    ProjectionAllocated kinkScan ∧ 1 ≤ kinkScan.downsampleRate ∧
      (∀ r c, kinkScan.rangeMat.data r c = FLT_MAX) ∧
      (projectPointCloud (axisEnv 40) kinkScan).map (fun fe => fe.rangeMat.data 1 39) =
        some 6 ∧
      (∃ fe', projectPointCloud (axisEnv 40) kinkScan = some fe' ∧
        ∀ r c, fe'.rangeMat.data r c ≠ FLT_MAX →
          (0 ≤ r ∧ r < kinkScan.N_SCAN) ∧ (0 ≤ c ∧ c < kinkScan.Horizon_SCAN) ∧
            r % kinkScan.downsampleRate = 0 ∧
            kinkScan.lidarMinRange ≤ fe'.rangeMat.data r c ∧
            fe'.rangeMat.data r c ≤ kinkScan.lidarMaxRange) ∧
      ∃ s', projectPoint (axisEnv 40) kinkScan (axisPoint (1 / 2) 0) = some s' ∧
        s'.rangeMat = kinkScan.rangeMat ∧ s'.fullCloud = kinkScan.fullCloud := by
  have h := projectPointCloud_cells_valid (axisEnv 40) kinkScan kinkScan_allocated (by decide)
    (fun _ _ => rfl)
  exact ⟨kinkScan_allocated, by decide, fun _ _ => rfl, by decide!, h.1,
    h.2 kinkScan (axisPoint (1 / 2) 0) (by decide) (Or.inl (by decide!))⟩

theorem tdiv_six (a : Int) : Int.tdiv a 6 = if 0 ≤ a then a / 6 else -((-a) / 6) := by
  by_cases h : 0 ≤ a
  · rw [if_pos h, Int.tdiv_eq_ediv h (by decide)]
  · rw [if_neg h]
    have h1 : Int.tdiv (-a) 6 = (-a) / 6 := Int.tdiv_eq_ediv (by omega) (by decide)
    rw [← h1, Int.neg_tdiv, neg_neg]

theorem tdiv_six_mono {a b : Int} (h : a ≤ b) : Int.tdiv a 6 ≤ Int.tdiv b 6 := by
  rw [tdiv_six a, tdiv_six b]
  split <;> split <;> omega

/-- With `startRingIndex ≥ endRingIndex` every sector has `sp > ep`, so `sp ≥ ep`. -/
theorem sector_empty_of_ge (s e j : Int) (h : s ≥ e) : sectorStart s e j > sectorEnd s e j := by
  unfold sectorStart sectorEnd
  have hle : s * (5 - j) + e * (j + 1) ≤ s * (6 - j) + e * j := by nlinarith
  have := tdiv_six_mono hle
  omega

/-- The rings loop of `cloudExtraction` sets the span of ring `i` from the counts of cells
below ring `i` and below ring `i + 1`. -/
theorem cloudExtraction_ring_span (fe0 : FeatureExtract) (ha : ExtractionAllocated fe0) :
    ∃ fe', cloudExtraction fe0 = some fe' ∧
      CellsAppended fe0 (cellsBelow fe0.rangeMat fe0.Horizon_SCAN fe0.N_SCAN) fe' ∧
      ∀ i : Int, 0 ≤ i → i < fe0.N_SCAN →
        fe'.cloudInfo.startRingIndex.get i =
          some (((cellsBelow fe0.rangeMat fe0.Horizon_SCAN i).length : Int) - 1 + 5) ∧
        fe'.cloudInfo.endRingIndex.get i =
          some (((cellsBelow fe0.rangeMat fe0.Horizon_SCAN i).length : Int) +
            ((rowCols fe0.rangeMat i fe0.Horizon_SCAN).length : Int) - 1 - 5) := by
  obtain ⟨fe', hrun, hc, hr⟩ := cloudExtractionCount_spec fe0 ha
  refine ⟨fe', cloudExtraction_eq_of_count hrun, hc, ?_⟩
  intro i hi0 hi
  have s1 := hr.startSize
  have s2 := hr.endSize
  have a1 := ha.startRing
  have a2 := ha.endRing
  constructor
  · rw [Buf.get_of_lt _ i hi0 (by omega), hr.startDone i hi0 hi]
  · rw [Buf.get_of_lt _ i hi0 (by omega), hr.endDone i hi0 hi,
      cellsBelow_succ _ _ _ hi0, List.length_append, List.length_map]
    push_cast
    rfl

/-- C10: every ring whose span is not valid (`startRingIndex ≥ endRingIndex`) has `sp ≥ ep`
in all sectors under truncating division, and `extractFeatures` processes such a ring without
a fault and without reading any per-point array (whatever their sizes and contents): the
state is unchanged but for the cleared `surfaceCloudScan`, which stays empty, and the filter
output of the empty cloud appended to `surfaceCloud`.  `cloudExtraction` produces such a span
for every ring with fewer than 11 non-empty cells. -/
theorem featuresOfRing_invalid_span (env : Collaborators) :
    (∀ (fe : FeatureExtract) (i s e : Int),
      fe.cloudInfo.startRingIndex.get i = some s → fe.cloudInfo.endRingIndex.get i = some e →
      s ≥ e →
      (∀ j : Int, sectorStart s e j ≥ sectorEnd s e j) ∧
      featuresOfRing env fe i =
        some { fe with
          surfaceCloudScan := [],
          surfaceCloud := fe.surfaceCloud ++ env.downSizeFilter [] }) ∧
    (∀ fe0 : FeatureExtract, ExtractionAllocated fe0 →
      ∃ fe1, cloudExtraction fe0 = some fe1 ∧
        ∀ i : Int, 0 ≤ i → i < fe0.N_SCAN →
          (rowCols fe0.rangeMat i fe0.Horizon_SCAN).length < 11 →
          ∃ s e, fe1.cloudInfo.startRingIndex.get i = some s ∧
            fe1.cloudInfo.endRingIndex.get i = some e ∧ s ≥ e) := by
  constructor
  · intro fe i s e hs he hse
    have hsec : ∀ j : Int, sectorStart s e j ≥ sectorEnd s e j :=
      fun j => le_of_lt (sector_empty_of_ge s e j hse)
    refine ⟨hsec, ?_⟩
    have hloop : ∀ (l : List Int) (t : FeatureExtract),
        t.cloudInfo.startRingIndex.get i = some s → t.cloudInfo.endRingIndex.get i = some e →
        forLoop (sectorAt env i) l t = some t := by
      intro l
      induction l with
      | nil => intro t _ _; rfl
      | cons j rest ih =>
        intro t h1 h2
        have hstep : sectorAt env i t j = some t := by
          unfold sectorAt
          rw [h1, h2]
          simp only []
          rw [if_pos (hsec j)]
        simp only [forLoop, hstep]
        exact ih t h1 h2
    unfold featuresOfRing
    rw [hloop (intRange 0 6) { fe with surfaceCloudScan := [] } hs he]
  · intro fe0 ha
    obtain ⟨fe1, hrun, _, hspan⟩ := cloudExtraction_ring_span fe0 ha
    refine ⟨fe1, hrun, ?_⟩
    intro i hi0 hi hlt
    obtain ⟨h1, h2⟩ := hspan i hi0 hi
    exact ⟨_, _, h1, h2, by omega⟩

theorem threeCells_extraction_allocated : ExtractionAllocated threeCells := by
  constructor <;> decide

/-- Witness of C10: ring 0 of the range image with three cells holds one point; after
`cloudExtraction` its span is `(4, -5)` and `extractFeatures` passes over it. -/
theorem featuresOfRing_invalid_span_witness :
    ExtractionAllocated threeCells ∧
      (rowCols threeCells.rangeMat 0 threeCells.Horizon_SCAN).length < 11 ∧
      ∃ fe1, cloudExtraction threeCells = some fe1 ∧
        fe1.cloudInfo.startRingIndex.get 0 = some 4 ∧
        fe1.cloudInfo.endRingIndex.get 0 = some (-5) ∧
        featuresOfRing (axisEnv 40) fe1 0 =
          some { fe1 with
            surfaceCloudScan := [],
            surfaceCloud := fe1.surfaceCloud ++ (axisEnv 40).downSizeFilter [] } := by
  have hlen : (rowCols threeCells.rangeMat 0 threeCells.Horizon_SCAN).length < 11 := by decide!
  refine ⟨threeCells_extraction_allocated, hlen, ?_⟩
  obtain ⟨hA, hB⟩ := featuresOfRing_invalid_span (axisEnv 40)
  obtain ⟨fe1, hrun, hring⟩ := hB threeCells threeCells_extraction_allocated
  obtain ⟨s, e, hs, he, hse⟩ := hring 0 (by decide) (by decide) hlen
  have hs4 : (cloudExtraction threeCells).bind (fun fe => fe.cloudInfo.startRingIndex.get 0) =
      some 4 := by decide!
  have he5 : (cloudExtraction threeCells).bind (fun fe => fe.cloudInfo.endRingIndex.get 0) =
      some (-5) := by decide!
  rw [hrun] at hs4 he5
  simp only [Option.some_bind] at hs4 he5
  refine ⟨fe1, hrun, hs4, he5, ?_⟩
  exact (hA fe1 0 s e hs he hse).2

/-- A suppression loop over the offsets `offs`: it marks the indices `ind + l` for a prefix
of the offsets, all of whose column gaps are at most 10, and stops at the first offset whose
gap exceeds 10. -/
theorem suppress_loop_spec (pc : Buf Int) (ind : Int) (prev : Int → Int) (offs : List Int)
    (np np' : Buf Int)
    (h : forLoopBreak (suppressAt pc ind prev) offs np = some np') :
    ∃ L : Nat, L ≤ offs.length ∧
      (∀ l ∈ offs.take L, |pc.data (ind + l) - pc.data (ind + prev l)| ≤ 10) ∧
      (∀ l, (offs.drop L).head? = some l →
        |pc.data (ind + l) - pc.data (ind + prev l)| > 10) ∧
      (∀ l ∈ offs.take (L + 1),
        (0 ≤ ind + l ∧ ind + l < pc.size) ∧ (0 ≤ ind + prev l ∧ ind + prev l < pc.size)) ∧
      (∀ l ∈ offs.take L, 0 ≤ ind + l ∧ ind + l < np.size) ∧
      np'.size = np.size ∧
      ∀ k, np'.data k = if k ∈ (offs.take L).map (fun l => ind + l) then 1 else np.data k := by
  induction offs generalizing np with
  | nil =>
    simp only [forLoopBreak, Option.some.injEq] at h
    subst h
    exact ⟨0, by simp⟩
  | cons a rest ih =>
    simp only [forLoopBreak] at h
    cases hbody : suppressAt pc ind prev np a with
    | none => rw [hbody] at h; exact absurd h (by simp)
    | some res =>
      obtain ⟨np1, brk⟩ := res
      rw [hbody] at h
      unfold suppressAt at hbody
      cases hg1 : pc.get (ind + a) with
      | none => rw [hg1] at hbody; exact absurd hbody (by simp)
      | some x =>
        cases hg2 : pc.get (ind + prev a) with
        | none => rw [hg1, hg2] at hbody; exact absurd hbody (by simp)
        | some y =>
          rw [hg1, hg2] at hbody
          simp only [] at hbody
          obtain ⟨hx0, hx1, hx⟩ := Buf.get_eq_some hg1
          obtain ⟨hy0, hy1, hy⟩ := Buf.get_eq_some hg2
          by_cases hgap : |x - y| > 10
          · rw [if_pos hgap] at hbody
            simp only [Option.some.injEq, Prod.mk.injEq] at hbody
            obtain ⟨rfl, rfl⟩ := hbody
            simp only [Option.some.injEq] at h
            subst h
            refine ⟨0, by simp, by simp, ?_, ?_, by simp, rfl, by simp⟩
            · intro l hl
              simp only [List.drop_zero, List.head?_cons, Option.some.injEq] at hl
              subst hl
              rw [hx, hy]; exact hgap
            · intro l hl
              simp only [zero_add, List.take_succ_cons, List.take_zero, List.mem_singleton] at hl
              subst hl
              exact ⟨⟨hx0, hx1⟩, hy0, hy1⟩
          · rw [if_neg hgap] at hbody
            cases hset : np.set (ind + a) 1 with
            | none => rw [hset] at hbody; exact absurd hbody (by simp)
            | some np2 =>
              rw [hset] at hbody
              simp only [Option.some.injEq, Prod.mk.injEq] at hbody
              obtain ⟨rfl, rfl⟩ := hbody
              obtain ⟨hs0, hs1, rfl⟩ := Buf.set_eq_some hset
              simp only [] at h
              obtain ⟨L, hL, h1, h2, h3, h4, h5, h6⟩ := ih _ h
              refine ⟨L + 1, by simp; omega, ?_, ?_, ?_, ?_, h5, ?_⟩
              · intro l hl
                simp only [List.take_succ_cons, List.mem_cons] at hl
                rcases hl with rfl | hl
                · rw [hx, hy]; exact not_lt.mp hgap
                · exact h1 l hl
              · intro l hl
                exact h2 l (by simpa using hl)
              · intro l hl
                simp only [List.take_succ_cons, List.mem_cons] at hl
                rcases hl with rfl | hl
                · exact ⟨⟨hx0, hx1⟩, hy0, hy1⟩
                · exact h3 l hl
              · intro l hl
                simp only [List.take_succ_cons, List.mem_cons] at hl
                rcases hl with rfl | hl
                · exact ⟨hs0, hs1⟩
                · exact h4 l hl
              · intro k
                rw [h6 k]
                simp only [List.take_succ_cons, List.map_cons, List.mem_cons]
                by_cases hk : k ∈ (rest.take L).map (fun l => ind + l)
                · rw [if_pos hk, if_pos (Or.inr hk)]
                · rw [if_neg hk]
                  by_cases hka : k = ind + a
                  · subst hka; simp
                  · simp only [Function.update_noteq hka]
                    rw [if_neg]
                    rintro (h | h)
                    · exact hka h
                    · exact hk h

/-- The upward suppression loop marks `ind + 1, ..., ind + up` for the longest run `up ≤ 5`
of consecutive column gaps of at most 10. -/
theorem suppressForward_spec (pc : Buf Int) (ind : Int) (np np' : Buf Int)
    (h : suppressForward pc ind np = some np') :
    ∃ up : Int, 0 ≤ up ∧ up ≤ 5 ∧
      (∀ m : Int, 1 ≤ m → m ≤ up → |pc.data (ind + m) - pc.data (ind + m - 1)| ≤ 10) ∧
      (up < 5 → |pc.data (ind + up + 1) - pc.data (ind + up)| > 10) ∧
      (∀ m : Int, 1 ≤ m → m ≤ up → 0 ≤ ind + m ∧ ind + m < np.size) ∧
      np'.size = np.size ∧
      ∀ k, np'.data k = if ind + 1 ≤ k ∧ k ≤ ind + up then 1 else np.data k := by
  obtain ⟨L, hL, h1, h2, _, h4, h5, h6⟩ :=
    suppress_loop_spec pc ind (fun l => l - 1) [1, 2, 3, 4, 5] np np' h
  have hL5 : L ≤ 5 := hL
  have hmem : ∀ l : Int, l ∈ ([1, 2, 3, 4, 5] : List Int).take L ↔ 1 ≤ l ∧ l ≤ L := by
    intro l
    interval_cases L <;> simp <;> omega
  refine ⟨L, by omega, by omega, ?_, ?_, ?_, h5, ?_⟩
  · intro m hm1 hm2
    have := h1 m ((hmem m).mpr ⟨hm1, hm2⟩)
    rw [show ind + (m - 1) = ind + m - 1 by ring] at this
    exact this
  · intro hlt
    have hhead : (([1, 2, 3, 4, 5] : List Int).drop L).head? = some ((L : Int) + 1) := by
      have : L < 5 := by omega
      interval_cases L <;> rfl
    have := h2 _ hhead
    rw [show ind + ((L : Int) + 1 - 1) = ind + L by ring,
      show ind + ((L : Int) + 1) = ind + L + 1 by ring] at this
    exact this
  · intro m hm1 hm2
    exact h4 m ((hmem m).mpr ⟨hm1, hm2⟩)
  · intro k
    rw [h6 k]
    have : k ∈ (([1, 2, 3, 4, 5] : List Int).take L).map (fun l => ind + l) ↔
        (ind + 1 ≤ k ∧ k ≤ ind + L) := by
      simp only [List.mem_map]
      constructor
      · rintro ⟨l, hl, rfl⟩
        have := (hmem l).mp hl
        omega
      · intro hk
        exact ⟨k - ind, (hmem _).mpr (by omega), by ring⟩
    by_cases hk : ind + 1 ≤ k ∧ k ≤ ind + L
    · rw [if_pos (this.mpr hk), if_pos hk]
    · rw [if_neg (fun h => hk (this.mp h)), if_neg hk]

/-- The downward suppression loop marks `ind - 1, ..., ind - down` for the longest run
`down ≤ 5` of consecutive column gaps of at most 10. -/
theorem suppressBackward_spec (pc : Buf Int) (ind : Int) (np np' : Buf Int)
    (h : suppressBackward pc ind np = some np') :
    ∃ down : Int, 0 ≤ down ∧ down ≤ 5 ∧
      (∀ m : Int, 1 ≤ m → m ≤ down → |pc.data (ind - m) - pc.data (ind - m + 1)| ≤ 10) ∧
      (down < 5 → |pc.data (ind - down - 1) - pc.data (ind - down)| > 10) ∧
      (∀ m : Int, 1 ≤ m → m ≤ down → 0 ≤ ind - m ∧ ind - m < np.size) ∧
      np'.size = np.size ∧
      ∀ k, np'.data k = if ind - down ≤ k ∧ k ≤ ind - 1 then 1 else np.data k := by
  obtain ⟨L, hL, h1, h2, _, h4, h5, h6⟩ :=
    suppress_loop_spec pc ind (fun l => l + 1) [-1, -2, -3, -4, -5] np np' h
  have hL5 : L ≤ 5 := hL
  have hmem : ∀ l : Int, l ∈ ([-1, -2, -3, -4, -5] : List Int).take L ↔ -(L : Int) ≤ l ∧ l ≤ -1 := by
    intro l
    interval_cases L <;> simp <;> omega
  refine ⟨L, by omega, by omega, ?_, ?_, ?_, h5, ?_⟩
  · intro m hm1 hm2
    have := h1 (-m) ((hmem (-m)).mpr ⟨by omega, by omega⟩)
    rw [show ind + (-m + 1) = ind - m + 1 by ring, show ind + -m = ind - m by ring] at this
    exact this
  · intro hlt
    have hhead : (([-1, -2, -3, -4, -5] : List Int).drop L).head? = some (-(L : Int) - 1) := by
      have : L < 5 := by omega
      interval_cases L <;> rfl
    have := h2 _ hhead
    rw [show ind + (-(L : Int) - 1 + 1) = ind - L by ring,
      show ind + (-(L : Int) - 1) = ind - L - 1 by ring] at this
    exact this
  · intro m hm1 hm2
    have := h4 (-m) ((hmem (-m)).mpr ⟨by omega, by omega⟩)
    rw [show ind + -m = ind - m by ring] at this
    exact this
  · intro k
    rw [h6 k]
    have : k ∈ (([-1, -2, -3, -4, -5] : List Int).take L).map (fun l => ind + l) ↔
        (ind - L ≤ k ∧ k ≤ ind - 1) := by
      simp only [List.mem_map]
      constructor
      · rintro ⟨l, hl, rfl⟩
        have := (hmem l).mp hl
        omega
      · intro hk
        exact ⟨k - ind, (hmem _).mpr (by omega), by ring⟩
    by_cases hk : ind - L ≤ k ∧ k ≤ ind - 1
    · rw [if_pos (this.mpr hk), if_pos hk]
    · rw [if_neg (fun h => hk (this.mp h)), if_neg hk]

/-- C9: the two suppression loops that `extractFeatures` runs after selecting `ind` (as corner
in `cornerAt`, as surface candidate in `surfaceAt`) change only the flags, and they mark
exactly the neighbours `ind + 1, ..., ind + up` and `ind - 1, ..., ind - down`, where
`up, down ≤ 5`: whenever `ind + l` is marked (`1 ≤ l ≤ up`) every gap
`|col[ind+m] - col[ind+m-1]|`, `1 ≤ m ≤ l`, is at most 10, whenever `ind - l` is marked every
gap `|col[ind-m] - col[ind-m+1]|`, `1 ≤ m ≤ l`, is at most 10, and a window shorter than 5
ends at a gap greater than 10. -/
theorem suppressNeighbors_window (fe fe' : FeatureExtract) (ind : Int)
    (h : suppressNeighbors fe ind = some fe') :
    ∃ up down : Int, (0 ≤ up ∧ up ≤ 5) ∧ (0 ≤ down ∧ down ≤ 5) ∧
      (∀ l : Int, 1 ≤ l → l ≤ up → ∀ m : Int, 1 ≤ m → m ≤ l →
        |fe.cloudInfo.pointColInd.data (ind + m) -
          fe.cloudInfo.pointColInd.data (ind + m - 1)| ≤ 10) ∧
      (∀ l : Int, 1 ≤ l → l ≤ down → ∀ m : Int, 1 ≤ m → m ≤ l →
        |fe.cloudInfo.pointColInd.data (ind - m) -
          fe.cloudInfo.pointColInd.data (ind - m + 1)| ≤ 10) ∧
      (up < 5 → |fe.cloudInfo.pointColInd.data (ind + up + 1) -
        fe.cloudInfo.pointColInd.data (ind + up)| > 10) ∧
      (down < 5 → |fe.cloudInfo.pointColInd.data (ind - down - 1) -
        fe.cloudInfo.pointColInd.data (ind - down)| > 10) ∧
      fe' = { fe with cloudNeighborPicked := fe'.cloudNeighborPicked } ∧
      fe'.cloudNeighborPicked.size = fe.cloudNeighborPicked.size ∧
      ∀ k, fe'.cloudNeighborPicked.data k =
        if (ind + 1 ≤ k ∧ k ≤ ind + up) ∨ (ind - down ≤ k ∧ k ≤ ind - 1) then 1
        else fe.cloudNeighborPicked.data k := by
  unfold suppressNeighbors at h
  cases hf : suppressForward fe.cloudInfo.pointColInd ind fe.cloudNeighborPicked with
  | none => rw [hf] at h; exact absurd h (by simp)
  | some np1 =>
    rw [hf] at h
    simp only [] at h
    cases hb : suppressBackward fe.cloudInfo.pointColInd ind np1 with
    | none => rw [hb] at h; exact absurd h (by simp)
    | some np2 =>
      rw [hb] at h
      simp only [Option.some.injEq] at h
      subst h
      obtain ⟨up, u0, u5, ug, umax, _, us, ud⟩ := suppressForward_spec _ _ _ _ hf
      obtain ⟨down, d0, d5, dg, dmax, _, ds, dd⟩ := suppressBackward_spec _ _ _ _ hb
      refine ⟨up, down, ⟨u0, u5⟩, ⟨d0, d5⟩, ?_, ?_, umax, dmax, rfl, ds.trans us, ?_⟩
      · intro l _ hl m hm1 hm2
        exact ug m hm1 (by omega)
      · intro l _ hl m hm1 hm2
        exact dg m hm1 (by omega)
      · intro k
        simp only []
        rw [dd k, ud k]
        by_cases h1 : ind - down ≤ k ∧ k ≤ ind - 1
        · rw [if_pos h1, if_pos (Or.inr h1)]
        · rw [if_neg h1]
          by_cases h2 : ind + 1 ≤ k ∧ k ≤ ind + up
          · rw [if_pos h2, if_pos (Or.inl h2)]
          · rw [if_neg h2, if_neg]
            rintro (h | h)
            · exact h2 h
            · exact h1 h

/-- Witness of C9: selection of index 7 when the columns jump between the indices 8 and 9;
the upward window is the single index 8, the downward window is 2..6. -/
theorem suppressNeighbors_window_witness :
    (suppressNeighbors gapColumns 7).map
        (fun fe => (List.range 14).map (fun (k : Nat) => fe.cloudNeighborPicked.data k)) =
        some [0, 0, 1, 1, 1, 1, 1, 0, 1, 0, 0, 0, 0, 0] ∧
      ∃ fe', suppressNeighbors gapColumns 7 = some fe' ∧
        ∃ up down : Int, (0 ≤ up ∧ up ≤ 5) ∧ (0 ≤ down ∧ down ≤ 5) ∧
          (∀ l : Int, 1 ≤ l → l ≤ up → ∀ m : Int, 1 ≤ m → m ≤ l →
            |gapColumns.cloudInfo.pointColInd.data (7 + m) -
              gapColumns.cloudInfo.pointColInd.data (7 + m - 1)| ≤ 10) ∧
          (∀ l : Int, 1 ≤ l → l ≤ down → ∀ m : Int, 1 ≤ m → m ≤ l →
            |gapColumns.cloudInfo.pointColInd.data (7 - m) -
              gapColumns.cloudInfo.pointColInd.data (7 - m + 1)| ≤ 10) ∧
          (up < 5 → |gapColumns.cloudInfo.pointColInd.data (7 + up + 1) -
            gapColumns.cloudInfo.pointColInd.data (7 + up)| > 10) ∧
          (down < 5 → |gapColumns.cloudInfo.pointColInd.data (7 - down - 1) -
            gapColumns.cloudInfo.pointColInd.data (7 - down)| > 10) ∧
          fe' = { gapColumns with cloudNeighborPicked := fe'.cloudNeighborPicked } ∧
          fe'.cloudNeighborPicked.size = gapColumns.cloudNeighborPicked.size ∧
          ∀ k, fe'.cloudNeighborPicked.data k =
            if (7 + 1 ≤ k ∧ k ≤ 7 + up) ∨ (7 - down ≤ k ∧ k ≤ 7 - 1) then 1
            else gapColumns.cloudNeighborPicked.data k := by
  refine ⟨by decide!, ?_⟩
  have hsome : (suppressNeighbors gapColumns 7).isSome = true := by decide!
  obtain ⟨fe', hrun⟩ := Option.isSome_iff_exists.mp hsome
  exact ⟨fe', hrun, suppressNeighbors_window gapColumns fe' 7 hrun⟩

/-- Invariant rule for a loop without `break`, partial form, with the loop values. -/
theorem forLoop_inv {σ ι : Type} (body : σ → ι → Option σ) (P : σ → Prop) (l : List ι)
    (s0 sN : σ) (h0 : P s0)
    (hstep : ∀ s i s', i ∈ l → P s → body s i = some s' → P s')
    (hrun : forLoop body l s0 = some sN) : P sN := by
  induction l generalizing s0 with
  | nil =>
    simp only [forLoop, Option.some.injEq] at hrun
    subst hrun; exact h0
  | cons a rest ih =>
    simp only [forLoop] at hrun
    cases hb : body s0 a with
    | none => rw [hb] at hrun; exact absurd hrun (by simp)
    | some s1 =>
      rw [hb] at hrun
      exact ih s1 (hstep s0 a s1 (by simp) h0 hb)
        (fun s i s' hi => hstep s i s' (by simp [hi])) hrun

/-- Invariant rule for a loop with `break`, partial form, with the loop values. -/
theorem forLoopBreak_inv {σ ι : Type} (body : σ → ι → Option (σ × Bool)) (P : σ → Prop)
    (l : List ι) (s0 sN : σ) (h0 : P s0)
    (hstep : ∀ s i s' b, i ∈ l → P s → body s i = some (s', b) → P s')
    (hrun : forLoopBreak body l s0 = some sN) : P sN := by
  induction l generalizing s0 with
  | nil =>
    simp only [forLoopBreak, Option.some.injEq] at hrun
    subst hrun; exact h0
  | cons a rest ih =>
    simp only [forLoopBreak] at hrun
    cases hb : body s0 a with
    | none => rw [hb] at hrun; exact absurd hrun (by simp)
    | some res =>
      obtain ⟨s1, b⟩ := res
      rw [hb] at hrun
      have h1 := hstep s0 a s1 b (by simp) h0 hb
      cases b with
      | true =>
        simp only [Option.some.injEq] at hrun
        subst hrun; exact h1
      | false =>
        exact ih s1 h1 (fun s i s' b hi => hstep s i s' b (by simp [hi])) hrun

/-- What `suppressNeighbors` changes: only flags, and only from any value to 1. -/
theorem suppressNeighbors_effect {fe fe' : FeatureExtract} {ind : Int}
    (h : suppressNeighbors fe ind = some fe') :
    fe' = { fe with cloudNeighborPicked := fe'.cloudNeighborPicked } ∧
      fe'.cloudNeighborPicked.size = fe.cloudNeighborPicked.size ∧
      ∀ x, fe'.cloudNeighborPicked.data x = fe.cloudNeighborPicked.data x ∨
        fe'.cloudNeighborPicked.data x = 1 := by
  unfold suppressNeighbors at h
  cases hf : suppressForward fe.cloudInfo.pointColInd ind fe.cloudNeighborPicked with
  | none => rw [hf] at h; exact absurd h (by simp)
  | some np1 =>
    rw [hf] at h
    simp only [] at h
    cases hb : suppressBackward fe.cloudInfo.pointColInd ind np1 with
    | none => rw [hb] at h; exact absurd h (by simp)
    | some np2 =>
      rw [hb] at h
      simp only [Option.some.injEq] at h
      subst h
      obtain ⟨up, _, _, _, _, _, us, ud⟩ := suppressForward_spec _ _ _ _ hf
      obtain ⟨down, _, _, _, _, _, ds, dd⟩ := suppressBackward_spec _ _ _ _ hb
      refine ⟨rfl, ds.trans us, ?_⟩
      intro x
      simp only []
      rw [dd x]
      split
      · exact Or.inr rfl
      · rw [ud x]
        split
        · exact Or.inr rfl
        · exact Or.inl rfl

theorem candidateTest_true {fe : FeatureExtract} {ind : Int} {test : ℚ → Bool}
    (h : candidateTest fe ind test = some true) :
    (0 ≤ ind ∧ ind < fe.cloudNeighborPicked.size) ∧ fe.cloudNeighborPicked.data ind = 0 ∧
      (0 ≤ ind ∧ ind < fe.cloudCurvature.size) ∧ test (fe.cloudCurvature.data ind) = true := by
  unfold candidateTest at h
  cases hp : fe.cloudNeighborPicked.get ind with
  | none => rw [hp] at h; exact absurd h (by simp)
  | some picked =>
    rw [hp] at h
    simp only [] at h
    obtain ⟨h0, h1, h2⟩ := Buf.get_eq_some hp
    by_cases hz : picked = 0
    · rw [if_pos hz] at h
      cases hc : fe.cloudCurvature.get ind with
      | none => rw [hc] at h; exact absurd h (by simp)
      | some c =>
        rw [hc] at h
        simp only [Option.some.injEq] at h
        obtain ⟨c0, c1, c2⟩ := Buf.get_eq_some hc
        exact ⟨⟨h0, h1⟩, by rw [h2, hz], ⟨c0, c1⟩, by rw [c2]; exact h⟩
    · rw [if_neg hz] at h
      exact absurd h (by simp)

/-- What one step of the corner scan does: either nothing but counting (the candidate is
rejected, or the quota of 20 is exceeded and the scan breaks), or the index of the record
at `k`, unflagged and with curvature above the edge threshold, is labelled 1, appended to
`cornerCloud` and flagged, and flags of neighbours are set. -/
theorem cornerAt_effect {fe fe' : FeatureExtract} {n n' k : Int} {b : Bool}
    (h : cornerAt (fe, n) k = some ((fe', n'), b)) :
    fe' = { fe with
        cloudLabel := fe'.cloudLabel, extractedCloud := fe'.extractedCloud,
        cornerCloud := fe'.cornerCloud, cornerInd := fe'.cornerInd,
        cloudNeighborPicked := fe'.cloudNeighborPicked } ∧
      fe'.extractedCloud.size = fe.extractedCloud.size ∧
      (∀ x, fe'.cloudNeighborPicked.data x = fe.cloudNeighborPicked.data x ∨
        fe'.cloudNeighborPicked.data x = 1) ∧
      ((fe'.cornerInd = fe.cornerInd ∧ fe'.cornerCloud = fe.cornerCloud ∧
          fe'.cloudLabel = fe.cloudLabel ∧ (n' = n ∨ (n' = n + 1 ∧ 20 < n'))) ∨
        ∃ rec pt, fe.cloudSmoothness.get k = some rec ∧
          fe.cloudNeighborPicked.data rec.ind = 0 ∧
          fe.cloudCurvature.data rec.ind > fe.edgeThreshold ∧
          fe'.cornerInd = fe.cornerInd ++ [(rec.ind : Int)] ∧
          fe'.cornerCloud = fe.cornerCloud ++ [pt] ∧
          fe'.cloudLabel.data = Function.update fe.cloudLabel.data rec.ind 1 ∧
          fe'.cloudNeighborPicked.data rec.ind = 1 ∧
          n' = n + 1 ∧ n' ≤ 20 ∧ b = false) := by
  unfold cornerAt at h
  simp only [] at h
  cases hrec : fe.cloudSmoothness.get k with
  | none => rw [hrec] at h; exact absurd h (by simp)
  | some rec =>
    rw [hrec] at h
    simp only [] at h
    cases hct : candidateTest fe (rec.ind : Int) (fun c => decide (c > fe.edgeThreshold)) with
    | none => rw [hct] at h; exact absurd h (by simp)
    | some t =>
      rw [hct] at h
      cases t with
      | false =>
        simp only [Option.some.injEq, Prod.mk.injEq] at h
        obtain ⟨⟨rfl, rfl⟩, _⟩ := h
        exact ⟨rfl, rfl, fun x => Or.inl rfl, Or.inl ⟨rfl, rfl, rfl, Or.inl rfl⟩⟩
      | true =>
        simp only [] at h
        obtain ⟨_, hp0, _, hcurv⟩ := candidateTest_true hct
        by_cases hq : n + 1 ≤ 20
        swap
        · rw [if_neg hq] at h
          simp only [Option.some.injEq, Prod.mk.injEq] at h
          obtain ⟨⟨rfl, rfl⟩, _⟩ := h
          exact ⟨rfl, rfl, fun x => Or.inl rfl, Or.inl ⟨rfl, rfl, rfl, Or.inr ⟨rfl, by omega⟩⟩⟩
        · rw [if_pos hq] at h
          cases hlb : fe.cloudLabel.set (rec.ind : Int) 1 with
          | none => rw [hlb] at h; exact absurd h (by simp)
          | some lb =>
            rw [hlb] at h
            simp only [] at h
            cases hpt : fe.extractedCloud.get (rec.ind : Int) with
            | none => rw [hpt] at h; exact absurd h (by simp)
            | some pt =>
              rw [hpt] at h
              simp only [] at h
              cases hec : fe.extractedCloud.set (rec.ind : Int) { pt with normal_z := 1 } with
              | none => rw [hec] at h; exact absurd h (by simp)
              | some ec =>
                rw [hec] at h
                simp only [] at h
                cases hpu : ec.get (rec.ind : Int) with
                | none => rw [hpu] at h; exact absurd h (by simp)
                | some pushed =>
                  rw [hpu] at h
                  simp only [] at h
                  cases hnp : fe.cloudNeighborPicked.set (rec.ind : Int) 1 with
                  | none => rw [hnp] at h; exact absurd h (by simp)
                  | some np =>
                    rw [hnp] at h
                    simp only [] at h
                    cases hsup : suppressNeighbors
                        { fe with
                          cloudLabel := lb, extractedCloud := ec,
                          cornerCloud := fe.cornerCloud ++ [pushed],
                          cornerInd := fe.cornerInd ++ [(rec.ind : Int)],
                          cloudNeighborPicked := np } (rec.ind : Int) with
                    | none => rw [hsup] at h; exact absurd h (by simp)
                    | some fe2 =>
                      rw [hsup] at h
                      simp only [Option.some.injEq, Prod.mk.injEq] at h
                      obtain ⟨⟨rfl, rfl⟩, rfl⟩ := h
                      obtain ⟨hframe, _, hdata⟩ := suppressNeighbors_effect hsup
                      obtain ⟨_, _, rfl⟩ := Buf.set_eq_some hlb
                      obtain ⟨_, _, rfl⟩ := Buf.set_eq_some hec
                      obtain ⟨_, _, rfl⟩ := Buf.set_eq_some hnp
                      simp only [] at hdata
                      refine ⟨?_, ?_, ?_, Or.inr ⟨rec, pushed, rfl, hp0, ?_, ?_, ?_, ?_, ?_,
                        rfl, hq, rfl⟩⟩
                      · rw [hframe]
                      · rw [hframe]
                      · intro x
                        rcases hdata x with hx | hx
                        · by_cases hxi : x = (rec.ind : Int)
                          · right; rw [hx, hxi]; simp
                          · left; rw [hx, Function.update_noteq hxi]
                        · exact Or.inr hx
                      · simpa using hcurv
                      · rw [hframe]
                      · rw [hframe]
                      · rw [hframe]
                      · rcases hdata (rec.ind : Int) with hx | hx
                        · rw [hx]; simp
                        · exact hx

/-- What one step of the surface scan does: only labels and flags change; a flag changes
only to 1, and only the label of an index that was not flagged changes. -/
theorem surfaceAt_effect {fe fe' : FeatureExtract} {k : Int}
    (h : surfaceAt fe k = some fe') :
    fe' = { fe with
        cloudLabel := fe'.cloudLabel, cloudNeighborPicked := fe'.cloudNeighborPicked } ∧
      (∀ x, fe'.cloudNeighborPicked.data x = fe.cloudNeighborPicked.data x ∨
        fe'.cloudNeighborPicked.data x = 1) ∧
      (∀ x, fe.cloudNeighborPicked.data x ≠ 0 → fe'.cloudLabel.data x = fe.cloudLabel.data x) := by
  unfold surfaceAt at h
  cases hrec : fe.cloudSmoothness.get k with
  | none => rw [hrec] at h; exact absurd h (by simp)
  | some rec =>
    rw [hrec] at h
    simp only [] at h
    cases hct : candidateTest fe (rec.ind : Int) (fun c => decide (c < fe.surfThreshold)) with
    | none => rw [hct] at h; exact absurd h (by simp)
    | some t =>
      rw [hct] at h
      cases t with
      | false =>
        simp only [Option.some.injEq] at h
        subst h
        exact ⟨rfl, fun x => Or.inl rfl, fun x _ => rfl⟩
      | true =>
        simp only [] at h
        obtain ⟨_, hp0, _, _⟩ := candidateTest_true hct
        cases hlb : fe.cloudLabel.set (rec.ind : Int) (-1) with
        | none => rw [hlb] at h; exact absurd h (by simp)
        | some lb =>
          rw [hlb] at h
          simp only [] at h
          cases hnp : fe.cloudNeighborPicked.set (rec.ind : Int) 1 with
          | none => rw [hnp] at h; exact absurd h (by simp)
          | some np =>
            rw [hnp] at h
            simp only [] at h
            obtain ⟨hframe, _, hdata⟩ := suppressNeighbors_effect h
            obtain ⟨_, _, rfl⟩ := Buf.set_eq_some hlb
            obtain ⟨_, _, rfl⟩ := Buf.set_eq_some hnp
            simp only [] at hdata
            refine ⟨?_, ?_, ?_⟩
            · rw [hframe]
            · intro x
              rcases hdata x with hx | hx
              · by_cases hxi : x = (rec.ind : Int)
                · right; rw [hx, hxi]; simp
                · left; rw [hx, Function.update_noteq hxi]
              · exact Or.inr hx
            · intro x hx
              have hxi : x ≠ (rec.ind : Int) := by
                rintro rfl
                exact hx hp0
              rw [hframe]
              simp only [Function.update_noteq hxi]

/-- What one step of the last loop of a sector does: the point at `k` goes to the surface
set if its label is not positive; only the extracted cloud and the surface set change. -/
theorem pushSurfaceAt_effect {fe fe' : FeatureExtract} {k : Int}
    (h : pushSurfaceAt fe k = some fe') :
    fe' = { fe with
        extractedCloud := fe'.extractedCloud, surfaceCloudScan := fe'.surfaceCloudScan,
        surfaceInd := fe'.surfaceInd } ∧
      fe'.extractedCloud.size = fe.extractedCloud.size ∧
      (fe'.surfaceInd = fe.surfaceInd ∨
        (fe.cloudLabel.data k ≤ 0 ∧ fe'.surfaceInd = fe.surfaceInd ++ [k])) := by
  unfold pushSurfaceAt at h
  cases hl : fe.cloudLabel.get k with
  | none => rw [hl] at h; exact absurd h (by simp)
  | some label =>
    rw [hl] at h
    simp only [] at h
    obtain ⟨_, _, hlabel⟩ := Buf.get_eq_some hl
    by_cases hle : label ≤ 0
    · rw [if_pos hle] at h
      cases hpt : fe.extractedCloud.get k with
      | none => rw [hpt] at h; exact absurd h (by simp)
      | some pt =>
        rw [hpt] at h
        simp only [] at h
        cases hec : fe.extractedCloud.set k { pt with normal_z := 2 } with
        | none => rw [hec] at h; exact absurd h (by simp)
        | some ec =>
          rw [hec] at h
          simp only [] at h
          cases hpu : ec.get k with
          | none => rw [hpu] at h; exact absurd h (by simp)
          | some pushed =>
            rw [hpu] at h
            simp only [Option.some.injEq] at h
            subst h
            obtain ⟨_, _, rfl⟩ := Buf.set_eq_some hec
            exact ⟨rfl, rfl, Or.inr ⟨by rw [hlabel]; exact hle, rfl⟩⟩
    · rw [if_neg hle] at h
      simp only [Option.some.injEq] at h
      subst h
      exact ⟨rfl, rfl, Or.inl rfl⟩

/-- What the sort of the range `[sp, ep)` does when it rearranges the records: a position
outside the range keeps its record, a position inside receives the record of a position
inside. -/
theorem sortRange_effect {env : Collaborators} (hperm : ∀ l, (env.sort l).Perm l)
    {cs cs' : Buf smoothness_t} {sp ep : Int} (h : sortRange env cs sp ep = some cs') :
    cs'.size = cs.size ∧
      (∀ p, ¬ (sp ≤ p ∧ p < ep) → cs'.data p = cs.data p) ∧
      (∀ p, sp ≤ p ∧ p < ep → ∃ q, (sp ≤ q ∧ q < ep) ∧ cs'.data p = cs.data q) := by
  unfold sortRange at h
  split at h
  swap
  · exact absurd h (by simp)
  · simp only [Option.some.injEq] at h
    subst h
    refine ⟨rfl, ?_, ?_⟩
    · intro p hp
      simp only []
      rw [if_neg hp]
    · intro p hp
      simp only []
      rw [if_pos hp]
      cases hget : (env.sort ((intRange sp ep).map cs.data)).get? (p - sp).toNat with
      | none => exact ⟨p, hp, rfl⟩
      | some x =>
        have hx : x ∈ env.sort ((intRange sp ep).map cs.data) := List.get?_mem hget
        have hx2 : x ∈ (intRange sp ep).map cs.data := (hperm _).mem_iff.mp hx
        obtain ⟨q, hq, rfl⟩ := List.mem_map.mp hx2
        exact ⟨q, mem_intRange.mp hq, rfl⟩

/-- The corner scan of a sector appends at most 20 points to `cornerCloud`. -/
theorem cornerLoop_quota {fe fe' : FeatureExtract} {n' : Int} (l : List Int)
    (h : forLoopBreak cornerAt l (fe, 0) = some (fe', n')) :
    ∃ added addedInd, fe'.cornerCloud = fe.cornerCloud ++ added ∧
      fe'.cornerInd = fe.cornerInd ++ addedInd ∧
      addedInd.length = added.length ∧ added.length ≤ 20 := by
  have key := forLoopBreak_inv cornerAt
    (fun s : FeatureExtract × Int => ∃ added addedInd,
      s.1.cornerCloud = fe.cornerCloud ++ added ∧ s.1.cornerInd = fe.cornerInd ++ addedInd ∧
      addedInd.length = added.length ∧ (added.length : Int) ≤ s.2 ∧ added.length ≤ 20)
    l (fe, 0) (fe', n') ⟨[], [], by simp, by simp, rfl, by simp, by simp⟩
    (by
      rintro ⟨s, n⟩ k ⟨s', m⟩ b _ ⟨added, addedInd, h1, h2, h3, h4, h5⟩ hstep
      simp only at h1 h2 h4
      obtain ⟨_, _, _, hcase⟩ := cornerAt_effect hstep
      rcases hcase with ⟨e1, e2, _, hn⟩ | ⟨rec, pt, _, _, _, e1, e2, _, _, hn, hq, _⟩
      · refine ⟨added, addedInd, by rw [e2, h1], by rw [e1, h2], h3, ?_, h5⟩
        simp only
        rcases hn with hn | ⟨hn, _⟩ <;> omega
      · refine ⟨added ++ [pt], addedInd ++ [(rec.ind : Int)], ?_, ?_, ?_, ?_, ?_⟩
        · rw [e2, h1, List.append_assoc]
        · rw [e1, h2, List.append_assoc]
        · simp [h3]
        · simp only [List.length_append, List.length_singleton]
          push_cast
          omega
        · simp only [List.length_append, List.length_singleton]
          omega)
    h
  obtain ⟨added, addedInd, h1, h2, h3, _, h5⟩ := key
  exact ⟨added, addedInd, h1, h2, h3, h5⟩

theorem surfaceLoop_corner {fe fe' : FeatureExtract} (l : List Int)
    (h : forLoop surfaceAt l fe = some fe') :
    fe'.cornerCloud = fe.cornerCloud ∧ fe'.cornerInd = fe.cornerInd := by
  refine forLoop_inv surfaceAt
    (fun s => s.cornerCloud = fe.cornerCloud ∧ s.cornerInd = fe.cornerInd) l fe fe' ⟨rfl, rfl⟩
    ?_ h
  intro s k s' _ ⟨h1, h2⟩ hstep
  obtain ⟨hframe, _⟩ := surfaceAt_effect hstep
  have e1 := congrArg FeatureExtract.cornerCloud hframe
  have e2 := congrArg FeatureExtract.cornerInd hframe
  exact ⟨e1.trans h1, e2.trans h2⟩

theorem pushLoop_corner {fe fe' : FeatureExtract} (l : List Int)
    (h : forLoop pushSurfaceAt l fe = some fe') :
    fe'.cornerCloud = fe.cornerCloud ∧ fe'.cornerInd = fe.cornerInd := by
  refine forLoop_inv pushSurfaceAt
    (fun s => s.cornerCloud = fe.cornerCloud ∧ s.cornerInd = fe.cornerInd) l fe fe' ⟨rfl, rfl⟩
    ?_ h
  intro s k s' _ ⟨h1, h2⟩ hstep
  obtain ⟨hframe, _⟩ := pushSurfaceAt_effect hstep
  have e1 := congrArg FeatureExtract.cornerCloud hframe
  have e2 := congrArg FeatureExtract.cornerInd hframe
  exact ⟨e1.trans h1, e2.trans h2⟩

/-- The parts of `processSector`: the sort, then the three scans. -/
theorem processSector_parts {env : Collaborators} {fe fe' : FeatureExtract} {sp ep : Int}
    (h : processSector env fe sp ep = some fe') :
    ∃ cs fe1 n1 fe2, sortRange env fe.cloudSmoothness sp ep = some cs ∧
      forLoopBreak cornerAt (intRange sp (ep + 1)).reverse
        ({ fe with cloudSmoothness := cs }, 0) = some (fe1, n1) ∧
      forLoop surfaceAt (intRange sp (ep + 1)) fe1 = some fe2 ∧
      forLoop pushSurfaceAt (intRange sp (ep + 1)) fe2 = some fe' := by
  unfold processSector at h
  cases hs : sortRange env fe.cloudSmoothness sp ep with
  | none => rw [hs] at h; exact absurd h (by simp)
  | some cs =>
    rw [hs] at h
    simp only [] at h
    cases hc : forLoopBreak cornerAt (intRange sp (ep + 1)).reverse
        ({ fe with cloudSmoothness := cs }, 0) with
    | none => rw [hc] at h; exact absurd h (by simp)
    | some res =>
      obtain ⟨fe1, n1⟩ := res
      rw [hc] at h
      simp only [] at h
      cases hsf : forLoop surfaceAt (intRange sp (ep + 1)) fe1 with
      | none => rw [hsf] at h; exact absurd h (by simp)
      | some fe2 =>
        rw [hsf] at h
        exact ⟨cs, fe1, n1, fe2, rfl, hc, hsf, h⟩

/-- The cases of `sectorAt`: the sector is skipped (`sp ≥ ep`) or processed. -/
theorem sectorAt_cases {env : Collaborators} {fe fe' : FeatureExtract} {i j : Int}
    (h : sectorAt env i fe j = some fe') :
    ∃ s e, fe.cloudInfo.startRingIndex.get i = some s ∧
      fe.cloudInfo.endRingIndex.get i = some e ∧
      ((sectorStart s e j ≥ sectorEnd s e j ∧ fe' = fe) ∨
        (sectorStart s e j < sectorEnd s e j ∧
          processSector env fe (sectorStart s e j) (sectorEnd s e j) = some fe')) := by
  unfold sectorAt at h
  cases hs : fe.cloudInfo.startRingIndex.get i with
  | none => rw [hs] at h; exact absurd h (by simp)
  | some s =>
    cases he : fe.cloudInfo.endRingIndex.get i with
    | none => rw [hs, he] at h; exact absurd h (by simp)
    | some e =>
      rw [hs, he] at h
      simp only [] at h
      refine ⟨s, e, rfl, rfl, ?_⟩
      by_cases hge : sectorStart s e j ≥ sectorEnd s e j
      · rw [if_pos hge] at h
        simp only [Option.some.injEq] at h
        exact Or.inl ⟨hge, h.symm⟩
      · rw [if_neg hge] at h
        exact Or.inr ⟨not_le.mp hge, h⟩

/-- C8: while `extractFeatures` processes sector `j` of ring `i`, from any state, it appends
at most 20 points to `cornerCloud` (and removes none). -/
theorem sectorAt_corner_quota (env : Collaborators) (fe fe' : FeatureExtract) (i j : Int)
    (h : sectorAt env i fe j = some fe') :
    ∃ added addedInd, fe'.cornerCloud = fe.cornerCloud ++ added ∧
      fe'.cornerInd = fe.cornerInd ++ addedInd ∧
      addedInd.length = added.length ∧ added.length ≤ 20 := by
  obtain ⟨s, e, _, _, hcase⟩ := sectorAt_cases h
  rcases hcase with ⟨_, rfl⟩ | ⟨_, hproc⟩
  · exact ⟨[], [], by simp, by simp, rfl, by simp⟩
  · obtain ⟨cs, fe1, n1, fe2, _, hc, hsf, hpu⟩ := processSector_parts hproc
    obtain ⟨added, addedInd, h1, h2, h3, h4⟩ := cornerLoop_quota _ hc
    obtain ⟨a1, a2⟩ := surfaceLoop_corner _ hsf
    obtain ⟨b1, b2⟩ := pushLoop_corner _ hpu
    exact ⟨added, addedInd, by rw [b1, a1, h1], by rw [b2, a2, h2], h3, h4⟩

/-- Witness of C8: sector 2 of ring 1 of the scan with a kink, where one corner (index 19)
is appended. -/
theorem sectorAt_corner_quota_witness :
    ∃ fe fe', prepareScan (axisEnv 40) kinkScan = some fe ∧
      sectorAt (axisEnv 40) 1 fe 2 = some fe' ∧
      fe.cornerInd = [] ∧ fe'.cornerInd = [19] ∧
      ∃ added addedInd, fe'.cornerCloud = fe.cornerCloud ++ added ∧
        fe'.cornerInd = fe.cornerInd ++ addedInd ∧
        addedInd.length = added.length ∧ added.length ≤ 20 := by
  have hev : (prepareScan (axisEnv 40) kinkScan).bind
      (fun fe => (sectorAt (axisEnv 40) 1 fe 2).map (fun fe' => (fe.cornerInd, fe'.cornerInd))) =
      some ([], [19]) := by decide!
  cases h1 : prepareScan (axisEnv 40) kinkScan with
  | none => rw [h1] at hev; exact absurd hev (by simp)
  | some fe =>
    rw [h1] at hev
    simp only [Option.some_bind] at hev
    cases h2 : sectorAt (axisEnv 40) 1 fe 2 with
    | none => rw [h2] at hev; exact absurd hev (by simp)
    | some fe' =>
      rw [h2] at hev
      simp only [Option.map_some', Option.some.injEq, Prod.mk.injEq] at hev
      exact ⟨fe, fe', rfl, h2, hev.1, hev.2, sectorAt_corner_quota (axisEnv 40) fe fe' 1 2 h2⟩

theorem FeaturesInv.mono {n B B' : Int} {fe : FeatureExtract} (h : FeaturesInv n B fe)
    (hB : B ≤ B') : FeaturesInv n B' fe where
  records := fun p hp h5 hn => h.records p (by omega) h5 hn
  corners := h.corners
  surfaces := fun s hs => ⟨(h.surfaces s hs).1, by have := (h.surfaces s hs).2; omega⟩
  disjoint := h.disjoint

/-- The corner scan of a sector keeps the invariant: the records, the surface set and
`cloudInfo` are untouched, and a new corner is the index of a record of the sector. -/
theorem cornerLoop_inv {fe fe' : FeatureExtract} {n0 n' : Int} (l : List Int)
    (hrec : ∀ k ∈ l, ∀ x ∈ fe.surfaceInd, ((fe.cloudSmoothness.data k).ind : Int) ≠ x)
    (hcorners : ∀ c ∈ fe.cornerInd,
      fe.cloudLabel.data c = 1 ∧ fe.cloudNeighborPicked.data c ≠ 0)
    (hdisj : ∀ c ∈ fe.cornerInd, c ∉ fe.surfaceInd)
    (h : forLoopBreak cornerAt l (fe, n0) = some (fe', n')) :
    fe'.cloudSmoothness = fe.cloudSmoothness ∧ fe'.surfaceInd = fe.surfaceInd ∧
      fe'.cloudInfo = fe.cloudInfo ∧
      (∀ c ∈ fe'.cornerInd, fe'.cloudLabel.data c = 1 ∧ fe'.cloudNeighborPicked.data c ≠ 0) ∧
      (∀ c ∈ fe'.cornerInd, c ∉ fe'.surfaceInd) := by
  have key := forLoopBreak_inv cornerAt
    (fun s : FeatureExtract × Int =>
      s.1.cloudSmoothness = fe.cloudSmoothness ∧ s.1.surfaceInd = fe.surfaceInd ∧
      s.1.cloudInfo = fe.cloudInfo ∧
      (∀ c ∈ s.1.cornerInd, s.1.cloudLabel.data c = 1 ∧ s.1.cloudNeighborPicked.data c ≠ 0) ∧
      (∀ c ∈ s.1.cornerInd, c ∉ s.1.surfaceInd))
    l (fe, n0) (fe', n') ⟨rfl, rfl, rfl, hcorners, hdisj⟩
    (by
      rintro ⟨s, m⟩ k ⟨s', m'⟩ b hk ⟨i1, i2, i3, i4, i5⟩ hstep
      simp only at i1 i2 i3 i4 i5 ⊢
      obtain ⟨hframe, _, hpicked, hcase⟩ := cornerAt_effect hstep
      have f1 : s'.cloudSmoothness = s.cloudSmoothness := by
        have e := congrArg FeatureExtract.cloudSmoothness hframe; exact e
      have f2 : s'.surfaceInd = s.surfaceInd := by
        have e := congrArg FeatureExtract.surfaceInd hframe; exact e
      have f3 : s'.cloudInfo = s.cloudInfo := by
        have e := congrArg FeatureExtract.cloudInfo hframe; exact e
      have hkeep : ∀ x, s.cloudNeighborPicked.data x ≠ 0 → s'.cloudNeighborPicked.data x ≠ 0 := by
        intro x hx
        rcases hpicked x with h | h
        · rw [h]; exact hx
        · rw [h]; decide
      refine ⟨f1.trans i1, f2.trans i2, f3.trans i3, ?_, ?_⟩
      · rcases hcase with ⟨e1, _, e3, _⟩ | ⟨rec, pt, hget, _, _, e1, _, e3, e4, _⟩
        · intro c hc
          rw [e1] at hc
          rw [e3]
          exact ⟨(i4 c hc).1, hkeep c (i4 c hc).2⟩
        · intro c hc
          rw [e1] at hc
          rw [e3]
          rcases List.mem_append.mp hc with hc | hc
          · refine ⟨?_, hkeep c (i4 c hc).2⟩
            by_cases hci : c = (rec.ind : Int)
            · rw [hci]; simp
            · rw [Function.update_noteq hci]; exact (i4 c hc).1
          · simp only [List.mem_singleton] at hc
            subst hc
            exact ⟨by simp, by rw [e4]; decide⟩
      · rw [f2]
        rcases hcase with ⟨e1, _, _, _⟩ | ⟨rec, pt, hget, _, _, e1, _, _, _, _⟩
        · intro c hc
          rw [e1] at hc
          exact i5 c hc
        · intro c hc
          rw [e1] at hc
          rcases List.mem_append.mp hc with hc | hc
          · exact i5 c hc
          · simp only [List.mem_singleton] at hc
            subst hc
            rw [i2]
            intro hmem
            obtain ⟨_, _, hdata⟩ := Buf.get_eq_some hget
            rw [i1] at hdata
            exact hrec k hk _ hmem (by rw [hdata]))
    h
  exact key

/-- The surface scan of a sector keeps the labels and the flags of the corners and touches
neither the records, nor the output sets, nor `cloudInfo`. -/
theorem surfaceLoop_inv {fe fe' : FeatureExtract} (l : List Int)
    (hcorners : ∀ c ∈ fe.cornerInd,
      fe.cloudLabel.data c = 1 ∧ fe.cloudNeighborPicked.data c ≠ 0)
    (h : forLoop surfaceAt l fe = some fe') :
    fe'.cloudSmoothness = fe.cloudSmoothness ∧ fe'.surfaceInd = fe.surfaceInd ∧
      fe'.cornerInd = fe.cornerInd ∧ fe'.cloudInfo = fe.cloudInfo ∧
      (∀ c ∈ fe'.cornerInd, fe'.cloudLabel.data c = 1 ∧ fe'.cloudNeighborPicked.data c ≠ 0) := by
  refine forLoop_inv surfaceAt
    (fun s => s.cloudSmoothness = fe.cloudSmoothness ∧ s.surfaceInd = fe.surfaceInd ∧
      s.cornerInd = fe.cornerInd ∧ s.cloudInfo = fe.cloudInfo ∧
      (∀ c ∈ s.cornerInd, s.cloudLabel.data c = 1 ∧ s.cloudNeighborPicked.data c ≠ 0))
    l fe fe' ⟨rfl, rfl, rfl, rfl, hcorners⟩ ?_ h
  intro s k s' _ ⟨i1, i2, i3, i4, i5⟩ hstep
  obtain ⟨hframe, hpicked, hlabel⟩ := surfaceAt_effect hstep
  have f1 : s'.cloudSmoothness = s.cloudSmoothness := by
    have e := congrArg FeatureExtract.cloudSmoothness hframe; exact e
  have f2 : s'.surfaceInd = s.surfaceInd := by
    have e := congrArg FeatureExtract.surfaceInd hframe; exact e
  have f3 : s'.cornerInd = s.cornerInd := by
    have e := congrArg FeatureExtract.cornerInd hframe; exact e
  have f4 : s'.cloudInfo = s.cloudInfo := by
    have e := congrArg FeatureExtract.cloudInfo hframe; exact e
  refine ⟨f1.trans i1, f2.trans i2, f3.trans i3, f4.trans i4, ?_⟩
  intro c hc
  rw [f3] at hc
  obtain ⟨h1, h2⟩ := i5 c hc
  refine ⟨by rw [hlabel c h2]; exact h1, ?_⟩
  rcases hpicked c with h | h
  · rw [h]; exact h2
  · rw [h]; decide

/-- The last loop of a sector adds to the surface set only positions of the loop whose label
is not positive, and touches neither the records, the labels, the flags, the corner set nor
`cloudInfo`. -/
theorem pushLoop_inv {fe fe' : FeatureExtract} (l : List Int)
    (h : forLoop pushSurfaceAt l fe = some fe') :
    fe'.cloudSmoothness = fe.cloudSmoothness ∧ fe'.cornerInd = fe.cornerInd ∧
      fe'.cloudInfo = fe.cloudInfo ∧ fe'.cloudLabel = fe.cloudLabel ∧
      fe'.cloudNeighborPicked = fe.cloudNeighborPicked ∧
      (∀ x ∈ fe'.surfaceInd, x ∈ fe.surfaceInd ∨ (x ∈ l ∧ fe.cloudLabel.data x ≤ 0)) := by
  refine forLoop_inv pushSurfaceAt
    (fun s => s.cloudSmoothness = fe.cloudSmoothness ∧ s.cornerInd = fe.cornerInd ∧
      s.cloudInfo = fe.cloudInfo ∧ s.cloudLabel = fe.cloudLabel ∧
      s.cloudNeighborPicked = fe.cloudNeighborPicked ∧
      (∀ x ∈ s.surfaceInd, x ∈ fe.surfaceInd ∨ (x ∈ l ∧ fe.cloudLabel.data x ≤ 0)))
    l fe fe' ⟨rfl, rfl, rfl, rfl, rfl, fun x hx => Or.inl hx⟩ ?_ h
  intro s k s' hk ⟨i1, i2, i3, i4, i5, i6⟩ hstep
  obtain ⟨hframe, _, hcase⟩ := pushSurfaceAt_effect hstep
  have f1 : s'.cloudSmoothness = s.cloudSmoothness := by
    have e := congrArg FeatureExtract.cloudSmoothness hframe; exact e
  have f2 : s'.cornerInd = s.cornerInd := by
    have e := congrArg FeatureExtract.cornerInd hframe; exact e
  have f3 : s'.cloudInfo = s.cloudInfo := by
    have e := congrArg FeatureExtract.cloudInfo hframe; exact e
  have f4 : s'.cloudLabel = s.cloudLabel := by
    have e := congrArg FeatureExtract.cloudLabel hframe; exact e
  have f5 : s'.cloudNeighborPicked = s.cloudNeighborPicked := by
    have e := congrArg FeatureExtract.cloudNeighborPicked hframe; exact e
  refine ⟨f1.trans i1, f2.trans i2, f3.trans i3, f4.trans i4, f5.trans i5, ?_⟩
  intro x hx
  rcases hcase with e | ⟨hl, e⟩
  · rw [e] at hx; exact i6 x hx
  · rw [e] at hx
    rcases List.mem_append.mp hx with hx | hx
    · exact i6 x hx
    · simp only [List.mem_singleton] at hx
      subst hx
      rw [i4] at hl
      exact Or.inr ⟨hk, hl⟩

/-- A processed sector `[sp, ep]` that lies at positions `≥ B`, from position 4 on and
inside the band of `calculateSmoothness`, keeps the invariant, with the bound moved past the
sector. -/
theorem processSector_inv {env : Collaborators} (hperm : ∀ l, (env.sort l).Perm l)
    {fe fe' : FeatureExtract} {n B sp ep : Int} (hB : B ≤ sp) (h4 : 4 ≤ sp) (hlt : sp < ep)
    (hep : ep < n - 5) (hinv : FeaturesInv n B fe)
    (h : processSector env fe sp ep = some fe') :
    FeaturesInv n (ep + 1) fe' ∧ fe'.cloudInfo = fe.cloudInfo := by
  obtain ⟨cs, fe1, n1, fe2, hsort, hc, hsf, hpu⟩ := processSector_parts h
  obtain ⟨_, hout, hin⟩ := sortRange_effect hperm hsort
  -- the records after the sort
  have R1 : ∀ p : Int, ep + 1 ≤ p → 5 ≤ p → p < n - 5 → ((cs.data p).ind : Int) = p := by
    intro p hp h5 hn
    rw [hout p (by omega)]
    exact hinv.records p (by omega) h5 hn
  have R2 : ∀ k ∈ (intRange sp (ep + 1)).reverse, ∀ x ∈ fe.surfaceInd,
      ((cs.data k).ind : Int) ≠ x := by
    intro k hk x hx
    have hk' := mem_intRange.mp (List.mem_reverse.mp hk)
    obtain ⟨hx4, hxB⟩ := hinv.surfaces x hx
    by_cases hke : k < ep
    · obtain ⟨q, hq, e⟩ := hin k ⟨hk'.1, hke⟩
      rw [e]
      by_cases hq5 : 5 ≤ q
      · rw [hinv.records q (by omega) hq5 (by omega)]
        omega
      · omega
    · have hkep : k = ep := by omega
      rw [hout k (by omega), hinv.records k (by omega) (by omega) (by omega)]
      omega
  obtain ⟨c1, c2, c3, c4, c5⟩ := @cornerLoop_inv { fe with cloudSmoothness := cs } fe1 0 n1
    (intRange sp (ep + 1)).reverse R2 hinv.corners hinv.disjoint hc
  simp only [] at c1 c2 c3
  obtain ⟨s1, s2, s3, s4, s5⟩ := surfaceLoop_inv (intRange sp (ep + 1)) c4 hsf
  obtain ⟨p1, p2, p3, p4, p5, p6⟩ := pushLoop_inv (intRange sp (ep + 1)) hpu
  refine ⟨⟨?_, ?_, ?_, ?_⟩, ?_⟩
  · intro p hp h5 hn
    rw [p1, s1, c1]
    exact R1 p hp h5 hn
  · intro c hc'
    rw [p2] at hc'
    rw [p4, p5]
    exact s5 c hc'
  · intro x hx
    rcases p6 x hx with hx | ⟨hx, _⟩
    · rw [s2, c2] at hx
      obtain ⟨a, b⟩ := hinv.surfaces x hx
      exact ⟨a, by omega⟩
    · have := mem_intRange.mp hx
      exact ⟨by omega, by omega⟩
  · intro c hc' hmem
    rw [p2] at hc'
    rcases p6 c hmem with hx | ⟨_, hl⟩
    · rw [s2] at hx
      rw [s3] at hc'
      exact c5 c hc' hx
    · rw [(s5 c hc').1] at hl
      exact absurd hl (by decide)
  · rw [p3, s4, c3]

theorem sectorStart_succ (s e j : Int) : sectorStart s e (j + 1) = sectorEnd s e j + 1 := by
  unfold sectorStart sectorEnd
  have : s * (6 - (j + 1)) + e * (j + 1) = s * (5 - j) + e * (j + 1) := by ring
  rw [this]
  omega

theorem sectorStart_zero (s e : Int) : sectorStart s e 0 = s := by
  unfold sectorStart
  rw [tdiv_six]
  split <;> omega

theorem sectorStart_six (s e : Int) : sectorStart s e 6 = e := by
  unfold sectorStart
  rw [tdiv_six]
  split <;> omega

theorem sectorStart_mono {s e j : Int} (hse : s ≤ e) :
    sectorStart s e j ≤ sectorStart s e (j + 1) := by
  unfold sectorStart
  apply tdiv_six_mono
  nlinarith

theorem sectorStart_ge {s e j : Int} (hse : s ≤ e) (hj : 0 ≤ j) : s ≤ sectorStart s e j := by
  have h1 : s * 6 ≤ s * (6 - j) + e * j := by nlinarith [mul_nonneg hj (sub_nonneg.mpr hse)]
  have h2 := tdiv_six_mono h1
  unfold sectorStart
  have h3 : Int.tdiv (s * 6) 6 = s := by
    rw [tdiv_six]; split <;> omega
  omega

theorem sectorStart_le {s e j : Int} (hse : s ≤ e) (hj : j ≤ 6) : sectorStart s e j ≤ e := by
  have h1 : s * (6 - j) + e * j ≤ e * 6 := by
    nlinarith [mul_nonneg (sub_nonneg.mpr hj) (sub_nonneg.mpr hse)]
  have h2 := tdiv_six_mono h1
  unfold sectorStart
  have h3 : Int.tdiv (e * 6) 6 = e := by
    rw [tdiv_six]; split <;> omega
  omega

/-- The six sectors of a ring whose span `(s, e)` has `4 ≤ s`, `B ≤ s` and `e ≤ n - 6` keep
the invariant; afterwards every sector still to process lies at positions `≥ max B e`. -/
theorem sectorLoop_inv {env : Collaborators} (hperm : ∀ l, (env.sort l).Perm l)
    {fe fe' : FeatureExtract} {n B i s e : Int}
    (hs : fe.cloudInfo.startRingIndex.get i = some s)
    (he : fe.cloudInfo.endRingIndex.get i = some e)
    (hB : B ≤ s) (h4 : 4 ≤ s) (hen : e ≤ n - 6) (hinv : FeaturesInv n B fe)
    (h : forLoop (sectorAt env i) (intRange 0 6) fe = some fe') :
    FeaturesInv n (max B e) fe' ∧ fe'.cloudInfo = fe.cloudInfo := by
  by_cases hse : s ≤ e
  · have key := forLoop_intRange_partial (sectorAt env i)
      (fun j t => FeaturesInv n (sectorStart s e j) t ∧ t.cloudInfo = fe.cloudInfo)
      0 6 (by decide) fe fe'
      ⟨hinv.mono (by rw [sectorStart_zero]; exact hB), rfl⟩
      (by
        intro j t t' hj0 hj6 ⟨ht, hci⟩ hstep
        obtain ⟨s', e', hs', he', hcase⟩ := sectorAt_cases hstep
        rw [hci, hs] at hs'
        rw [hci, he] at he'
        simp only [Option.some.injEq] at hs' he'
        subst hs' he'
        rcases hcase with ⟨_, rfl⟩ | ⟨hlt, hproc⟩
        · exact ⟨ht.mono (sectorStart_mono hse), hci⟩
        · have hge := sectorStart_ge hse hj0
          have hle := @sectorStart_le _ _ (j + 1) hse (by omega)
          rw [sectorStart_succ] at hle
          obtain ⟨r1, r2⟩ := processSector_inv hperm (le_refl _) (by omega) hlt (by omega) ht
            hproc
          rw [sectorStart_succ]
          exact ⟨r1, r2.trans hci⟩)
      h
    obtain ⟨k1, k2⟩ := key
    rw [sectorStart_six] at k1
    exact ⟨k1.mono (le_max_right _ _), k2⟩
  · have key := forLoop_inv (sectorAt env i)
      (fun t => t = fe) (intRange 0 6) fe fe' rfl
      (by
        intro t j t' _ ht hstep
        subst ht
        obtain ⟨s', e', hs', he', hcase⟩ := sectorAt_cases hstep
        rw [hs] at hs'
        rw [he] at he'
        simp only [Option.some.injEq] at hs' he'
        subst hs' he'
        rcases hcase with ⟨_, rfl⟩ | ⟨hlt, _⟩
        · rfl
        · have := sector_empty_of_ge s e j (by omega)
          omega)
      h
    subst key
    exact ⟨hinv.mono (le_max_left _ _), rfl⟩

theorem cellsBelow_length_mono (m : Mat) (H : Int) {a b : Int} (ha : 0 ≤ a) (hab : a ≤ b) :
    (cellsBelow m H a).length ≤ (cellsBelow m H b).length := by
  obtain ⟨d, rfl⟩ : ∃ d : Nat, b = a + d := ⟨(b - a).toNat, by omega⟩
  induction d with
  | zero => simp
  | succ d ih =>
    have e : a + ((d + 1 : Nat) : Int) = (a + d) + 1 := by push_cast; ring
    rw [e, cellsBelow_succ m H (a + d) (by omega), List.length_append]
    have := ih (by omega)
    omega

/-- The four stages before `extractFeatures` on an allocated, reset object: each returns,
with its specification. -/
theorem prepareScan_spec (env : Collaborators) (fe : FeatureExtract) (ha : ScanAllocated fe) :
    ∃ fe1 fe2 fe3 fe4, projectPointCloud env fe = some fe1 ∧ SameGrid fe fe1 ∧
      cloudExtraction fe1 = some fe2 ∧
      CellsAppended fe1 (cellsBelow fe1.rangeMat fe1.Horizon_SCAN fe1.N_SCAN) fe2 ∧
      (∀ i : Int, 0 ≤ i → i < fe1.N_SCAN →
        fe2.cloudInfo.startRingIndex.get i =
          some (((cellsBelow fe1.rangeMat fe1.Horizon_SCAN i).length : Int) - 1 + 5) ∧
        fe2.cloudInfo.endRingIndex.get i =
          some (((cellsBelow fe1.rangeMat fe1.Horizon_SCAN i).length : Int) +
            ((rowCols fe1.rangeMat i fe1.Horizon_SCAN).length : Int) - 1 - 5)) ∧
      PointsAllocated fe2 ∧
      calculateSmoothness fe2 = some fe3 ∧
      Smoothed fe2 (max 5 (fe2.extractedCloud.size - 5)) fe3 ∧
      markOccludedPoints fe3 = some fe4 ∧
      Occluded fe3 (max 5 (fe3.extractedCloud.size - 6)) fe4 ∧
      prepareScan env fe = some fe4 := by
  obtain ⟨fe1, h1, hsg, _⟩ := projectLoop_spec env fe.inputCloud fe
    ⟨ha.rows, ha.cols, ha.full, ha.counters, ha.rate⟩
  obtain ⟨cN, cH, _⟩ := hsg.config
  have hf1 := hsg.frame
  have eci : fe1.cloudInfo = fe.cloudInfo := by
    have e := congrArg FeatureExtract.cloudInfo hf1; exact e
  have eec : fe1.extractedCloud = fe.extractedCloud := by
    have e := congrArg FeatureExtract.extractedCloud hf1; exact e
  have ecc : fe1.cloudCurvature = fe.cloudCurvature := by
    have e := congrArg FeatureExtract.cloudCurvature hf1; exact e
  have enp : fe1.cloudNeighborPicked = fe.cloudNeighborPicked := by
    have e := congrArg FeatureExtract.cloudNeighborPicked hf1; exact e
  have elb : fe1.cloudLabel = fe.cloudLabel := by
    have e := congrArg FeatureExtract.cloudLabel hf1; exact e
  have ecs : fe1.cloudSmoothness = fe.cloudSmoothness := by
    have e := congrArg FeatureExtract.cloudSmoothness hf1; exact e
  have ha1 : ExtractionAllocated fe1 := by
    constructor
    · rw [cN]; exact ha.nScan
    · rw [cH]; exact ha.horizon
    · rw [cN, hsg.rows]; exact ha.rows
    · rw [cH, hsg.cols]; exact ha.cols
    · rw [cN, cH, hsg.full]; exact ha.full
    · rw [cN, cH, eci]; exact ha.colInd
    · rw [cN, cH, eci]; exact ha.range
    · rw [cN, eci]; exact ha.startRing
    · rw [cN, eci]; exact ha.endRing
  obtain ⟨fe2, h2, hcells, hspan⟩ := cloudExtraction_ring_span fe1 ha1
  have hf2 := hcells.frame
  have hlen : ((cellsBelow fe1.rangeMat fe1.Horizon_SCAN fe1.N_SCAN).length : Int) ≤
      fe.N_SCAN * fe.Horizon_SCAN := by
    obtain ⟨n, hn⟩ : ∃ n : Nat, fe1.N_SCAN = n := ⟨fe1.N_SCAN.toNat, by have := ha1.nScan; omega⟩
    have := cellsBelow_length_le fe1.rangeMat fe1.Horizon_SCAN ha1.horizon n
    rw [← hn] at this
    rw [← cN, ← cH]
    exact this
  have hsize2 : fe2.extractedCloud.size =
      ((cellsBelow fe1.rangeMat fe1.Horizon_SCAN fe1.N_SCAN).length : Int) := by
    rw [hcells.cloudSize, eec, ha.extracted, zero_add]
  have ha2 : PointsAllocated fe2 := by
    have b1 := ha.range
    have b2 := ha.colInd
    have b3 := ha.curvature
    have b4 := ha.picked
    have b5 := ha.label
    have b6 := ha.smoothness
    constructor
    · rw [hcells.rangeSize, eci]; omega
    · rw [hcells.colSize, eci]; omega
    · have e : fe2.cloudCurvature = fe1.cloudCurvature := by
        have e := congrArg FeatureExtract.cloudCurvature hf2; exact e
      rw [e, ecc]; omega
    · have e : fe2.cloudNeighborPicked = fe1.cloudNeighborPicked := by
        have e := congrArg FeatureExtract.cloudNeighborPicked hf2; exact e
      rw [e, enp]; omega
    · have e : fe2.cloudLabel = fe1.cloudLabel := by
        have e := congrArg FeatureExtract.cloudLabel hf2; exact e
      rw [e, elb]; omega
    · have e : fe2.cloudSmoothness = fe1.cloudSmoothness := by
        have e := congrArg FeatureExtract.cloudSmoothness hf2; exact e
      rw [e, ecs]; omega
  obtain ⟨fe3, h3, hsm⟩ := calculateSmoothness_spec fe2 ha2
  have hf3 := hsm.frame
  have e3ci : fe3.cloudInfo = fe2.cloudInfo := by
    have e := congrArg FeatureExtract.cloudInfo hf3; exact e
  have e3ec : fe3.extractedCloud = fe2.extractedCloud := by
    have e := congrArg FeatureExtract.extractedCloud hf3; exact e
  have ha3 : PointsAllocated fe3 := by
    constructor
    · rw [e3ec, e3ci]; exact ha2.range
    · rw [e3ec, e3ci]; exact ha2.colInd
    · rw [e3ec, hsm.curvatureSize]; exact ha2.curvature
    · rw [e3ec, hsm.pickedSize]; exact ha2.picked
    · rw [e3ec, hsm.labelSize]; exact ha2.label
    · rw [e3ec, hsm.smoothnessSize]; exact ha2.smoothness
  obtain ⟨fe4, h4, hocc⟩ := markOccludedPoints_spec fe3 ha3
  refine ⟨fe1, fe2, fe3, fe4, h1, hsg, h2, hcells, hspan, ha2, h3, hsm, h4, hocc, ?_⟩
  unfold prepareScan
  have h1' : projectPointCloud env fe = some fe1 := h1
  rw [h1']
  simp only []
  rw [h2]
  simp only []
  rw [h3]
  exact h4

/-- The rings loop of `extractFeatures` keeps the invariant when the ring spans are those
`cloudExtraction` computes from the cell counts `c` and the records of the band carry their
own index. -/
theorem ringLoop_inv {env : Collaborators} (hperm : ∀ l, (env.sort l).Perm l)
    {fe fe' : FeatureExtract} {n N : Int} (c : Int → Int) (hN : 0 ≤ N)
    (hc0 : ∀ i, 0 ≤ c i) (hcmono : ∀ i j, 0 ≤ i → i ≤ j → c i ≤ c j) (hcN : c N ≤ n)
    (hspan : ∀ i : Int, 0 ≤ i → i < N →
      fe.cloudInfo.startRingIndex.get i = some (c i - 1 + 5) ∧
      fe.cloudInfo.endRingIndex.get i = some (c (i + 1) - 1 - 5))
    (hinv : FeaturesInv n 4 fe)
    (h : forLoop (featuresOfRing env) (intRange 0 N) fe = some fe') :
    FeaturesInv n (c N + 4) fe' := by
  have key := forLoop_intRange_partial (featuresOfRing env)
    (fun i t => FeaturesInv n (c i + 4) t ∧ t.cloudInfo = fe.cloudInfo)
    0 N hN fe fe' ⟨hinv.mono (by have := hc0 0; omega), rfl⟩
    (by
      intro i t t' hi0 hiN ⟨ht, hci⟩ hstep
      unfold featuresOfRing at hstep
      cases hloop : forLoop (sectorAt env i) (intRange 0 6) { t with surfaceCloudScan := [] } with
      | none => rw [hloop] at hstep; exact absurd hstep (by simp)
      | some t1 =>
        rw [hloop] at hstep
        simp only [Option.some.injEq] at hstep
        subst hstep
        obtain ⟨hs, he⟩ := hspan i hi0 hiN
        have hinv0 : FeaturesInv n (c i + 4) { t with surfaceCloudScan := [] } :=
          ⟨ht.records, ht.corners, ht.surfaces, ht.disjoint⟩
        have hm1 := hcmono i (i + 1) hi0 (by omega)
        have hm2 := hcmono (i + 1) N (by omega) (by omega)
        have h0 := hc0 i
        obtain ⟨r1, r2⟩ := @sectorLoop_inv env hperm { t with surfaceCloudScan := [] } t1 n
          (c i + 4) i (c i - 1 + 5) (c (i + 1) - 1 - 5)
          (by rw [← hci] at hs; exact hs) (by rw [← hci] at he; exact he)
          (by omega) (by omega) (by omega) hinv0 hloop
        have r3 := @FeaturesInv.mono n (max (c i + 4) (c (i + 1) - 1 - 5)) (c (i + 1) + 4) t1 r1
          (by rw [max_le_iff]; omega)
        exact ⟨⟨r3.records, r3.corners, r3.surfaces, r3.disjoint⟩, r2.trans hci⟩)
    h
  exact key.1

/-- C7: for every scan on an allocated, reset object, the four stages before
`extractFeatures` return, and whenever `extractFeatures` then returns, no extracted-sequence
index has been appended both to `cornerCloud` (`cornerInd`) and to the surface set before
downsampling (`surfaceInd`); `std::sort` is any rearrangement of the sorted range. -/
theorem extractFeatures_corner_surface_disjoint (env : Collaborators)
    (hperm : ∀ l, (env.sort l).Perm l) (fe : FeatureExtract) (ha : ScanAllocated fe) :
    ∃ fe4, prepareScan env fe = some fe4 ∧
      ∀ fe5, extractFeatures env fe4 = some fe5 →
        ∀ x, x ∈ fe5.cornerInd → x ∉ fe5.surfaceInd := by
  obtain ⟨fe1, fe2, fe3, fe4, _, hsg, _, hcells, hspan, _, _, hsm, _, hocc, hprep⟩ :=
    prepareScan_spec env fe ha
  refine ⟨fe4, hprep, ?_⟩
  intro fe5 hrun x hx
  obtain ⟨cN, _⟩ := hsg.config
  have hf1 := hsg.frame
  have hf2 := hcells.frame
  have hf3 := hsm.frame
  have hf4 := hocc.frame
  have e1ec : fe1.extractedCloud = fe.extractedCloud := by
    have e := congrArg FeatureExtract.extractedCloud hf1; exact e
  have e2N : fe2.N_SCAN = fe1.N_SCAN := by
    have e := congrArg FeatureExtract.N_SCAN hf2; exact e
  have e3N : fe3.N_SCAN = fe2.N_SCAN := by
    have e := congrArg FeatureExtract.N_SCAN hf3; exact e
  have e4N : fe4.N_SCAN = fe3.N_SCAN := by
    have e := congrArg FeatureExtract.N_SCAN hf4; exact e
  have e3ci : fe3.cloudInfo = fe2.cloudInfo := by
    have e := congrArg FeatureExtract.cloudInfo hf3; exact e
  have e4ci : fe4.cloudInfo = fe3.cloudInfo := by
    have e := congrArg FeatureExtract.cloudInfo hf4; exact e
  have e4cs : fe4.cloudSmoothness = fe3.cloudSmoothness := by
    have e := congrArg FeatureExtract.cloudSmoothness hf4; exact e
  have hsize2 : fe2.extractedCloud.size =
      ((cellsBelow fe1.rangeMat fe1.Horizon_SCAN fe1.N_SCAN).length : Int) := by
    rw [hcells.cloudSize, e1ec, ha.extracted, zero_add]
  have hinv : FeaturesInv fe2.extractedCloud.size 4
      { fe4 with cornerCloud := [], surfaceCloud := [], surfaceCloudScan := [],
                 cornerInd := [], surfaceInd := [] } := by
    constructor
    · intro p _ h5 hn
      simp only []
      rw [e4cs, (hsm.band p h5 (lt_max_iff.mpr (Or.inr hn))).2.2.2]
      simp only []
      omega
    · intro c hc; simp at hc
    · intro s hs; simp at hs
    · intro c hc; simp at hc
  have hN : 0 ≤ fe4.N_SCAN := by rw [e4N, e3N, e2N, cN]; exact ha.nScan
  have hres := ringLoop_inv hperm (n := fe2.extractedCloud.size) (N := fe4.N_SCAN)
    (fun i => ((cellsBelow fe1.rangeMat fe1.Horizon_SCAN i).length : Int))
    hN (fun i => by positivity)
    (fun i j hi hij => by
      have := cellsBelow_length_mono fe1.rangeMat fe1.Horizon_SCAN hi hij
      simp only []
      omega)
    (by simp only []; rw [hsize2, e4N, e3N, e2N])
    (by
      intro i hi0 hiN
      rw [e4N, e3N, e2N] at hiN
      obtain ⟨h1, h2⟩ := hspan i hi0 hiN
      simp only []
      rw [e4ci, e3ci]
      refine ⟨h1, ?_⟩
      rw [h2, cellsBelow_succ _ _ _ hi0, List.length_append, List.length_map]
      push_cast
      rfl)
    hinv hrun
  exact hres.disjoint x hx

theorem kinkScan_scan_allocated : ScanAllocated kinkScan := by
  constructor <;> decide

theorem axisEnv_sort_perm (H : Int) (l : List smoothness_t) : ((axisEnv H).sort l).Perm l :=
  List.perm_insertionSort _ l

/-- Witness of C7: the scan with a kink; `extractFeatures` returns with corner set `[19]`
and a surface set that does not contain 19. -/
theorem extractFeatures_corner_surface_disjoint_witness :
    ScanAllocated kinkScan ∧ (∀ l, ((axisEnv 40).sort l).Perm l) ∧
      ((prepareScan (axisEnv 40) kinkScan).bind (extractFeatures (axisEnv 40))).map
        (fun fe => (fe.cornerInd, fe.surfaceInd)) =
        some ([19], [5, 6, 7, 8, 9, 10, 11, 12, 13, 14, 15, 16, 17, 18, 20, 21, 22, 23, 24, 25,
          26, 27, 28, 29, 30, 31, 32, 33, 34]) ∧
      ∃ fe4, prepareScan (axisEnv 40) kinkScan = some fe4 ∧
        ∀ fe5, extractFeatures (axisEnv 40) fe4 = some fe5 →
          ∀ x, x ∈ fe5.cornerInd → x ∉ fe5.surfaceInd :=
  ⟨kinkScan_scan_allocated, axisEnv_sort_perm 40, by decide!,
    extractFeatures_corner_surface_disjoint (axisEnv 40) (axisEnv_sort_perm 40) kinkScan
      kinkScan_scan_allocated⟩

/-- The object `allocateMemory` builds, with any input cloud, is allocated and reset. -/
theorem allocateMemory_scanAllocated (cfg : Config) (curvature0 : Int → ℚ)
    (picked0 label0 : Int → Int) (pts : List PointType) (hN : 0 ≤ cfg.N_SCAN)
    (hH : 0 ≤ cfg.Horizon_SCAN) (hd : cfg.downsampleRate ≠ 0) :
    ScanAllocated { allocateMemory cfg curvature0 picked0 label0 with inputCloud := pts } := by
  constructor <;> simp [allocateMemory, resetParameters, Buf.clear, hN, hH, hd]

theorem ScanAllocated.projection {fe : FeatureExtract} (ha : ScanAllocated fe) :
    ProjectionAllocated fe :=
  ⟨ha.rows, ha.cols, ha.full, ha.counters, ha.rate⟩

theorem ScanAllocated.extraction {fe : FeatureExtract} (ha : ScanAllocated fe) :
    ExtractionAllocated fe :=
  ⟨ha.nScan, ha.horizon, ha.rows, ha.cols, ha.full, ha.colInd, ha.range, ha.startRing,
    ha.endRing⟩

/-- C20 (code bug): on the fresh object `fortyPoints`, one ring of 40 points, the four
stages before `extractFeatures` return and set `startRingIndex[0] = 4`; the record at
position 4, which `calculateSmoothness` does not write, is the allocated one, with `ind = 0`,
so `ind - 5 < 0`; and `extractFeatures` faults: it selects index 0 and its downward
suppression loop reads `pointColInd[-1]`. -/
theorem fortyPoints_faults :
    (prepareScan (axisEnv 40) fortyPoints).bind
        (fun fe => fe.cloudInfo.startRingIndex.get 0) = some 4 ∧
      (prepareScan (axisEnv 40) fortyPoints).bind
        (fun fe => fe.cloudSmoothness.get 4) = some { value := 0, ind := 0 } ∧
      (prepareScan (axisEnv 40) fortyPoints).bind (extractFeatures (axisEnv 40)) = none := by
  refine ⟨by decide!, by decide!, ?_⟩
  have h : ((prepareScan (axisEnv 40) fortyPoints).bind
      (extractFeatures (axisEnv 40))).isNone = true := by decide!
  exact Option.isNone_iff_eq_none.mp h

/-- Counterexample to C12 as stated: for the ring span `[0, 12]` the six sector ranges start
at 0 and are contiguous, but the last one ends at position 11, not at `endIndex` = 12. -/
theorem sectorEnd_last_counterexample :
    ¬ (sectorStart 0 12 0 = 0 ∧
        (∀ j : Int, 0 ≤ j → j ≤ 4 → sectorStart 0 12 (j + 1) = sectorEnd 0 12 j + 1) ∧
        sectorEnd 0 12 5 = 12) := by
  intro h
  exact absurd h.2.2 (by decide)

/-- C12 (amended): for every ring span with `startIndex ≤ endIndex` the six sector ranges
`[sp_j, ep_j]` computed by `extractFeatures` start at `sp_0 = startIndex`, are contiguous
(`sp_{j+1} = ep_j + 1`), end at `ep_5 = endIndex - 1`, cover exactly the positions
`startIndex, ..., endIndex - 1`, and no position lies in two of them. -/
theorem sectors_partition_span (s e : Int) (hse : s ≤ e) :
    sectorStart s e 0 = s ∧
      (∀ j : Int, 0 ≤ j → j ≤ 4 → sectorStart s e (j + 1) = sectorEnd s e j + 1) ∧
      sectorEnd s e 5 = e - 1 ∧
      (∀ k : Int, (s ≤ k ∧ k ≤ e - 1) ↔
        ∃ j : Int, 0 ≤ j ∧ j ≤ 5 ∧ sectorStart s e j ≤ k ∧ k ≤ sectorEnd s e j) ∧
      (∀ j j' k : Int, 0 ≤ j → j ≤ 5 → 0 ≤ j' → j' ≤ 5 →
        sectorStart s e j ≤ k → k ≤ sectorEnd s e j →
        sectorStart s e j' ≤ k → k ≤ sectorEnd s e j' → j = j') := by
  have h0 := sectorStart_zero s e
  have h6 := sectorStart_six s e
  have e0 := sectorStart_succ s e 0
  have e1 := sectorStart_succ s e 1
  have e2 := sectorStart_succ s e 2
  have e3 := sectorStart_succ s e 3
  have e4 := sectorStart_succ s e 4
  have e5 := sectorStart_succ s e 5
  have m0 := @sectorStart_mono s e 0 hse
  have m1 := @sectorStart_mono s e 1 hse
  have m2 := @sectorStart_mono s e 2 hse
  have m3 := @sectorStart_mono s e 3 hse
  have m4 := @sectorStart_mono s e 4 hse
  have m5 := @sectorStart_mono s e 5 hse
  norm_num at e0 e1 e2 e3 e4 e5 m0 m1 m2 m3 m4 m5
  refine ⟨h0, ?_, by omega, ?_, ?_⟩
  · intro j _ _
    exact sectorStart_succ s e j
  · intro k
    constructor
    · rintro ⟨hk1, hk2⟩
      by_cases c1 : k < sectorStart s e 1
      · exact ⟨0, by decide, by decide, by omega, by omega⟩
      by_cases c2 : k < sectorStart s e 2
      · exact ⟨1, by decide, by decide, by omega, by omega⟩
      by_cases c3 : k < sectorStart s e 3
      · exact ⟨2, by decide, by decide, by omega, by omega⟩
      by_cases c4 : k < sectorStart s e 4
      · exact ⟨3, by decide, by decide, by omega, by omega⟩
      by_cases c5 : k < sectorStart s e 5
      · exact ⟨4, by decide, by decide, by omega, by omega⟩
      · exact ⟨5, by decide, by decide, by omega, by omega⟩
    · rintro ⟨j, hj0, hj5, hk1, hk2⟩
      interval_cases j <;> omega
  · intro j j' k hj0 hj5 hj0' hj5' a1 a2 b1 b2
    interval_cases j <;> interval_cases j' <;> omega

/-- Witness of C12 (amended): the ring span `[0, 12]`, with sectors `[0, 1]`, `[2, 3]`,
`[4, 5]`, `[6, 7]`, `[8, 9]`, `[10, 11]`. -/
theorem sectors_partition_span_witness :
    (0 : Int) ≤ 12 ∧
      (List.range 6).map (fun (j : Nat) => (sectorStart 0 12 j, sectorEnd 0 12 j)) =
        [(0, 1), (2, 3), (4, 5), (6, 7), (8, 9), (10, 11)] ∧
      sectorEnd 0 12 5 = 12 - 1 :=
  ⟨by decide, by decide, (sectors_partition_span 0 12 (by decide)).2.2.1⟩

/-- C11 (code bug): on the fresh one-ring object `fortyFlagged` the stages before
`extractFeatures` return with ring span `[4, 34]` over 40 extracted points, so the first
sector is `[4, 8]` and is processed (`4 < 8`); position 4 is below the band `[5, 35)` that
`calculateSmoothness` assigns and still holds the allocated record, with `ind = 0`; and the
run of all stages returns with position 4 as its first surface candidate. -/
theorem extractFeatures_reads_position_four :
    (prepareScan (axisEnv 40) fortyFlagged).bind (fun fe =>
        (fe.cloudInfo.startRingIndex.get 0).bind (fun s =>
        (fe.cloudInfo.endRingIndex.get 0).bind (fun e =>
        (fe.cloudSmoothness.get 4).map (fun r =>
          (s, e, fe.extractedCloud.size, sectorStart s e 0, sectorEnd s e 0, r))))) =
        some (4, 34, 40, 4, 8, { value := 0, ind := 0 }) ∧
      (runStages (axisEnv 40) fortyFlagged).map (fun fe => fe.surfaceInd.take 3) =
        some [4, 5, 6] := by
  constructor <;> decide!

/-- C13 (code bug): in the scan `kinkScan` ring 1 has span `[5, 35]`; after its sectors 0
to 2 the sort of sector 3, `[20, 24]`, leaves the records whose values the corner scan
meets, from `k = 24` down to `k = 20`, as `1/25, 9, 4, 36/25, 9/25`: the record at `ep = 24`
is outside the sorted range and is examined first, before four records of higher
curvature. -/
theorem cornerAt_order_kinkScan :
    (prepareScan (axisEnv 40) kinkScan).bind (fun fe =>
      (fe.cloudInfo.startRingIndex.get 1).bind (fun s =>
      (fe.cloudInfo.endRingIndex.get 1).bind (fun e =>
      (forLoop (sectorAt (axisEnv 40) 1) (intRange 0 3) fe).bind (fun fe3 =>
      (sortRange (axisEnv 40) fe3.cloudSmoothness (sectorStart s e 3) (sectorEnd s e 3)).map
        (fun cs => (s, e, sectorStart s e 3, sectorEnd s e 3,
          (intRange (sectorStart s e 3) (sectorEnd s e 3 + 1)).reverse.map
            (fun k => (cs.data k).value))))))) =
      some (5, 35, 20, 24, [1 / 25, 9, 4, 36 / 25, 9 / 25]) := by
  decide!

/-- C14 (code bug): in the scan `twoPlanes` every ring holds one range at consecutive
columns (the extracted ranges are `2` for ring 0 and `3` for the 40 points of ring 1, at
columns `0` and `0, ..., 39`) and the edge threshold is `1/10 ≥ 0`, yet the run of all
stages returns with one corner point, the extracted index 5: the span of ring 1 starts at
`5 = 1 + 4`, and the curvature window of index 5 reaches index 0, the point of ring 0. -/
theorem extractFeatures_twoPlanes_corner :
    (prepareScan (axisEnv 40) twoPlanes).map (fun fe =>
        (fe.extractedCloud.size,
          (intRange 0 41).map fe.cloudInfo.pointRange.data,
          (intRange 0 41).map fe.cloudInfo.pointColInd.data,
          fe.cloudInfo.startRingIndex.data 1, fe.cloudCurvature.data 5)) =
        some (41, 2 :: List.replicate 40 3, 0 :: intRange 0 40, 5, 1) ∧
      (runStages (axisEnv 40) twoPlanes).map
        (fun fe => (fe.cornerInd, fe.cornerCloud.length)) = some ([5], 1) := by
  constructor <;> decide!

/-- On a sequence of length `n` whose range is `u` up to index `s` and `v` after it, both
positive, with column gap 1 between neighbours, iteration `i` of `markOccludedPoints` marks
`m` only for `i = s`, and then by rule (a) or (b) alone. -/
theorem occludes_step {range : Int → ℚ} {col : Int → Int} {n s : Int} {u v : ℚ}
    (hu : 0 < u) (hv : 0 < v)
    (hr : ∀ i : Int, 0 ≤ i → i < n → range i = if i ≤ s then u else v)
    (hc : ∀ i : Int, 0 ≤ i → i + 1 < n → |col (i + 1) - col i| = 1)
    {i : Int} (h5 : 5 ≤ i) (hi : i < n - 6) (m : Int) :
    occludes range col i m ↔
      (i = s ∧ ((float32 (u - v) > float64 (3 / 10) ∧ i - 5 ≤ m ∧ m ≤ i) ∨
        (float32 (v - u) > float64 (3 / 10) ∧ i + 1 ≤ m ∧ m ≤ i + 6))) := by
  have hgap : |col (i + 1) - col i| < 10 := by
    rw [hc i (by omega) (by omega)]; decide
  have r0 := hr i (by omega) (by omega)
  have r1 := hr (i + 1) (by omega) (by omega)
  have r2 := hr (i - 1) (by omega) (by omega)
  have hthr := float64_three_tenths_pos
  have hsu := float64_scaled_nonneg (le_of_lt hu)
  have hsv := float64_scaled_nonneg (le_of_lt hv)
  unfold occludes
  rw [r0, r1, r2]
  by_cases his : i = s
  · subst his
    rw [if_pos (le_refl i), if_neg (by omega), if_pos (by omega)]
    constructor
    · rintro (⟨_, h, hm⟩ | ⟨_, h, hm⟩ | ⟨_, h, _⟩)
      · exact ⟨rfl, Or.inl ⟨h, hm⟩⟩
      · exact ⟨rfl, Or.inr ⟨h, hm⟩⟩
      · rw [sub_self, float32_zero, abs_zero] at h
        exact absurd h (by linarith)
    · rintro ⟨_, ⟨h, hm⟩ | ⟨h, hm⟩⟩
      · exact Or.inl ⟨hgap, h, hm⟩
      · exact Or.inr (Or.inl ⟨hgap, h, hm⟩)
  · constructor
    · intro h
      exfalso
      by_cases hlt : i < s
      · rw [if_pos (by omega), if_pos (by omega), if_pos (by omega)] at h
        rcases h with ⟨_, h, _⟩ | ⟨_, h, _⟩ | ⟨_, h, _⟩
        · rw [sub_self, float32_zero] at h; exact absurd h (by linarith)
        · rw [sub_self, float32_zero] at h; exact absurd h (by linarith)
        · rw [sub_self, float32_zero, abs_zero] at h; exact absurd h (by linarith)
      · rw [if_neg (by omega), if_neg (by omega)] at h
        rcases h with ⟨_, h, _⟩ | ⟨_, h, _⟩ | ⟨_, _, h⟩
        · rw [sub_self, float32_zero] at h; exact absurd h (by linarith)
        · rw [sub_self, float32_zero] at h; exact absurd h (by linarith)
        · rw [sub_self, float32_zero, abs_zero] at h; exact absurd h (by linarith)
    · rintro ⟨h, _⟩
      exact absurd h his

/-- A step of 1 is above the threshold after rounding, a step of -1 is not. -/
theorem float32_unit_step (a : ℚ) :
    float32 (a + 1 - a) > float64 (3 / 10) ∧ ¬ float32 (a - (a + 1)) > float64 (3 / 10) := by
  have e1 : a + 1 - a = 1 := by ring
  have e2 : a - (a + 1) = -1 := by ring
  rw [e1, e2, float32_one, float32_neg_one]
  constructor <;> decide!

/-- C15: on buffers that hold an extracted sequence of length `n` with column gap 1 between
all consecutive points and one range step of 1 between the indices `s` and `s + 1`
(`5 ≤ s < n - 6`, range `a > 0` on one side and `a + 1` on the other),
`markOccludedPoints` returns and changes nothing but flags: when the range falls from
`a + 1` to `a` the flags of `s - 5, ..., s` are set to 1 and every other flag is left as
it was; when it rises from `a` to `a + 1` the flags of `s + 1, ..., s + 6` are set to 1 and
every other flag is left as it was. -/
theorem markOccludedPoints_step (fe : FeatureExtract) (ha : PointsAllocated fe) (s : Int)
    (a : ℚ) (hs5 : 5 ≤ s) (hsn : s < fe.extractedCloud.size - 6) (hpos : 0 < a)
    (hcol : ∀ i : Int, 0 ≤ i → i + 1 < fe.extractedCloud.size →
      |fe.cloudInfo.pointColInd.data (i + 1) - fe.cloudInfo.pointColInd.data i| = 1) :
    ((∀ i : Int, 0 ≤ i → i < fe.extractedCloud.size →
        fe.cloudInfo.pointRange.data i = if i ≤ s then a + 1 else a) →
      ∃ fe', markOccludedPoints fe = some fe' ∧
        fe' = { fe with cloudNeighborPicked := fe'.cloudNeighborPicked } ∧
        ∀ m : Int, fe'.cloudNeighborPicked.data m =
          if s - 5 ≤ m ∧ m ≤ s then 1 else fe.cloudNeighborPicked.data m) ∧
    ((∀ i : Int, 0 ≤ i → i < fe.extractedCloud.size →
        fe.cloudInfo.pointRange.data i = if i ≤ s then a else a + 1) →
      ∃ fe', markOccludedPoints fe = some fe' ∧
        fe' = { fe with cloudNeighborPicked := fe'.cloudNeighborPicked } ∧
        ∀ m : Int, fe'.cloudNeighborPicked.data m =
          if s + 1 ≤ m ∧ m ≤ s + 6 then 1 else fe.cloudNeighborPicked.data m) := by
  obtain ⟨fe', hrun, hocc⟩ := markOccludedPoints_spec fe ha
  have hmax : max 5 (fe.extractedCloud.size - 6) = fe.extractedCloud.size - 6 :=
    max_eq_right (by omega)
  rw [hmax] at hocc
  constructor
  · intro hr
    refine ⟨fe', hrun, hocc.frame, ?_⟩
    intro m
    have key : ∀ i : Int, 5 ≤ i → i < fe.extractedCloud.size - 6 →
        (occludes fe.cloudInfo.pointRange.data fe.cloudInfo.pointColInd.data i m ↔
          (i = s ∧ ((float32 (a + 1 - a) > float64 (3 / 10) ∧ i - 5 ≤ m ∧ m ≤ i) ∨
            (float32 (a - (a + 1)) > float64 (3 / 10) ∧ i + 1 ≤ m ∧ m ≤ i + 6)))) :=
      fun i h5 hi => occludes_step (by linarith) hpos hr hcol h5 hi m
    by_cases hw : s - 5 ≤ m ∧ m ≤ s
    · rw [if_pos hw]
      exact hocc.marked m ⟨s, hs5, hsn,
        (key s hs5 hsn).mpr ⟨rfl, Or.inl ⟨(float32_unit_step a).1, hw⟩⟩⟩
    · rw [if_neg hw]
      apply hocc.kept m
      rintro ⟨i, h5, hi, ho⟩
      rcases (key i h5 hi).mp ho with ⟨rfl, ⟨_, hm⟩ | ⟨h, _⟩⟩
      · exact hw hm
      · exact (float32_unit_step a).2 h
  · intro hr
    refine ⟨fe', hrun, hocc.frame, ?_⟩
    intro m
    have key : ∀ i : Int, 5 ≤ i → i < fe.extractedCloud.size - 6 →
        (occludes fe.cloudInfo.pointRange.data fe.cloudInfo.pointColInd.data i m ↔
          (i = s ∧ ((float32 (a - (a + 1)) > float64 (3 / 10) ∧ i - 5 ≤ m ∧ m ≤ i) ∨
            (float32 (a + 1 - a) > float64 (3 / 10) ∧ i + 1 ≤ m ∧ m ≤ i + 6)))) :=
      fun i h5 hi => occludes_step hpos (by linarith) hr hcol h5 hi m
    by_cases hw : s + 1 ≤ m ∧ m ≤ s + 6
    · rw [if_pos hw]
      exact hocc.marked m ⟨s, hs5, hsn,
        (key s hs5 hsn).mpr ⟨rfl, Or.inr ⟨(float32_unit_step a).1, hw⟩⟩⟩
    · rw [if_neg hw]
      apply hocc.kept m
      rintro ⟨i, h5, hi, ho⟩
      rcases (key i h5 hi).mp ho with ⟨rfl, ⟨h, _⟩ | ⟨_, hm⟩⟩
      · exact (float32_unit_step a).2 h
      · exact hw hm

theorem fallRanges_allocated : PointsAllocated fallRanges := by
  constructor <;> decide

/-- Witness of C15: 14 points at the columns `0, ..., 13` with a step between the indices 6
and 7; rising from 2 to 3 (`stepRanges`) it sets the flags of `7, ..., 12`, falling from 3
to 2 (`fallRanges`) it sets the flags of `1, ..., 6`. -/
theorem markOccludedPoints_step_witness :
    (PointsAllocated stepRanges ∧ (5 : Int) ≤ 6 ∧ 6 < stepRanges.extractedCloud.size - 6 ∧
      ∃ fe', markOccludedPoints stepRanges = some fe' ∧
        fe' = { stepRanges with cloudNeighborPicked := fe'.cloudNeighborPicked } ∧
        ∀ m : Int, fe'.cloudNeighborPicked.data m =
          if 6 + 1 ≤ m ∧ m ≤ 6 + 6 then 1 else stepRanges.cloudNeighborPicked.data m) ∧
    (PointsAllocated fallRanges ∧
      ∃ fe', markOccludedPoints fallRanges = some fe' ∧
        fe' = { fallRanges with cloudNeighborPicked := fe'.cloudNeighborPicked } ∧
        ∀ m : Int, fe'.cloudNeighborPicked.data m =
          if 6 - 5 ≤ m ∧ m ≤ 6 then 1 else fallRanges.cloudNeighborPicked.data m) := by
  have hsize : (6 : Int) < stepRanges.extractedCloud.size - 6 := by decide
  have hsize2 : (6 : Int) < fallRanges.extractedCloud.size - 6 := by decide
  have hcol : ∀ i : Int, 0 ≤ i → i + 1 < stepRanges.extractedCloud.size →
      |stepRanges.cloudInfo.pointColInd.data (i + 1) -
        stepRanges.cloudInfo.pointColInd.data i| = 1 := by
    intro i _ _
    show |(i + 1) - i| = 1
    rw [add_sub_cancel_left]
    rfl
  have hrise : ∀ i : Int, 0 ≤ i → i < stepRanges.extractedCloud.size →
      stepRanges.cloudInfo.pointRange.data i = if i ≤ 6 then (2 : ℚ) else 2 + 1 := by
    intro i _ _
    show (if i < 7 then (2 : ℚ) else 3) = if i ≤ 6 then (2 : ℚ) else 2 + 1
    by_cases h : i < 7
    · rw [if_pos h, if_pos (by omega)]
    · rw [if_neg h, if_neg (by omega)]; norm_num
  have hfall : ∀ i : Int, 0 ≤ i → i < fallRanges.extractedCloud.size →
      fallRanges.cloudInfo.pointRange.data i = if i ≤ 6 then (2 : ℚ) + 1 else 2 := by
    intro i _ _
    show (if i < 7 then (3 : ℚ) else 2) = if i ≤ 6 then (2 : ℚ) + 1 else 2
    by_cases h : i < 7
    · rw [if_pos h, if_pos (by omega)]; norm_num
    · rw [if_neg h, if_neg (by omega)]
  exact ⟨⟨stepRanges_allocated, by decide, hsize,
      (markOccludedPoints_step stepRanges stepRanges_allocated 6 2 (by decide) hsize
        (by norm_num) hcol).2 hrise⟩,
    ⟨fallRanges_allocated,
      (markOccludedPoints_step fallRanges fallRanges_allocated 6 2 (by decide) hsize2
        (by norm_num) hcol).1 hfall⟩⟩

/-- C16 (code bug): two leaks.  On the fresh object `twoRingNode` the callback returns for
the frame `kinkFrame` with one record published, and leaves `startRingIndex` with length 0;
the callback on the same frame after that faults with an access out of bounds, where the
fresh object returned.  And on the frame `fortyFrame` the objects `flaggedNode` and
`labelledNode`, which differ in the prior content of `cloudLabel[4]` alone, hand over
surface clouds of 30 and of 29 candidates (before downsampling, which `axisEnv` leaves
out). -/
theorem cloudHandler_state_leak :
    (cloudHandler (axisEnv 40) twoRingNode kinkFrame).toOption.map
        (fun n => (n.published.length, n.fe.cloudInfo.startRingIndex.size)) = some (1, 0) ∧
      (cloudHandler (axisEnv 40) twoRingNode kinkFrame).toOption.bind
        (fun n => faultOf (cloudHandler (axisEnv 40) n kinkFrame)) =
        some Fault.outOfBounds ∧
      (cloudHandler (axisEnv 40) flaggedNode fortyFrame).toOption.map
        (fun n => n.published.map (fun p => p.cloud_surface.length)) = some [30] ∧
      (cloudHandler (axisEnv 40) labelledNode fortyFrame).toOption.map
        (fun n => n.published.map (fun p => p.cloud_surface.length)) = some [29] := by
  refine ⟨?_, ?_, ?_, ?_⟩ <;> decide!

/-- Counterexample to C17 as stated: for the frame `kinkFrame` on the fresh object
`twoRingNode`, with `N_SCAN = 2` and 41 extracted points, the one record published carries
four arrays of length 0. -/
theorem publishFeatureCloud_arrays_counterexample :
    twoRingNode.fe.N_SCAN = 2 ∧
      (cloudHandler (axisEnv 40) twoRingNode kinkFrame).toOption.map
        (fun n => n.published.map (fun p =>
          (p.fullPoints.size, p.info.startRingIndex.size, p.info.endRingIndex.size,
            p.info.pointColInd.size, p.info.pointRange.size))) = some [(41, 0, 0, 0, 0)] := by
  constructor <;> decide!

/-- C17 (amended): `publishFeatureCloud` publishes one record; its four arrays
`startRingIndex`, `endRingIndex`, `pointColInd` and `pointRange` have length 0, for the
method clears them before it publishes, and it carries the corner cloud, the surface cloud
and the extracted cloud of the object; the arrays of the object have length 0 afterwards. -/
theorem publishFeatureCloud_record (node : Node) :
    ∃ p : Published, (publishFeatureCloud node).published = node.published ++ [p] ∧
      p.info.startRingIndex.size = 0 ∧ p.info.endRingIndex.size = 0 ∧
      p.info.pointColInd.size = 0 ∧ p.info.pointRange.size = 0 ∧
      p.cloud_corner = node.fe.cornerCloud ∧ p.cloud_surface = node.fe.surfaceCloud ∧
      p.fullPoints = node.fe.extractedCloud ∧
      (publishFeatureCloud node).fe.cloudInfo = p.info :=
  ⟨_, rfl, rfl, rfl, rfl, rfl, rfl, rfl, rfl, rfl⟩

/-- C18 (code bug): on the fresh object `twoRingNode`, for the frame `nonDenseFrame` and
for the frame `ringlessFrame`, `cachePointCloud` requests the shutdown and returns true,
and the callback runs the stages and `publishFeatureCloud`: one record is published, with
1 corner point, 29 surface candidates (before downsampling, which `axisEnv` leaves out) and
41 extracted points. -/
theorem cachePointCloud_fatal_returns_true :
    (cachePointCloud twoRingNode nonDenseFrame).toOption.map
        (fun r => (r.1, r.2.shutdownRequested)) = some (true, true) ∧
      (cloudHandler (axisEnv 40) twoRingNode nonDenseFrame).toOption.map
        (fun n => n.published.map (fun p =>
          (p.cloud_corner.length, p.cloud_surface.length, p.fullPoints.size))) =
        some [(1, 29, 41)] ∧
      (cachePointCloud twoRingNode ringlessFrame).toOption.map
        (fun r => (r.1, r.2.shutdownRequested)) = some (true, true) ∧
      (cloudHandler (axisEnv 40) twoRingNode ringlessFrame).toOption.map
        (fun n => n.published.map (fun p =>
          (p.cloud_corner.length, p.cloud_surface.length, p.fullPoints.size))) =
        some [(1, 29, 41)] := by
  refine ⟨?_, ?_, ?_, ?_⟩ <;> decide!

/-- C23 (code bug): a frame of one point makes the `OUSTER` branch of `cachePointCloud`
read `points[size() - 2]`, outside the array, and the `ROBOSENSE` branch read `points[1]`;
the frame `kinkFrame` of 41 points makes the `ROBOSENSE` branch read `points[100]`.  The
`VELODYNE` and `LIVOX` branches return on the frame of one point. -/
theorem cachePointCloud_reads_outside :
    onePointFrame.points.size = 1 ∧ kinkFrame.points.size = 41 ∧
      faultOf (cachePointCloud (oneRingNode SensorType.OUSTER) onePointFrame) =
        some Fault.outOfBounds ∧
      faultOf (readPoint onePointFrame.points (onePointFrame.points.size - 2)) =
        some Fault.outOfBounds ∧
      faultOf (cachePointCloud (oneRingNode SensorType.ROBOSENSE) onePointFrame) =
        some Fault.outOfBounds ∧
      faultOf (readPoint onePointFrame.points 1) = some Fault.outOfBounds ∧
      faultOf (cachePointCloud (oneRingNode SensorType.ROBOSENSE) kinkFrame) =
        some Fault.outOfBounds ∧
      faultOf (readPoint kinkFrame.points 100) = some Fault.outOfBounds ∧
      faultOf (cachePointCloud (oneRingNode SensorType.VELODYNE) onePointFrame) = none ∧
      faultOf (cachePointCloud (oneRingNode SensorType.LIVOX) onePointFrame) = none := by
  refine ⟨by decide, by decide, ?_, ?_, ?_, ?_, ?_, ?_, ?_, ?_⟩ <;> decide!

theorem MarksKept.of_flags {fe0 fe fe' : FeatureExtract} (h : MarksKept fe0 fe)
    (hc : fe'.cloudCurvature = fe.cloudCurvature) (ht : fe'.edgeThreshold = fe.edgeThreshold)
    (hf : ∀ x, fe'.cloudNeighborPicked.data x = fe.cloudNeighborPicked.data x ∨
      fe'.cloudNeighborPicked.data x = 1)
    (hi : fe'.cornerInd = fe.cornerInd) : MarksKept fe0 fe' where
  curvature := hc.trans h.curvature
  threshold := ht.trans h.threshold
  flags := by
    intro m hm
    rcases hf m with e | e
    · rw [e]; exact h.flags m hm
    · rw [e]; decide
  corners := by
    rw [hi]; exact h.corners

/-- The corner scan keeps the invariant. -/
theorem cornerLoop_marksKept {fe0 fe fe' : FeatureExtract} {n0 n' : Int} (l : List Int)
    (hinv : MarksKept fe0 fe)
    (h : forLoopBreak cornerAt l (fe, n0) = some (fe', n')) : MarksKept fe0 fe' := by
  have key := forLoopBreak_inv cornerAt (fun s : FeatureExtract × Int => MarksKept fe0 s.1)
    l (fe, n0) (fe', n') hinv
    (by
      rintro ⟨s, n⟩ k ⟨s', m⟩ b _ hs hstep
      simp only at hs ⊢
      obtain ⟨hframe, _, hflags, hcase⟩ := cornerAt_effect hstep
      have ec : s'.cloudCurvature = s.cloudCurvature := by
        have e := congrArg FeatureExtract.cloudCurvature hframe; exact e
      have et : s'.edgeThreshold = s.edgeThreshold := by
        have e := congrArg FeatureExtract.edgeThreshold hframe; exact e
      rcases hcase with ⟨e1, _⟩ | ⟨rec, pt, _, hp0, hcv, e1, _⟩
      · exact hs.of_flags ec et hflags e1
      · refine ⟨ec.trans hs.curvature, et.trans hs.threshold, ?_, ?_⟩
        · intro x hx
          rcases hflags x with e | e
          · rw [e]; exact hs.flags x hx
          · rw [e]; decide
        · intro c hc
          rw [e1] at hc
          rcases List.mem_append.mp hc with hc | hc
          · exact hs.corners c hc
          · rw [List.mem_singleton] at hc
            subst hc
            constructor
            · by_contra hne
              exact hs.flags _ hne hp0
            · rw [← hs.curvature, ← hs.threshold]
              exact hcv)
    h
  exact key

/-- The surface scan keeps the invariant. -/
theorem surfaceLoop_marksKept {fe0 fe fe' : FeatureExtract} (l : List Int)
    (hinv : MarksKept fe0 fe) (h : forLoop surfaceAt l fe = some fe') : MarksKept fe0 fe' := by
  refine forLoop_inv surfaceAt (fun s => MarksKept fe0 s) l fe fe' hinv ?_ h
  intro s k s' _ hs hstep
  obtain ⟨hframe, hflags, _⟩ := surfaceAt_effect hstep
  have ec : s'.cloudCurvature = s.cloudCurvature := by
    have e := congrArg FeatureExtract.cloudCurvature hframe; exact e
  have et : s'.edgeThreshold = s.edgeThreshold := by
    have e := congrArg FeatureExtract.edgeThreshold hframe; exact e
  have ei : s'.cornerInd = s.cornerInd := by
    have e := congrArg FeatureExtract.cornerInd hframe; exact e
  exact hs.of_flags ec et hflags ei

/-- The last loop of a sector keeps the invariant. -/
theorem pushLoop_marksKept {fe0 fe fe' : FeatureExtract} (l : List Int)
    (hinv : MarksKept fe0 fe) (h : forLoop pushSurfaceAt l fe = some fe') :
    MarksKept fe0 fe' := by
  refine forLoop_inv pushSurfaceAt (fun s => MarksKept fe0 s) l fe fe' hinv ?_ h
  intro s k s' _ hs hstep
  obtain ⟨hframe, _⟩ := pushSurfaceAt_effect hstep
  have ec : s'.cloudCurvature = s.cloudCurvature := by
    have e := congrArg FeatureExtract.cloudCurvature hframe; exact e
  have et : s'.edgeThreshold = s.edgeThreshold := by
    have e := congrArg FeatureExtract.edgeThreshold hframe; exact e
  have ei : s'.cornerInd = s.cornerInd := by
    have e := congrArg FeatureExtract.cornerInd hframe; exact e
  have ep : s'.cloudNeighborPicked = s.cloudNeighborPicked := by
    have e := congrArg FeatureExtract.cloudNeighborPicked hframe; exact e
  exact hs.of_flags ec et (fun x => Or.inl (by rw [ep])) ei

/-- The six sectors of a ring keep the invariant. -/
theorem sectorLoop_marksKept {env : Collaborators} {fe0 fe fe' : FeatureExtract} {i : Int}
    (l : List Int) (hinv : MarksKept fe0 fe)
    (h : forLoop (sectorAt env i) l fe = some fe') : MarksKept fe0 fe' := by
  refine forLoop_inv (sectorAt env i) (fun s => MarksKept fe0 s) l fe fe' hinv ?_ h
  intro s j s' _ hs hstep
  obtain ⟨st, en, _, _, hcase⟩ := sectorAt_cases hstep
  rcases hcase with ⟨_, rfl⟩ | ⟨_, hproc⟩
  · exact hs
  · obtain ⟨cs, fe1, n1, fe2, _, hc, hsf, hpu⟩ := processSector_parts hproc
    have h0 : MarksKept fe0 { s with cloudSmoothness := cs } :=
      ⟨hs.curvature, hs.threshold, hs.flags, hs.corners⟩
    exact pushLoop_marksKept _ (surfaceLoop_marksKept _ (cornerLoop_marksKept _ h0 hc) hsf) hpu

/-- The run of `extractFeatures` keeps the invariant: an index flagged at its start is not
output as corner, and every index output as corner has a curvature above the edge
threshold. -/
theorem extractFeatures_marksKept {env : Collaborators} {fe fe' : FeatureExtract}
    (h : extractFeatures env fe = some fe') : MarksKept fe fe' := by
  unfold extractFeatures at h
  refine forLoop_inv (featuresOfRing env) (fun s => MarksKept fe s) _
    { fe with cornerCloud := [], surfaceCloud := [], surfaceCloudScan := [],
              cornerInd := [], surfaceInd := [] } fe'
    ⟨rfl, rfl, fun _ hm => hm, fun c hc => absurd hc (List.not_mem_nil c)⟩ ?_ h
  intro s i s' _ hs hstep
  unfold featuresOfRing at hstep
  cases hl : forLoop (sectorAt env i) (intRange 0 6) { s with surfaceCloudScan := [] } with
  | none => rw [hl] at hstep; exact absurd hstep (by simp)
  | some s1 =>
    rw [hl] at hstep
    simp only [Option.some.injEq] at hstep
    subst hstep
    have h0 : MarksKept fe { s with surfaceCloudScan := [] } :=
      ⟨hs.curvature, hs.threshold, hs.flags, hs.corners⟩
    have h1 := sectorLoop_marksKept _ h0 hl
    exact ⟨h1.curvature, h1.threshold, h1.flags, h1.corners⟩

/-- C21: for every scan on an allocated, reset object the four stages before
`extractFeatures` return, and whenever `extractFeatures` returns after them, every index it
appended to `cornerCloud` was marked by no iteration of `markOccludedPoints` (rules (a),
(b), (c) over `5 ≤ i < n - 6`), carried the flag 0 when `markOccludedPoints` returned, and
has a curvature strictly greater than `edgeThreshold`. -/
theorem extractFeatures_marks_persist (env : Collaborators) (fe : FeatureExtract)
    (ha : ScanAllocated fe) :
    ∃ fe4, prepareScan env fe = some fe4 ∧
      ∀ fe5, extractFeatures env fe4 = some fe5 →
        ∀ c ∈ fe5.cornerInd,
          (¬ ∃ i : Int, 5 ≤ i ∧ i < fe4.extractedCloud.size - 6 ∧
            occludes fe4.cloudInfo.pointRange.data fe4.cloudInfo.pointColInd.data i c) ∧
          fe4.cloudNeighborPicked.data c = 0 ∧
          fe5.cloudCurvature.data c > fe5.edgeThreshold := by
  obtain ⟨fe1, fe2, fe3, fe4, _, _, _, _, _, _, _, _, _, hocc, hrun⟩ :=
    prepareScan_spec env fe ha
  refine ⟨fe4, hrun, ?_⟩
  intro fe5 h5 c hc
  have hk := extractFeatures_marksKept h5
  obtain ⟨hp0, hcv⟩ := hk.corners c hc
  have eci : fe4.cloudInfo = fe3.cloudInfo := by
    have e := congrArg FeatureExtract.cloudInfo hocc.frame; exact e
  have eec : fe4.extractedCloud = fe3.extractedCloud := by
    have e := congrArg FeatureExtract.extractedCloud hocc.frame; exact e
  refine ⟨?_, hp0, ?_⟩
  · rintro ⟨i, h5i, hi, ho⟩
    rw [eci] at ho
    rw [eec] at hi
    have h1 := hocc.marked c ⟨i, h5i, lt_max_iff.mpr (Or.inr hi), ho⟩
    rw [hp0] at h1
    exact absurd h1 (by decide)
  · rw [hk.curvature, hk.threshold]
    exact hcv

/-- Witness of C21: the scan `kinkScan`; `extractFeatures` returns with the one corner
index 19, whose curvature is 4, above the edge threshold 1/10. -/
theorem extractFeatures_marks_persist_witness :
    ScanAllocated kinkScan ∧
      ((prepareScan (axisEnv 40) kinkScan).bind (extractFeatures (axisEnv 40))).map
        (fun fe => (fe.cornerInd, fe.cornerInd.map fe.cloudCurvature.data, fe.edgeThreshold)) =
        some ([19], [4], 1 / 10) ∧
      ∃ fe4, prepareScan (axisEnv 40) kinkScan = some fe4 ∧
        ∀ fe5, extractFeatures (axisEnv 40) fe4 = some fe5 →
          ∀ c ∈ fe5.cornerInd,
            (¬ ∃ i : Int, 5 ≤ i ∧ i < fe4.extractedCloud.size - 6 ∧
              occludes fe4.cloudInfo.pointRange.data fe4.cloudInfo.pointColInd.data i c) ∧
            fe4.cloudNeighborPicked.data c = 0 ∧
            fe5.cloudCurvature.data c > fe5.edgeThreshold :=
  ⟨kinkScan_scan_allocated, by decide!,
    extractFeatures_marks_persist (axisEnv 40) kinkScan kinkScan_scan_allocated⟩

theorem ringCount_nil (env : Collaborators) (fe : FeatureExtract) (r : Int) :
    ringCount env fe r [] = 0 := rfl

theorem ringCount_nonneg (env : Collaborators) (fe : FeatureExtract) (r : Int)
    (pts : List PointType) : 0 ≤ ringCount env fe r pts := by
  unfold ringCount
  omega

theorem ringCount_append (env : Collaborators) (fe : FeatureExtract) (r : Int)
    (l1 l2 : List PointType) :
    ringCount env fe r (l1 ++ l2) = ringCount env fe r l1 + ringCount env fe r l2 := by
  unfold ringCount
  rw [List.filter_append, List.length_append]
  push_cast
  rfl

theorem ringCount_singleton (env : Collaborators) (fe : FeatureExtract) (r : Int)
    (p : PointType) :
    ringCount env fe r [p] =
      if passesFilters env fe p = true ∧ floatToInt p.normal_y = r then 1 else 0 := by
  unfold ringCount
  by_cases h : passesFilters env fe p = true ∧ floatToInt p.normal_y = r
  · rw [if_pos h]
    simp [List.filter_cons, h.1, h.2]
  · rw [if_neg h]
    have : (passesFilters env fe p && decide (floatToInt p.normal_y = r)) = false := by
      rw [Bool.and_eq_false_iff]
      by_cases h1 : passesFilters env fe p = true
      · right
        exact decide_eq_false (fun h2 => h ⟨h1, h2⟩)
      · left
        simpa using h1
    simp [List.filter_cons, this]

theorem ringCount_cons_le (env : Collaborators) (fe : FeatureExtract) (r : Int)
    (l1 l2 : List PointType) (q : PointType) (hq : passesFilters env fe q = true)
    (hr : floatToInt q.normal_y = r) :
    ringCount env fe r l1 + 1 ≤ ringCount env fe r (l1 ++ q :: l2) := by
  have e : l1 ++ q :: l2 = l1 ++ ([q] ++ l2) := by simp
  rw [e, ringCount_append, ringCount_append, ringCount_singleton, if_pos ⟨hq, hr⟩]
  have := ringCount_nonneg env fe r l2
  omega

/-- The `LIVOX` branch on a point that passes the filters: the counter of its ring goes up
by one, no other counter changes. -/
theorem projectPoint_counter (env : Collaborators) (s s' : FeatureExtract) (p : PointType)
    (ha : ProjectionAllocated s) (hl : s.sensor = SensorType.LIVOX)
    (hp : passesFilters env s p = true) (h : projectPoint env s p = some s') :
    s'.columnIdnCountVec.data = Function.update s.columnIdnCountVec.data
      (floatToInt p.normal_y) (s.columnIdnCountVec.data (floatToInt p.normal_y) + 1) := by
  unfold passesFilters at hp
  obtain ⟨h1, h2, h3, h4, h5⟩ := of_decide_eq_true hp
  have hsz := ha.counters
  unfold projectPoint at h
  simp only [] at h
  rw [if_neg (by rintro (h | h) <;> linarith), if_neg (by rintro (h | h) <;> omega),
    if_neg ha.rate, if_neg (by simp [h5])] at h
  unfold columnIdnOf at h
  rw [if_pos hl, Buf.get_of_lt _ _ h3 (by omega)] at h
  simp only [] at h
  rw [Buf.set_of_lt _ _ _ h3 (by omega)] at h
  simp only [] at h
  split at h
  · simp only [Option.some.injEq] at h
    subst h; rfl
  · split at h
    · exact absurd h (by simp)
    · split at h
      · simp only [Option.some.injEq] at h
        subst h; rfl
      · split at h
        · exact absurd h (by simp)
        · split at h
          · exact absurd h (by simp)
          · simp only [Option.some.injEq] at h
            subst h; rfl

theorem passesFilters_sameGrid (env : Collaborators) {fe0 s : FeatureExtract}
    (h : SameGrid fe0 s) (p : PointType) : passesFilters env s p = passesFilters env fe0 p := by
  obtain ⟨cN, _, cD, cMin, cMax, _, _⟩ := h.config
  unfold passesFilters
  rw [cN, cD, cMin, cMax]

/-- The cell of a point that passes the filters, for `LIVOX`: its ring and the counter of
its ring, if the counter is a column of the grid. -/
theorem targetCell_livox (env : Collaborators) (s : FeatureExtract) (p : PointType)
    (hl : s.sensor = SensorType.LIVOX) (hp : passesFilters env s p = true) :
    targetCell env s p =
      if 0 ≤ s.columnIdnCountVec.data (floatToInt p.normal_y) ∧
          s.columnIdnCountVec.data (floatToInt p.normal_y) < s.Horizon_SCAN then
        some (floatToInt p.normal_y, s.columnIdnCountVec.data (floatToInt p.normal_y))
      else none := by
  unfold passesFilters at hp
  unfold targetCell
  simp only []
  rw [if_pos (of_decide_eq_true hp), if_pos hl]

/-- A point that does not pass the filters leaves the state as it is. -/
theorem projectPoint_not_passes (env : Collaborators) (s : FeatureExtract) (p : PointType)
    (hd : s.downsampleRate ≠ 0) (hp : passesFilters env s p = false) :
    projectPoint env s p = some s := by
  apply projectPoint_filtered env s p hd
  unfold passesFilters at hp
  have h := of_decide_eq_false hp
  by_contra hcon
  push_neg at hcon
  exact h ⟨hcon.1, hcon.2.1, hcon.2.2.1, hcon.2.2.2.1, hcon.2.2.2.2⟩

theorem Sequential.snoc_skip {env : Collaborators} {fe0 s : FeatureExtract}
    {pre : List PointType} {p : PointType} (h : Sequential env fe0 pre s)
    (hp : passesFilters env fe0 p = false) : Sequential env fe0 (pre ++ [p]) s := by
  have hcount : ∀ r, ringCount env fe0 r (pre ++ [p]) = ringCount env fe0 r pre := by
    intro r
    rw [ringCount_append, ringCount_singleton, if_neg (by rw [hp]; simp), add_zero]
  refine ⟨?_, ?_, ?_⟩
  · intro r h0 h1
    rw [hcount]; exact h.counters r h0 h1
  · intro r c
    rw [hcount]; exact h.cells r c
  · intro pre1 q pre2 e hq hk
    rcases snoc_eq_append_cons e with ⟨_, _, rfl⟩ | ⟨l, _, rfl⟩
    · rw [hp] at hq
      exact absurd hq (by decide)
    · exact h.stored pre1 q l rfl hq hk

/-- The loop of `projectPointCloud` of a reset `LIVOX` object returns after any points and
keeps the sequential column policy. -/
theorem projectLoop_sequential (env : Collaborators) (fe0 : FeatureExtract)
    (ha : ProjectionAllocated fe0) (hl : fe0.sensor = SensorType.LIVOX)
    (hreset : ∀ r c, fe0.rangeMat.data r c = FLT_MAX)
    (hzero : ∀ r, fe0.columnIdnCountVec.data r = 0)
    (pre : List PointType) (hsent : ∀ p ∈ pre, env.pointDistance p ≠ FLT_MAX) :
    ∃ s, forLoop (projectPoint env) pre fe0 = some s ∧ SameGrid fe0 s ∧
      Sequential env fe0 pre s := by
  induction pre using List.reverseRecOn with
  | nil =>
    refine ⟨fe0, rfl, SameGrid.same fe0, ?_, ?_, ?_⟩
    · intro r _ _
      rw [hzero r, ringCount_nil]
    · intro r c
      rw [ringCount_nil]
      constructor
      · intro h
        exact absurd (hreset r c) h
      · rintro ⟨_, h1, h2, _⟩
        omega
    · intro pre1 q pre2 e
      exact absurd e (by simp)
  | append_singleton pre p ih =>
    obtain ⟨s, hrun, hsg, hseq⟩ := ih (fun q hq => hsent q (by simp [hq]))
    have hpd : env.pointDistance p ≠ FLT_MAX := hsent p (by simp)
    have has := ha.of_sameGrid hsg
    obtain ⟨cN, cH, cD, _, _, cS, _⟩ := hsg.config
    obtain ⟨s', hstep, hsg', hnone, hsome⟩ := projectPoint_spec env s p has
    rw [thisPointOf_eq] at hsome
    have hrun' : forLoop (projectPoint env) (pre ++ [p]) fe0 = some s' := by
      rw [forLoop_snoc, hrun]; exact hstep
    cases hp : passesFilters env fe0 p with
    | false =>
      have hsame := projectPoint_not_passes env s p has.rate
        (by rw [passesFilters_sameGrid env hsg, hp])
      rw [hsame] at hstep
      simp only [Option.some.injEq] at hstep
      subst hstep
      exact ⟨s, hrun', hsg, hseq.snoc_skip hp⟩
    | true =>
      have hps : passesFilters env s p = true := by rw [passesFilters_sameGrid env hsg, hp]
      have hcond := hp
      unfold passesFilters at hcond
      obtain ⟨_, _, hr0, hr1, _⟩ := of_decide_eq_true hcond
      have hk := hseq.counters _ hr0 hr1
      have hk0 := ringCount_nonneg env fe0 (floatToInt p.normal_y) pre
      have hcnt := projectPoint_counter env s s' p has (cS.trans hl) hps hstep
      have ht := targetCell_livox env s p (cS.trans hl) hps
      rw [hk, cH] at ht
      -- the counts after the point
      have hcount : ∀ r, ringCount env fe0 r (pre ++ [p]) =
          if floatToInt p.normal_y = r then ringCount env fe0 r pre + 1
          else ringCount env fe0 r pre := by
        intro r
        rw [ringCount_append, ringCount_singleton]
        by_cases hr : floatToInt p.normal_y = r
        · rw [if_pos ⟨hp, hr⟩, if_pos hr]
        · rw [if_neg (fun h => hr h.2), if_neg hr, add_zero]
      have hcounters : ∀ r : Int, 0 ≤ r → r < fe0.N_SCAN →
          s'.columnIdnCountVec.data r = ringCount env fe0 r (pre ++ [p]) := by
        intro r h0 h1
        rw [hcnt, hcount r]
        by_cases hr : floatToInt p.normal_y = r
        · subst hr
          rw [if_pos rfl, Function.update_same, hk]
        · rw [if_neg hr, Function.update_noteq (fun h => hr h.symm)]
          exact hseq.counters r h0 h1
      refine ⟨s', hrun', hsg.then hsg', hcounters, ?_, ?_⟩
      · -- the non-empty cells
        intro r c
        rw [hcount r]
        by_cases hlt : ringCount env fe0 (floatToInt p.normal_y) pre < fe0.Horizon_SCAN
        · rw [if_pos ⟨hk0, hlt⟩] at ht
          obtain ⟨_, _, hempty⟩ := hsome _ _ ht
          have hcur : s.rangeMat.data (floatToInt p.normal_y)
              (ringCount env fe0 (floatToInt p.normal_y) pre) = FLT_MAX := by
            by_contra hne
            have := (hseq.cells _ _).mp hne
            omega
          obtain ⟨hrm, _⟩ := hempty hcur
          rw [hrm]
          by_cases hr : r = floatToInt p.normal_y
          · subst hr
            rw [if_pos rfl, Function.update_same]
            by_cases hc : c = ringCount env fe0 (floatToInt p.normal_y) pre
            · subst hc
              rw [Function.update_same]
              constructor
              · intro _
                exact ⟨⟨hr0, hr1⟩, hk0, by omega, hlt⟩
              · intro _
                exact hpd
            · rw [Function.update_noteq hc, hseq.cells]
              constructor
              · rintro ⟨h1, h2, h3, h4⟩
                exact ⟨h1, h2, by omega, h4⟩
              · rintro ⟨h1, h2, h3, h4⟩
                exact ⟨h1, h2, by omega, h4⟩
          · rw [if_neg (fun h => hr h.symm), Function.update_noteq hr]
            exact hseq.cells r c
        · rw [if_neg (fun h => hlt h.2)] at ht
          obtain ⟨hrm, _⟩ := hnone ht
          rw [hrm, hseq.cells]
          by_cases hr : floatToInt p.normal_y = r
          · subst hr
            rw [if_pos rfl]
            constructor
            · rintro ⟨h1, h2, h3, h4⟩
              exact ⟨h1, h2, by omega, h4⟩
            · rintro ⟨h1, h2, h3, h4⟩
              exact ⟨h1, h2, by omega, h4⟩
          · rw [if_neg hr]
      · -- the stored points
        intro pre1 q pre2 e hq hkq
        rcases snoc_eq_append_cons e with ⟨_, rfl, rfl⟩ | ⟨l, _, rfl⟩
        · rw [if_pos ⟨hk0, hkq⟩] at ht
          obtain ⟨_, _, hempty⟩ := hsome _ _ ht
          have hcur : s.rangeMat.data (floatToInt q.normal_y)
              (ringCount env fe0 (floatToInt q.normal_y) pre1) = FLT_MAX := by
            by_contra hne
            have := (hseq.cells _ _).mp hne
            omega
          obtain ⟨hrm, hfc⟩ := hempty hcur
          rw [hrm, hfc, cH]
          simp
        · obtain ⟨o1, o2⟩ := hseq.stored pre1 q l rfl hq hkq
          have hq0 := ringCount_nonneg env fe0 (floatToInt q.normal_y) pre1
          by_cases hlt : ringCount env fe0 (floatToInt p.normal_y) (pre1 ++ q :: l) <
              fe0.Horizon_SCAN
          · rw [if_pos ⟨hk0, hlt⟩] at ht
            obtain ⟨_, _, hempty⟩ := hsome _ _ ht
            have hcur : s.rangeMat.data (floatToInt p.normal_y)
                (ringCount env fe0 (floatToInt p.normal_y) (pre1 ++ q :: l)) = FLT_MAX := by
              by_contra hne
              have := (hseq.cells _ _).mp hne
              omega
            obtain ⟨hrm, hfc⟩ := hempty hcur
            have hcell : ¬ (floatToInt q.normal_y = floatToInt p.normal_y ∧
                ringCount env fe0 (floatToInt q.normal_y) pre1 =
                  ringCount env fe0 (floatToInt p.normal_y) (pre1 ++ q :: l)) := by
              rintro ⟨e1, e2⟩
              have := ringCount_cons_le env fe0 (floatToInt p.normal_y) pre1 l q hq e1
              rw [e1] at e2
              omega
            have e1 : s'.rangeMat.data (floatToInt q.normal_y)
                (ringCount env fe0 (floatToInt q.normal_y) pre1) =
                s.rangeMat.data (floatToInt q.normal_y)
                  (ringCount env fe0 (floatToInt q.normal_y) pre1) := by
              rw [hrm]
              by_cases hr : floatToInt q.normal_y = floatToInt p.normal_y
              · rw [hr, Function.update_same,
                  Function.update_noteq (fun h => hcell ⟨hr, by rw [hr]; exact h⟩)]
              · rw [Function.update_noteq hr]
            have e2 : s'.fullCloud.data (ringCount env fe0 (floatToInt q.normal_y) pre1 +
                floatToInt q.normal_y * fe0.Horizon_SCAN) =
                s.fullCloud.data (ringCount env fe0 (floatToInt q.normal_y) pre1 +
                  floatToInt q.normal_y * fe0.Horizon_SCAN) := by
              rw [hfc, cH]
              apply Function.update_noteq
              intro h
              obtain ⟨a1, a2⟩ := cell_index_inj ⟨hq0, hkq⟩ ⟨hk0, hlt⟩ h
              exact hcell ⟨a1, a2⟩
            exact ⟨e1.trans o1, e2.trans o2⟩
          · rw [if_neg (fun h => hlt h.2)] at ht
            obtain ⟨hrm, hfc⟩ := hnone ht
            rw [hrm, hfc]
            exact ⟨o1, o2⟩

/-- C22: sequential column policy.  On allocated buffers, from a reset state (empty range
image, counters 0), with `sensor = LIVOX` and no input point at the sentinel range
`FLT_MAX`, `projectPointCloud` returns, so no access is out of bounds, and: (1) an input
point `p` of ring `r` that passes the range, ring and decimation filters after `k` such
points of its ring is assigned column `k`, the counter of its ring at that moment; with
`k ≥ Horizon_SCAN` it changes neither the range image nor the full-grid buffer, with
`k < Horizon_SCAN` the final cell `(r, k)` holds its range and the full-grid buffer holds
`p` at `k + r * Horizon_SCAN`, so no other point took its cell; (2) the non-empty cells of
ring `r` are exactly the columns `0 ≤ c < min m Horizon_SCAN`, where `m` is the number of
the points of ring `r` that pass the filters; (3) the final counter of ring `r` is `m`. -/
theorem projectPointCloud_sequential_columns (env : Collaborators) (fe : FeatureExtract)
    (ha : ProjectionAllocated fe) (hl : fe.sensor = SensorType.LIVOX)
    (hreset : ∀ r c, fe.rangeMat.data r c = FLT_MAX)
    (hzero : ∀ r, fe.columnIdnCountVec.data r = 0)
    (hsent : ∀ p ∈ fe.inputCloud, env.pointDistance p ≠ FLT_MAX) :
    ∃ fe', projectPointCloud env fe = some fe' ∧
      (∀ pre p post, fe.inputCloud = pre ++ p :: post → passesFilters env fe p = true →
        ∃ s s', forLoop (projectPoint env) pre fe = some s ∧
          projectPoint env s p = some s' ∧
          s.columnIdnCountVec.data (floatToInt p.normal_y) =
            ringCount env fe (floatToInt p.normal_y) pre ∧
          (ringCount env fe (floatToInt p.normal_y) pre ≥ fe.Horizon_SCAN →
            s'.rangeMat = s.rangeMat ∧ s'.fullCloud = s.fullCloud) ∧
          (ringCount env fe (floatToInt p.normal_y) pre < fe.Horizon_SCAN →
            fe'.rangeMat.data (floatToInt p.normal_y)
                (ringCount env fe (floatToInt p.normal_y) pre) = env.pointDistance p ∧
              fe'.fullCloud.data (ringCount env fe (floatToInt p.normal_y) pre +
                floatToInt p.normal_y * fe.Horizon_SCAN) = p)) ∧
      (∀ r c : Int, fe'.rangeMat.data r c ≠ FLT_MAX ↔
        ((0 ≤ r ∧ r < fe.N_SCAN) ∧ 0 ≤ c ∧
          c < min (ringCount env fe r fe.inputCloud) fe.Horizon_SCAN)) ∧
      (∀ r : Int, 0 ≤ r → r < fe.N_SCAN →
        fe'.columnIdnCountVec.data r = ringCount env fe r fe.inputCloud) := by
  obtain ⟨fe', hrun, _, hseq⟩ :=
    projectLoop_sequential env fe ha hl hreset hzero fe.inputCloud hsent
  refine ⟨fe', hrun, ?_, ?_, hseq.counters⟩
  · intro pre p post hsplit hp
    obtain ⟨s, hs, hsg, hpre⟩ := projectLoop_sequential env fe ha hl hreset hzero pre
      (fun q hq => hsent q (by rw [hsplit]; simp [hq]))
    obtain ⟨_, cH, _, _, _, cS, _⟩ := hsg.config
    obtain ⟨s', hstep, _, hnone, _⟩ := projectPoint_spec env s p (ha.of_sameGrid hsg)
    have hcond := hp
    unfold passesFilters at hcond
    obtain ⟨_, _, hr0, hr1, _⟩ := of_decide_eq_true hcond
    have hk := hpre.counters _ hr0 hr1
    refine ⟨s, s', hs, hstep, hk, ?_, ?_⟩
    · intro hge
      apply hnone
      rw [targetCell_livox env s p (cS.trans hl) (by rw [passesFilters_sameGrid env hsg, hp]),
        hk, cH, if_neg (fun h => absurd h.2 (by omega))]
    · intro hlt
      exact hseq.stored pre p post hsplit hp hlt
  · intro r c
    rw [hseq.cells r c, lt_min_iff]

theorem overfullRing_allocated : ProjectionAllocated overfullRing := by
  constructor <;> decide

/-- Witness of C22: 14 points of ring 0 on a `LIVOX` object with one ring of 12 columns;
column `k` holds the range `2 + k` of point `k` for `k < 12`, the points 12 and 13 are
dropped and the counter ends at 14. -/
theorem projectPointCloud_sequential_columns_witness :
    ProjectionAllocated overfullRing ∧ overfullRing.sensor = SensorType.LIVOX ∧
      (∀ p ∈ overfullRing.inputCloud, (axisEnv 12).pointDistance p ≠ FLT_MAX) ∧
      (projectPointCloud (axisEnv 12) overfullRing).map
        (fun fe => ((intRange 0 12).map (fe.rangeMat.data 0), fe.columnIdnCountVec.data 0)) =
        some ([2, 3, 4, 5, 6, 7, 8, 9, 10, 11, 12, 13], 14) ∧
      ringCount (axisEnv 12) overfullRing 0 overfullRing.inputCloud = 14 ∧
      ∃ fe', projectPointCloud (axisEnv 12) overfullRing = some fe' ∧
        (∀ r c : Int, fe'.rangeMat.data r c ≠ FLT_MAX ↔
          ((0 ≤ r ∧ r < overfullRing.N_SCAN) ∧ 0 ≤ c ∧
            c < min (ringCount (axisEnv 12) overfullRing r overfullRing.inputCloud)
              overfullRing.Horizon_SCAN)) ∧
        (∀ r : Int, 0 ≤ r → r < overfullRing.N_SCAN →
          fe'.columnIdnCountVec.data r =
            ringCount (axisEnv 12) overfullRing r overfullRing.inputCloud) := by
  have hsent : ∀ p ∈ overfullRing.inputCloud, (axisEnv 12).pointDistance p ≠ FLT_MAX := by
    decide!
  obtain ⟨fe', h1, _, h3, h4⟩ := projectPointCloud_sequential_columns (axisEnv 12)
    overfullRing overfullRing_allocated rfl (fun _ _ => rfl) (fun _ => rfl) hsent
  exact ⟨overfullRing_allocated, rfl, hsent, by decide!, by decide!, fe', h1, h3, h4⟩

theorem FloatMat.at_ofMat (m : Mat) (r c : Int) :
    (FloatMat.ofMat m).at r c = (m.at r c).map RangeValue.num := by
  unfold FloatMat.at Mat.at FloatMat.ofMat
  simp only []
  split <;> rfl

theorem FloatMat.set_ofMat (m : Mat) (r c : Int) (v : ℚ) :
    (FloatMat.ofMat m).set r c (RangeValue.num v) = (m.set r c v).map FloatMat.ofMat := by
  unfold FloatMat.set Mat.set FloatMat.ofMat
  simp only []
  split
  · simp only [Option.map_some', Option.some.injEq, FloatMat.mk.injEq, true_and]
    funext a b
    by_cases ha : a = r
    · subst ha
      by_cases hb : b = c
      · subst hb; simp
      · simp [Function.update_noteq hb]
    · simp [Function.update_noteq ha]
  · rfl

/-- The column step leaves the range image of the object as it is. -/
theorem columnIdnOf_rangeMat {env : Collaborators} {fe fe1 : FeatureExtract}
    {pt : PointType} {r c : Int} (h : columnIdnOf env fe pt r = some (c, fe1)) :
    fe1 = { fe1 with rangeMat := fe.rangeMat } := by
  unfold columnIdnOf at h
  split at h
  · split at h
    · exact absurd h (by simp)
    · split at h
      · exact absurd h (by simp)
      · simp only [Option.some.injEq, Prod.mk.injEq] at h
        rw [← h.2]
  · simp only [Option.some.injEq, Prod.mk.injEq] at h
    rw [← h.2]

/-- On a range that is a number `projectPointNaN` is `projectPoint`: from the object `fe`
and its range image it returns the object that `projectPoint` returns, the unused member
`rangeMat` apart, and the range image of that object. -/
theorem projectPointNaN_num (env : Collaborators) (fe : FeatureExtract) (p : PointType) :
    projectPointNaN env (RangeValue.num (env.pointDistance (thisPointOf p)))
        (fe, FloatMat.ofMat fe.rangeMat) p =
      (projectPoint env fe p).map
        (fun fe' => ({ fe' with rangeMat := fe.rangeMat }, FloatMat.ofMat fe'.rangeMat)) := by
  unfold projectPointNaN projectPoint
  simp only [RangeValue.lt, RangeValue.gt, decide_eq_true_eq]
  by_cases h1 : env.pointDistance (thisPointOf p) < fe.lidarMinRange ∨
      env.pointDistance (thisPointOf p) > fe.lidarMaxRange
  · rw [if_pos h1, if_pos h1]; rfl
  rw [if_neg h1, if_neg h1]
  by_cases h2 : floatToInt p.normal_y < 0 ∨ floatToInt p.normal_y ≥ fe.N_SCAN
  · rw [if_pos h2, if_pos h2]; rfl
  rw [if_neg h2, if_neg h2]
  by_cases h3 : fe.downsampleRate = 0
  · rw [if_pos h3, if_pos h3]; rfl
  rw [if_neg h3, if_neg h3]
  by_cases h4 : Int.tmod (floatToInt p.normal_y) fe.downsampleRate ≠ 0
  · rw [if_pos h4, if_pos h4]; rfl
  rw [if_neg h4, if_neg h4]
  cases hcol : columnIdnOf env fe (thisPointOf p) (floatToInt p.normal_y) with
  | none => rfl
  | some res =>
    obtain ⟨c, fe1⟩ := res
    have hfe1 := columnIdnOf_rangeMat hcol
    have hrm : fe1.rangeMat = fe.rangeMat := by
      have e := congrArg FeatureExtract.rangeMat hfe1; exact e
    simp only []
    by_cases h5 : c < 0 ∨ c ≥ fe1.Horizon_SCAN
    · rw [if_pos h5, if_pos h5]
      simp only [Option.map_some', Option.some.injEq, Prod.mk.injEq]
      exact ⟨hfe1, by rw [hrm]⟩
    rw [if_neg h5, if_neg h5, FloatMat.at_ofMat, hrm]
    cases hat : fe.rangeMat.at (floatToInt p.normal_y) c with
    | none => rfl
    | some cur =>
      simp only [Option.map_some', RangeValue.ne, decide_eq_true_eq]
      by_cases h6 : cur ≠ FLT_MAX
      · rw [if_pos h6, if_pos h6]
        simp only [Option.map_some', Option.some.injEq, Prod.mk.injEq]
        exact ⟨hfe1, by rw [hrm]⟩
      rw [if_neg h6, if_neg h6, FloatMat.set_ofMat]
      cases hset : fe.rangeMat.set (floatToInt p.normal_y) c
          (env.pointDistance (thisPointOf p)) with
      | none => rfl
      | some rm =>
        simp only [Option.map_some']
        cases fe1.fullCloud.set (c + floatToInt p.normal_y * fe1.Horizon_SCAN)
            (thisPointOf p) with
        | none => rfl
        | some fc => rfl

/-- C6 (code bug): on the fresh `VELODYNE` object `nanScan` (limits 1 and 1000) a point of
ring 0 in azimuth column 20 whose range is a NaN passes the range filter and is stored:
cell `(0, 20)` holds the NaN, which differs from `FLT_MAX`, so the cell is non-empty, and
which is neither at least `lidarMinRange` nor at most `lidarMaxRange`; the point is in the
full-grid buffer; and after a cloud of that point and a point of range 3 that maps to the
same cell, the cell still holds the NaN and the first point. -/
theorem projectPointNaN_stores_nan :
    (projectPointNaN (axisEnv 40) RangeValue.nan nanScan (axisPoint 2 0)).map
        (fun s => (s.2.data 0 20, (s.2.data 0 20).ne FLT_MAX,
          (s.2.data 0 20).lt nanScan.1.lidarMinRange,
          (s.2.data 0 20).gt nanScan.1.lidarMaxRange,
          s.1.fullCloud.data 20)) =
        some (RangeValue.nan, true, false, false, axisPoint 2 0) ∧
      (projectPointCloudNaN (axisEnv 40)
          [(axisPoint 2 0, RangeValue.nan), (axisPoint 3 0, RangeValue.num 3)] nanScan).map
        (fun s => (s.2.data 0 20, s.1.fullCloud.data 20)) =
        some (RangeValue.nan, axisPoint 2 0) ∧
      (nanScan.2.data 0 20, nanScan.1.lidarMinRange, nanScan.1.lidarMaxRange) =
        (RangeValue.num FLT_MAX, 1, 1000) := by
  refine ⟨?_, ?_, ?_⟩ <;> decide!

end Lidar
